import Mathlib

/-!
# SmallBASIC event bridge: Android `runtime.cpp` and MoSync `controller.cpp`

A shallow embedding of the event buffer, the run-state variable, the pause / wait loops and
the chunked connection reader, followed by the properties proved about them.

Conventions of the embedding:

* C++ `int` values are `Int`; where a counter can overflow it is wrapped to 32 bits explicitly
  (`wrapInt32`).
* A pointer that may be `NULL` is an `Option`.
* Calls that leave the translated files (host, Java side, interpreter) are recorded in a `trace`
  field, oldest call first, so that "was called / was not called" can be stated.
* A loop whose exit depends on the host takes a fuel argument; running out of fuel
  (`Outcome.outOfFuel`) is never read as "the function returned".
-/

namespace SmallBASIC

/-! ## Canonical event model (shared by both platforms) -/

/-- Modelled from the spec: the `EVENT_TYPE_*` constants of `maapi.h` are not among the
translated sources; the kinds are the ones listed in spec section 3, and `NONE` is the value `0`
that `Runtime::processEvents` stores when no event was available. -/
inductive EventType
  | NONE
  | EVENT_TYPE_KEY_PRESSED
  | EVENT_TYPE_KEY_RELEASED
  | EVENT_TYPE_POINTER_PRESSED
  | EVENT_TYPE_POINTER_DRAGGED
  | EVENT_TYPE_POINTER_RELEASED
  | EVENT_TYPE_SCREEN_CHANGED
  | EVENT_TYPE_CLOSE
  | EVENT_TYPE_FOCUS_GAINED
  | EVENT_TYPE_FOCUS_LOST
  | EVENT_TYPE_CHAR
  | EVENT_TYPE_CONN
  | EVENT_TYPE_SENSOR
  | EVENT_TYPE_OPTIONS_BOX_BUTTON_CLICKED
  | EVENT_TYPE_TEXTBOX
  | EVENT_TYPE_BT
  deriving DecidableEq, Repr

/-- The `point` payload of an event. -/
structure MAPoint where
  x : Int
  y : Int
  deriving DecidableEq, Repr

/-- The `conn` payload of an event: handle, operation and result of a connection operation. -/
structure MAConnEventData where
  handle : Int
  opType : Int
  result : Int
  deriving DecidableEq, Repr

/-- The fields of `MAEvent` that the translated code reads or writes. -/
structure MAEvent where
  type : EventType
  key : Int
  nativeKey : Int
  point : MAPoint
  touchId : Int
  optionsBoxButtonIndex : Int
  conn : MAConnEventData
  deriving DecidableEq, Repr

/-- The value of `new MAEvent()`: every field zero. -/
def MAEvent.new : MAEvent :=
  { type := EventType.NONE, key := 0, nativeKey := 0, point := { x := 0, y := 0 }, touchId := 0,
    optionsBoxButtonIndex := 0, conn := { handle := 0, opType := 0, result := 0 } }

/-- Result of running code whose progress depends on the host: it returned, it is parked for ever
inside a blocking host call, it dereferenced a `NULL` pointer, or the fuel given to a loop ran
out before the loop ended. -/
inductive Outcome (α : Type)
  | returned (a : α)
  | blocked
  | fault
  | outOfFuel
  deriving DecidableEq, Repr

/-- A C++ `int` after an arithmetic operation: the value wrapped to 32 bits, two's complement. -/
def wrapInt32 (x : Int) : Int := (x + 2147483648) % 4294967296 - 2147483648

end SmallBASIC

namespace Android

open SmallBASIC

/-! ## Android: `src/platform/android/jni/runtime.cpp` -/

def WAIT_INTERVAL : Int := 10
def GBOARD_KEY_QUESTION : Int := 274

/-! Constants of the Android NDK headers (`android/keycodes.h`, `android/input.h`,
`android_native_app_glue.h`); they belong to the platform, not to this repository. -/

def AKEYCODE_HOME : Int := 3
def AKEYCODE_BACK : Int := 4
def AKEYCODE_ENDCALL : Int := 6
def AKEYCODE_DPAD_UP : Int := 19
def AKEYCODE_DPAD_DOWN : Int := 20
def AKEYCODE_DPAD_LEFT : Int := 21
def AKEYCODE_DPAD_RIGHT : Int := 22
def AKEYCODE_CLEAR : Int := 28
def AKEYCODE_TAB : Int := 61
def AKEYCODE_ENTER : Int := 66
def AKEYCODE_DEL : Int := 67
def AKEYCODE_MENU : Int := 82
def AKEYCODE_PAGE_UP : Int := 92
def AKEYCODE_PAGE_DOWN : Int := 93
def AKEYCODE_MOVE_END : Int := 123
def AKEYCODE_INSERT : Int := 124
def AKEYCODE_NUMPAD_MULTIPLY : Int := 155
def AKEYCODE_NUMPAD_SUBTRACT : Int := 156
def AKEYCODE_NUMPAD_ADD : Int := 157
def AINPUT_EVENT_TYPE_KEY : Int := 1
def AINPUT_EVENT_TYPE_MOTION : Int := 2
def AKEY_EVENT_ACTION_DOWN : Int := 0
def AMOTION_EVENT_ACTION_DOWN : Int := 0
def AMOTION_EVENT_ACTION_UP : Int := 1
def AMOTION_EVENT_ACTION_MOVE : Int := 2
def AMOTION_EVENT_ACTION_MASK : Int := 255
def APP_CMD_INIT_WINDOW : Int := 1
def APP_CMD_GAINED_FOCUS : Int := 6
def APP_CMD_LOST_FOCUS : Int := 7

/-- Modelled from the spec: the `_state` enumeration of `ui/system.h` is not among the
translated sources; these are the run states of spec section 3 (Initial, Active, Running, Modal,
Edit, Closing, Done) under the names `runtime.cpp` uses for them. -/
inductive State
  | kInitState
  | kActiveState
  | kRunState
  | kModalState
  | kEditState
  | kClosingState
  | kDoneState
  deriving DecidableEq, Repr

/-- Modelled from the spec: the container `Stack<MAEvent *>` of `ui/strlib.h` is not among the
translated sources; spec section 3 gives its retrieval order as last-in-first-out and section 4.1
says that `pop` signals "empty". The top of the stack is the head of `items`. -/
structure Stack (α : Type) where
  items : List α
  deriving DecidableEq, Repr

/-- The value of `new Stack<T>()`. -/
def Stack.new {α : Type} : Stack α := { items := [] }

def Stack.push {α : Type} (s : Stack α) (o : α) : Stack α := { items := o :: s.items }

/-- The popped element (`none` for the `NULL` an empty stack gives) and the stack left. -/
def Stack.pop {α : Type} (s : Stack α) : Option α × Stack α :=
  match s.items with
  | [] => (none, s)
  | o :: rest => (some o, { items := rest })

def Stack.size {α : Type} (s : Stack α) : Nat := s.items.length

/-- Size of the viewport held by `Graphics`. -/
structure Graphics where
  width : Int
  height : Int
  deriving DecidableEq, Repr

/-- Size the `AnsiWidget` was created with. -/
structure AnsiWidget where
  width : Int
  height : Int
  deriving DecidableEq, Repr

/-- A native input event as read through the `AInputEvent_*`, `AKeyEvent_*` and `AMotionEvent_*`
accessors; `preDispatched` is the answer of `AInputQueue_preDispatchEvent` for it. -/
structure AInputEvent where
  type : Int
  action : Int
  keyCode : Int
  metaState : Int
  x : Int
  y : Int
  preDispatched : Bool
  deriving DecidableEq, Repr

/-- The poll source a looper wake-up reports in `source`. -/
inductive PollSource
  | input (queue : List AInputEvent)
  | cmd (command : Int)
  deriving DecidableEq, Repr

/-- One wake-up of the looper: the events producer threads pushed meanwhile, the source that
fired (if any) and whether `destroyRequested` is raised by it. -/
structure Wakeup where
  pushed : List MAEvent
  source : Option PollSource
  destroyRequested : Bool
  deriving DecidableEq, Repr

/-- Calls that leave `runtime.cpp`, recorded in `Runtime.trace`; `processEvent` is recorded as
well, so that the events a wait processed can be counted. -/
inductive Call
  | ALooper_pollAll (timeoutMillis : Int)
  | usleep (usec : Int)
  | dev_pushkey (key : Int)
  | getUnicodeChar (keyCode : Int) (metaState : Int)
  | showKeypad (visible : Bool)
  | showMenu
  | setBack
  | setExit (quit : Bool)
  | redraw
  | resize
  | handleEvent (event : MAEvent)
  | processEvent (event : MAEvent)
  | AInputQueue_preDispatchEvent (event : AInputEvent)
  | AInputQueue_finishEvent (event : AInputEvent) (handled : Int)
  | ALooper_acquire
  | ALooper_wake
  | ALooper_release
  deriving DecidableEq, Repr

/-- The fields of `Runtime` (and of its base `System`) that the translated functions use,
together with the host: `host` is what the looper will report, poll by poll (`none` is a moment
at which nothing is pending), and `trace` records the outgoing calls. -/
structure Runtime where
  _state : State
  _keypadActive : Bool
  _hasFocus : Bool
  _graphics : Option Graphics
  _output : Option AnsiWidget
  _eventQueue : Option (Stack MAEvent)
  _systemMenu : Option (List Int)
  destroyRequested : Bool
  host : List (Option Wakeup)
  trace : List Call
  deriving DecidableEq

/-- The runtime right after `Runtime::Runtime(app)`, facing the given host. -/
def Runtime.new (host : List (Option Wakeup)) : Runtime :=
  { _state := State.kInitState, _keypadActive := false, _hasFocus := false, _graphics := none,
    _output := none, _eventQueue := none, _systemMenu := none, destroyRequested := false,
    host := host, trace := [] }

def Runtime.call (rt : Runtime) (c : Call) : Runtime := { rt with trace := rt.trace ++ [c] }

/-- `MAEvent *Runtime::popEvent()`: `none` when `_eventQueue` is `NULL` (the call dereferences
it), otherwise the popped event, `NULL` being `none`, and the runtime after the pop. -/
def Runtime.popEvent (rt : Runtime) : Option (Option MAEvent × Runtime) :=
  match rt._eventQueue with
  | none => none
  | some q => some ((q.pop).1, { rt with _eventQueue := some (q.pop).2 })

/-- `void Runtime::pushEvent(MAEvent *event)`: `none` when `_eventQueue` is `NULL`. -/
def Runtime.pushEvent (event : MAEvent) (rt : Runtime) : Option Runtime :=
  match rt._eventQueue with
  | none => none
  | some q => some { rt with _eventQueue := some (q.push event) }

/-- Modelled from the spec: the inline `Runtime::hasEvent()` of the class declaration is not
among the translated sources; section 4.1 describes it as the cheap check for a pending event,
and a `NULL` queue has none. -/
def Runtime.hasEvent (rt : Runtime) : Bool :=
  match rt._eventQueue with
  | none => false
  | some q => decide (0 < q.size)

/-- Pushes the events one after the other, first element first. -/
def Runtime.pushEvents : List MAEvent → Runtime → Option Runtime
  | [], rt => some rt
  | e :: es, rt => (rt.pushEvent e).bind (Runtime.pushEvents es)

/-- Calls `popEvent` `n` times and collects what the calls returned, first call first. -/
def Runtime.popEvents : Nat → Runtime → Option (List (Option MAEvent) × Runtime)
  | 0, rt => some ([], rt)
  | n + 1, rt =>
    match rt.popEvent with
    | none => none
    | some (r, rt1) =>
      match Runtime.popEvents n rt1 with
      | none => none
      | some (rs, rt2) => some (r :: rs, rt2)

/-- Declarations that `runtime.cpp` uses and that live in files which are not among the
translated sources (`ui/system.h`, `ui/system.cpp`, `common/keymap.h`, the Java activity). They
are parameters of the embedding: every theorem holds for whatever they are, under the hypotheses
it states about them. -/
structure SystemDecls where
  isActive : State → Bool
  isRunning : State → Bool
  isBreak : Runtime → Bool
  setBack : Runtime → Runtime
  setExit : Bool → Runtime → Runtime
  handleEvent : MAEvent → Runtime → Runtime
  resize : Runtime → Runtime
  showMenu : Runtime → Runtime
  redraw : Runtime → Runtime
  getUnicodeChar : Int → Int → Int
  SB_KEY_MENU : Int
  SB_KEY_TAB : Int
  SB_KEY_KP_HOME : Int
  SB_KEY_END : Int
  SB_KEY_INSERT : Int
  SB_KEY_KP_MUL : Int
  SB_KEY_KP_PLUS : Int
  SB_KEY_KP_MINUS : Int
  SB_KEY_PGUP : Int
  SB_KEY_PGDN : Int
  SB_KEY_UP : Int
  SB_KEY_DN : Int
  SB_KEY_LEFT : Int
  SB_KEY_RIGHT : Int
  SB_KEY_DELETE : Int
  SB_KEY_BACKSPACE : Int
  SB_KEY_ENTER : Int

/-- Modelled from the spec: the inline `System::isInitial()` of `ui/system.h` is not among the
translated sources; section 4.3 has the Initial state left "provided no prior construction
occurred", so it is the test for the Initial state. -/
def Runtime.isInitial (rt : Runtime) : Bool := decide (rt._state = State.kInitState)

/-- What the host reports at creation of the graphics, the output widget and the event stack in
`Runtime::construct`: whether `new Graphics` and `Graphics::construct` succeed, the window size,
whether `new AnsiWidget` and `AnsiWidget::construct` succeed, whether `new Stack` succeeds. -/
structure ConstructEnv where
  graphicsAllocated : Bool
  graphicsConstructed : Bool
  windowWidth : Int
  windowHeight : Int
  outputAllocated : Bool
  outputConstructed : Bool
  queueAllocated : Bool
  deriving DecidableEq, Repr

/-- `void Runtime::construct()`. -/
def Runtime.construct (env : ConstructEnv) (rt : Runtime) : Runtime :=
  let rt := { rt with _state := State.kClosingState }
  let rt := { rt with _graphics :=
    if env.graphicsAllocated then some { width := env.windowWidth, height := env.windowHeight }
    else none }
  if rt._graphics.isSome && env.graphicsConstructed then
    let w := env.windowWidth
    let h := env.windowHeight
    let rt := { rt with _output :=
      if env.outputAllocated then some { width := w, height := h } else none }
    if rt._output.isSome && env.outputConstructed then
      let rt := { rt with _eventQueue := if env.queueAllocated then some Stack.new else none }
      if rt._eventQueue.isSome then
        { rt with _state := State.kActiveState }
      else rt
    else rt
  else rt

/-- `void Runtime::runShell()`, as far as `_state` goes: whatever the configuration and the run
of the program (`runOnce` or `runMain`, outside the translated files) leave behind, the function
ends with `_state = kDoneState`. -/
def Runtime.runShell (run : Runtime → Runtime) (rt : Runtime) : Runtime :=
  { run rt with _state := State.kDoneState }

/-- `void Runtime::showKeypad(bool show)`. -/
def Runtime.showKeypad (visible : Bool) (rt : Runtime) : Runtime :=
  { rt with _keypadActive := visible }.call (Call.showKeypad visible)

/-- `void Runtime::handleKeyEvent(MAEvent &event)`: the event as the function leaves it and the
runtime afterwards. -/
def Runtime.handleKeyEvent (sys : SystemDecls) (event : MAEvent) (rt : Runtime) :
    MAEvent × Runtime :=
  let r : MAEvent × Runtime :=
    if event.nativeKey = AKEYCODE_ENDCALL then (event, { rt with _systemMenu := none })
    else if event.nativeKey = AKEYCODE_BACK then
      (event, if rt._keypadActive then rt.showKeypad false
              else sys.setBack (rt.call Call.setBack))
    else if event.nativeKey = AKEYCODE_MENU then
      ({ event with key := sys.SB_KEY_MENU }, sys.showMenu (rt.call Call.showMenu))
    else if event.nativeKey = AKEYCODE_TAB then ({ event with key := sys.SB_KEY_TAB }, rt)
    else if event.nativeKey = AKEYCODE_HOME then ({ event with key := sys.SB_KEY_KP_HOME }, rt)
    else if event.nativeKey = AKEYCODE_MOVE_END then ({ event with key := sys.SB_KEY_END }, rt)
    else if event.nativeKey = AKEYCODE_INSERT then ({ event with key := sys.SB_KEY_INSERT }, rt)
    else if event.nativeKey = AKEYCODE_NUMPAD_MULTIPLY then
      ({ event with key := sys.SB_KEY_KP_MUL }, rt)
    else if event.nativeKey = AKEYCODE_NUMPAD_ADD then
      ({ event with key := sys.SB_KEY_KP_PLUS }, rt)
    else if event.nativeKey = AKEYCODE_NUMPAD_SUBTRACT then
      ({ event with key := sys.SB_KEY_KP_MINUS }, rt)
    else if event.nativeKey = AKEYCODE_PAGE_UP then ({ event with key := sys.SB_KEY_PGUP }, rt)
    else if event.nativeKey = AKEYCODE_PAGE_DOWN then ({ event with key := sys.SB_KEY_PGDN }, rt)
    else if event.nativeKey = AKEYCODE_DPAD_UP then ({ event with key := sys.SB_KEY_UP }, rt)
    else if event.nativeKey = AKEYCODE_DPAD_DOWN then ({ event with key := sys.SB_KEY_DN }, rt)
    else if event.nativeKey = AKEYCODE_DPAD_LEFT then ({ event with key := sys.SB_KEY_LEFT }, rt)
    else if event.nativeKey = AKEYCODE_DPAD_RIGHT then
      ({ event with key := sys.SB_KEY_RIGHT }, rt)
    else if event.nativeKey = AKEYCODE_CLEAR then ({ event with key := sys.SB_KEY_DELETE }, rt)
    else if event.nativeKey = AKEYCODE_DEL then ({ event with key := sys.SB_KEY_BACKSPACE }, rt)
    else if event.nativeKey = AKEYCODE_ENTER then ({ event with key := sys.SB_KEY_ENTER }, rt)
    else if event.nativeKey = GBOARD_KEY_QUESTION then ({ event with key := 63 }, rt)
    else if event.nativeKey < 127 ∧ event.nativeKey ≠ event.key then
      ({ event with key := sys.getUnicodeChar event.nativeKey event.key },
        rt.call (Call.getUnicodeChar event.nativeKey event.key))
    else (event, rt)
  if sys.isRunning r.2._state && decide (r.1.key ≠ 0) then
    (r.1, r.2.call (Call.dev_pushkey r.1.key))
  else r

/-- `void Runtime::processEvent(MAEvent &event)`. -/
def Runtime.processEvent (sys : SystemDecls) (event : MAEvent) (rt : Runtime) :
    MAEvent × Runtime :=
  match event.type with
  | EventType.EVENT_TYPE_SCREEN_CHANGED => (event, sys.resize (rt.call Call.resize))
  | EventType.EVENT_TYPE_KEY_PRESSED => rt.handleKeyEvent sys event
  | _ => (event, sys.handleEvent event (rt.call (Call.handleEvent event)))

/-- `MAEvent *getMotionEvent(int type, AInputEvent *event)`. -/
def getMotionEvent (type : EventType) (event : AInputEvent) : MAEvent :=
  { MAEvent.new with type := type, point := { x := event.x, y := event.y } }

/-- `int32_t handleInput(android_app *app, AInputEvent *event)`: the value returned and the
runtime afterwards; `none` when the push dereferences a `NULL` queue. The mask
`action & AMOTION_EVENT_ACTION_MASK` is the remainder modulo 256. -/
def handleInput (sys : SystemDecls) (event : AInputEvent) (rt : Runtime) :
    Option (Int × Runtime) :=
  if sys.isActive rt._state then
    let maEvent : Option MAEvent :=
      if event.type = AINPUT_EVENT_TYPE_MOTION then
        let action := event.action % (AMOTION_EVENT_ACTION_MASK + 1)
        if action = AMOTION_EVENT_ACTION_DOWN then
          some (getMotionEvent EventType.EVENT_TYPE_POINTER_PRESSED event)
        else if action = AMOTION_EVENT_ACTION_MOVE then
          some (getMotionEvent EventType.EVENT_TYPE_POINTER_DRAGGED event)
        else if action = AMOTION_EVENT_ACTION_UP then
          some (getMotionEvent EventType.EVENT_TYPE_POINTER_RELEASED event)
        else none
      else if event.type = AINPUT_EVENT_TYPE_KEY then
        if event.action = AKEY_EVENT_ACTION_DOWN then
          some { MAEvent.new with type := EventType.EVENT_TYPE_KEY_PRESSED,
                                  nativeKey := event.keyCode, key := event.metaState }
        else none
      else none
    match maEvent with
    | some e => (rt.pushEvent e).map (fun rt1 => (1, rt1))
    | none => some (0, rt)
  else some (0, rt)

/-- Modelled from the spec: the inline `Runtime::setFocus(bool)` of the class declaration is not
among the translated sources; section 4.3 has focus changes leave the run state alone and only
gate the polling mode, so it stores the focus flag. -/
def Runtime.setFocus (focus : Bool) (rt : Runtime) : Runtime := { rt with _hasFocus := focus }

/-- `void handleCommand(android_app *app, int32_t cmd)`. -/
def handleCommand (sys : SystemDecls) (env : ConstructEnv) (cmd : Int) (rt : Runtime) : Runtime :=
  if cmd = APP_CMD_INIT_WINDOW then
    if rt.isInitial then rt.construct env else rt
  else if cmd = APP_CMD_GAINED_FOCUS then
    sys.redraw ((rt.setFocus true).call Call.redraw)
  else if cmd = APP_CMD_LOST_FOCUS then
    rt.setFocus false
  else rt

/-- `static void process_input(android_app *app, android_poll_source *source)`, the loop running
over the events the input queue holds. -/
def process_input (sys : SystemDecls) : List AInputEvent → Runtime → Option Runtime
  | [], rt => some rt
  | event :: queue, rt =>
    if event.type = AINPUT_EVENT_TYPE_KEY ∧ event.keyCode = AKEYCODE_BACK then
      let pushed : Option Runtime :=
        if event.action = AKEY_EVENT_ACTION_DOWN ∧ sys.isActive rt._state = true then
          rt.pushEvent { MAEvent.new with nativeKey := AKEYCODE_BACK,
                                          type := EventType.EVENT_TYPE_KEY_PRESSED }
        else some rt
      match pushed with
      | none => none
      | some rt1 => process_input sys queue (rt1.call (Call.AInputQueue_finishEvent event 1))
    else
      let rt1 := rt.call (Call.AInputQueue_preDispatchEvent event)
      if event.preDispatched then process_input sys queue rt1
      else
        match handleInput sys event rt1 with
        | none => none
        | some (handled, rt2) =>
          process_input sys queue (rt2.call (Call.AInputQueue_finishEvent event handled))

/-- `ALooper_pollAll(timeoutMillis, ...)` as seen from `pollEvents`: with a zero timeout it
reports what is pending at this moment (possibly nothing); with the timeout -1 it waits for the
next wake-up and never returns when none is left. The result is the wake-up reported (with
`none` for a timeout) and the host afterwards; the outer `none` is the wait that never ends. -/
def ALooper_pollAll (timeoutMillis : Int) :
    List (Option Wakeup) → Option (Option Wakeup × List (Option Wakeup))
  | [] => if timeoutMillis = -1 then none else some (none, [])
  | some w :: host => some (some w, host)
  | none :: host => if timeoutMillis = -1 then ALooper_pollAll timeoutMillis host
                    else some (none, host)

/-- The environment of `source->process(_app, source)`: the input source runs `process_input`,
the command source hands the command to `handleCommand`. -/
def processSource (sys : SystemDecls) (env : ConstructEnv) (source : Option PollSource)
    (rt : Runtime) : Option Runtime :=
  match source with
  | none => some rt
  | some (PollSource.input queue) => process_input sys queue rt
  | some (PollSource.cmd c) => some (handleCommand sys env c rt)

/-- `void Runtime::pollEvents(bool blocking)`: `blocked` when `ALooper_pollAll` never returns,
`fault` when a push met a `NULL` queue. -/
def Runtime.pollEvents (sys : SystemDecls) (env : ConstructEnv) (blocking : Bool)
    (rt : Runtime) : Outcome Runtime :=
  let timeoutMillis : Int := if blocking || !rt._hasFocus then -1 else 0
  let rt := rt.call (Call.ALooper_pollAll timeoutMillis)
  match ALooper_pollAll timeoutMillis rt.host with
  | none => Outcome.blocked
  | some (none, host) =>
    let rt := { rt with host := host }
    if rt.destroyRequested then Outcome.returned (sys.setExit true (rt.call (Call.setExit true)))
    else Outcome.returned rt
  | some (some w, host) =>
    match (Runtime.pushEvents w.pushed { rt with host := host }).bind
        (processSource sys env w.source) with
    | none => Outcome.fault
    | some rt1 =>
      let rt2 := { rt1 with destroyRequested := rt1.destroyRequested || w.destroyRequested }
      if rt2.destroyRequested then
        Outcome.returned (sys.setExit true (rt2.call (Call.setExit true)))
      else Outcome.returned rt2

/-- The statements `MAEvent *event = popEvent(); processEvent(*event); delete event;` of
`Runtime::pause`. -/
def Runtime.popAndProcess (sys : SystemDecls) (rt : Runtime) : Outcome Runtime :=
  match rt.popEvent with
  | some (some event, rt1) =>
    Outcome.returned ((rt1.call (Call.processEvent event)).processEvent sys event).2
  | _ => Outcome.fault

/-- The `while (1)` loop of `Runtime::pause`, entered with the value of `slept`; one unit of
fuel is one iteration. -/
def Runtime.pauseLoop (sys : SystemDecls) (env : ConstructEnv) (timeout : Int) :
    Nat → Int → Runtime → Outcome Runtime
  | 0, _, _ => Outcome.outOfFuel
  | fuel + 1, slept, rt =>
    match rt.pollEvents sys env false with
    | Outcome.returned rt1 =>
      if sys.isBreak rt1 then Outcome.returned rt1
      else
        match (if rt1.hasEvent then rt1.popAndProcess sys else Outcome.returned rt1) with
        | Outcome.returned rt2 =>
          let rt3 := rt2.call (Call.usleep (WAIT_INTERVAL * 1000))
          let slept1 := wrapInt32 (slept + WAIT_INTERVAL)
          if timeout > 0 ∧ slept1 > timeout then Outcome.returned rt3
          else Runtime.pauseLoop sys env timeout fuel slept1 rt3
        | o => o
    | o => o

/-- `void Runtime::pause(int timeout)`. -/
def Runtime.pause (sys : SystemDecls) (env : ConstructEnv) (timeout : Int) (fuel : Nat)
    (rt : Runtime) : Outcome Runtime :=
  if timeout = -1 then
    match rt.pollEvents sys env true with
    | Outcome.returned rt1 =>
      if rt1.hasEvent then rt1.popAndProcess sys else Outcome.returned rt1
    | o => o
  else Runtime.pauseLoop sys env timeout fuel 0 rt

/-- The number of milliseconds slept according to a trace: the `usleep` arguments, each divided
by 1000, added up. -/
def sleptMillis (trace : List Call) : Int :=
  (trace.map (fun c => match c with
    | Call.usleep usec => usec / 1000
    | _ => 0)).sum

/-- The events handed to `processEvent` according to a trace, oldest first. -/
def processedEvents (trace : List Call) : List MAEvent :=
  trace.filterMap (fun c => match c with
    | Call.processEvent event => some event
    | _ => none)

/-- The trace of `n` iterations of the loop of `Runtime::pause` in which nothing happens: a poll
with a zero timeout and a sleep of `WAIT_INTERVAL` milliseconds each. -/
def idleIterations : Nat → List Call
  | 0 => []
  | n + 1 => Call.ALooper_pollAll 0 :: Call.usleep (WAIT_INTERVAL * 1000) :: idleIterations n

/-- The runtime after `n` iterations of the loop of `Runtime::pause` in which nothing happened:
`n` moments of the host have gone by and the trace has grown by `idleIterations n`; every field
of the runtime proper is as before. -/
def Runtime.afterIdle (rt : Runtime) (n : Nat) : Runtime :=
  { rt with host := rt.host.drop n, trace := rt.trace ++ idleIterations n }

/-- A choice of the declarations `runtime.cpp` takes from elsewhere, used where a concrete run is
evaluated: the runtime is active outside Initial and Done, a program runs in the Running and
Modal states, the break flag is never raised, nothing else acts on the fields modelled here, and
`getUnicodeChar` answers with the key code. -/
def sampleDecls : SystemDecls :=
  { isActive := fun s => decide (s ≠ State.kInitState ∧ s ≠ State.kDoneState),
    isRunning := fun s => decide (s = State.kRunState ∨ s = State.kModalState),
    isBreak := fun _ => false,
    setBack := fun rt => rt,
    setExit := fun quit rt => if quit then { rt with _state := State.kClosingState } else rt,
    handleEvent := fun _ rt => rt,
    resize := fun rt => rt,
    showMenu := fun rt => rt,
    redraw := fun rt => rt,
    getUnicodeChar := fun keyCode _ => keyCode,
    SB_KEY_MENU := 1001, SB_KEY_TAB := 9, SB_KEY_KP_HOME := 1002, SB_KEY_END := 1003,
    SB_KEY_INSERT := 1004, SB_KEY_KP_MUL := 1005, SB_KEY_KP_PLUS := 1006,
    SB_KEY_KP_MINUS := 1007, SB_KEY_PGUP := 1008, SB_KEY_PGDN := 1009, SB_KEY_UP := 1010,
    SB_KEY_DN := 1011, SB_KEY_LEFT := 1012, SB_KEY_RIGHT := 1013, SB_KEY_DELETE := 127,
    SB_KEY_BACKSPACE := 8, SB_KEY_ENTER := 10 }

/-- The same declarations, except that the break flag is up in the Closing and Done states. -/
def closingBreaks : SystemDecls :=
  { sampleDecls with
    isBreak := fun rt => decide (rt._state = State.kClosingState ∨ rt._state = State.kDoneState) }

/-- A host at which every creation step of `Runtime::construct` succeeds, with a window of 800
by 600. -/
def sampleEnv : ConstructEnv :=
  { graphicsAllocated := true, graphicsConstructed := true, windowWidth := 800,
    windowHeight := 600, outputAllocated := true, outputConstructed := true,
    queueAllocated := true }

/-- A constructed runtime that has focus, with an empty event buffer, facing the given host. -/
def sampleRuntime (host : List (Option Wakeup)) : Runtime :=
  { (Runtime.new host).construct sampleEnv with _hasFocus := true }

/-- An event of the given kind carrying the given key, used to tell events apart. -/
def sampleEvent (type : EventType) (key : Int) : MAEvent :=
  { MAEvent.new with type := type, key := key }

/-- Modelled from the spec: `Graphics::getWidth()` of `ui/graphics.h` is not among the translated
sources; section 4.2 speaks of the viewport dimensions the resize updates, so the accessor reads
the stored width. -/
def Graphics.getWidth (g : Graphics) : Int := g.width

/-- Modelled from the spec: `Graphics::getHeight()`, as `Graphics.getWidth`. -/
def Graphics.getHeight (g : Graphics) : Int := g.height

/-- Modelled from the spec: `Graphics::setSize(w, h)` of `ui/graphics.h` is not among the
translated sources; section 4.2 has the resize update the viewport dimensions synchronously, so
it stores both. -/
def Graphics.setSize (_g : Graphics) (w h : Int) : Graphics := { width := w, height := h }

/-- `void Runtime::onResize(int width, int height)`: `none` when the push dereferences a `NULL`
queue. -/
def Runtime.onResize (width height : Int) (rt : Runtime) : Option Runtime :=
  match rt._graphics with
  | none => some rt
  | some g =>
    let w := g.getWidth
    let h := g.getHeight
    if w ≠ width ∨ h ≠ height then
      let rt1 := rt.call Call.ALooper_acquire
      let rt2 := { rt1 with _graphics := some (g.setSize width height) }
      match rt2.pushEvent { MAEvent.new with type := EventType.EVENT_TYPE_SCREEN_CHANGED } with
      | none => none
      | some rt3 => some ((rt3.call Call.ALooper_wake).call Call.ALooper_release)
    else some rt

/-- `void Runtime::onUnicodeChar(int ch)`: `none` when the push dereferences a `NULL` queue. -/
def Runtime.onUnicodeChar (ch : Int) (rt : Runtime) : Option Runtime :=
  let maEvent : MAEvent :=
    { MAEvent.new with type := EventType.EVENT_TYPE_KEY_PRESSED, nativeKey := ch, key := ch }
  match (rt.call Call.ALooper_acquire).pushEvent maEvent with
  | none => none
  | some rt1 => some ((rt1.call Call.ALooper_wake).call Call.ALooper_release)

/-- The case labels of the `switch (event.nativeKey)` of `Runtime::handleKeyEvent`, in the order
of the source: the two intercepted keys (End-call, Back) and the eighteen entries that assign a
canonical key. A native code that is not in this list reaches the `default:` branch. -/
def switchCases : List Int :=
  [AKEYCODE_ENDCALL, AKEYCODE_BACK, AKEYCODE_MENU, AKEYCODE_TAB, AKEYCODE_HOME,
    AKEYCODE_MOVE_END, AKEYCODE_INSERT, AKEYCODE_NUMPAD_MULTIPLY, AKEYCODE_NUMPAD_ADD,
    AKEYCODE_NUMPAD_SUBTRACT, AKEYCODE_PAGE_UP, AKEYCODE_PAGE_DOWN, AKEYCODE_DPAD_UP,
    AKEYCODE_DPAD_DOWN, AKEYCODE_DPAD_LEFT, AKEYCODE_DPAD_RIGHT, AKEYCODE_CLEAR, AKEYCODE_DEL,
    AKEYCODE_ENTER, GBOARD_KEY_QUESTION]

/-- The `SB_KEY_*` constants of `common/keymap.h` that `Runtime::handleKeyEvent` assigns, in the
order of its case labels. -/
def SystemDecls.keymap (sys : SystemDecls) : List Int :=
  [sys.SB_KEY_MENU, sys.SB_KEY_TAB, sys.SB_KEY_KP_HOME, sys.SB_KEY_END, sys.SB_KEY_INSERT,
    sys.SB_KEY_KP_MUL, sys.SB_KEY_KP_PLUS, sys.SB_KEY_KP_MINUS, sys.SB_KEY_PGUP, sys.SB_KEY_PGDN,
    sys.SB_KEY_UP, sys.SB_KEY_DN, sys.SB_KEY_LEFT, sys.SB_KEY_RIGHT, sys.SB_KEY_DELETE,
    sys.SB_KEY_BACKSPACE, sys.SB_KEY_ENTER]

/-- The number of events the buffer holds; a `NULL` queue holds none. -/
def Runtime.bufferSize (rt : Runtime) : Nat :=
  match rt._eventQueue with
  | none => 0
  | some q => q.size

/-- The members of `System` reached from `runtime.cpp` (`setBack`, `setExit`, `handleEvent`,
`resize`, `showMenu`, `redraw`) leave the event buffer, a private member of `Runtime`, as it
is. -/
def SystemDecls.KeepsBuffer (sys : SystemDecls) : Prop :=
  (∀ r, (sys.setBack r)._eventQueue = r._eventQueue) ∧
  (∀ b r, (sys.setExit b r)._eventQueue = r._eventQueue) ∧
  (∀ e r, (sys.handleEvent e r)._eventQueue = r._eventQueue) ∧
  (∀ r, (sys.resize r)._eventQueue = r._eventQueue) ∧
  (∀ r, (sys.showMenu r)._eventQueue = r._eventQueue) ∧
  (∀ r, (sys.redraw r)._eventQueue = r._eventQueue)

/-- The event `process_input` builds for a native Back key: `new MAEvent()` with `nativeKey`
and `type` assigned, the translated key still zero. -/
def backEvent : MAEvent :=
  { MAEvent.new with nativeKey := AKEYCODE_BACK, type := EventType.EVENT_TYPE_KEY_PRESSED }

/-- A native key event with the given action, key code and meta state that the pre-dispatch
does not consume. -/
def keyInput (action keyCode metaState : Int) : AInputEvent :=
  { type := AINPUT_EVENT_TYPE_KEY, action := action, keyCode := keyCode, metaState := metaState,
    x := 0, y := 0, preDispatched := false }

/-- A native motion event with the given action and position that the pre-dispatch does not
consume. -/
def motionInput (action x y : Int) : AInputEvent :=
  { type := AINPUT_EVENT_TYPE_MOTION, action := action, keyCode := 0, metaState := 0,
    x := x, y := y, preDispatched := false }

/-- A wake-up of the looper at which a producer thread has pushed the given events, with no poll
source ready and no destroy request. -/
def pushedWakeup (events : List MAEvent) : Wakeup :=
  { pushed := events, source := none, destroyRequested := false }

/-! ### Settings file -/

def CONFIG_FILE : List Char := "/settings.txt".toList
def PATH_KEY : List Char := "path".toList
def FONT_SCALE_KEY : List Char := "fontScale2".toList
def FONT_ID_KEY : List Char := "fontId".toList
def SERVER_SOCKET_KEY : List Char := "serverSocket".toList
def SERVER_TOKEN_KEY : List Char := "serverToken".toList
def MUTE_AUDIO_KEY : List Char := "muteAudio".toList
def OPT_IDE_KEY : List Char := "optIde".toList

/-- The C library `strstr(haystack, needle) != NULL`: whether `needle` occurs in `haystack` as a
run of consecutive characters. -/
def strstr : List Char → List Char → Bool
  | [], needle => needle.isEmpty
  | c :: rest, needle => needle.isPrefixOf (c :: rest) || strstr rest needle

/-- The text `fprintf` writes for the conversion `%d`. -/
def formatInt (n : Int) : List Char := (toString n).toList

/-- What `Runtime::saveConfig` reads: whether `fopen` gives a file, the working directory
`getcwd` reports, the members and globals it prints, and the entries of `environ` in order. -/
structure ConfigEnv where
  fileOpened : Bool
  cwd : List Char
  _fontScale : Int
  opt_mute_audio : Int
  opt_ide : Int
  environ : List (List Char)
  deriving DecidableEq, Repr

/-- The test of the loop over `environ` in `Runtime::saveConfig`. -/
def passesThrough (env : List Char) : Bool :=
  strstr env SERVER_SOCKET_KEY || strstr env SERVER_TOKEN_KEY || strstr env FONT_ID_KEY

/-- `void Runtime::saveConfig()`: the texts of the successive `fprintf` calls, `none` when the
settings file could not be opened (nothing is written then). -/
def saveConfig (e : ConfigEnv) : Option (List (List Char)) :=
  if e.fileOpened then
    some ([PATH_KEY ++ "='".toList ++ e.cwd ++ "'\n".toList,
        FONT_SCALE_KEY ++ "=".toList ++ formatInt e._fontScale ++ "\n".toList,
        MUTE_AUDIO_KEY ++ "=".toList ++ formatInt e.opt_mute_audio ++ "\n".toList,
        OPT_IDE_KEY ++ "=".toList ++ formatInt e.opt_ide ++ "\n".toList] ++
      (e.environ.filter passesThrough).map (fun env => env ++ "\n".toList))
  else none

/-- The key of an environment entry `key=value`: the text before the first `=`. -/
def envKey (env : List Char) : List Char := env.takeWhile (fun ch => ch != '=')

/-- The passthrough keys named by the settings file: server socket, server token, font id. -/
def passthroughKeys : List (List Char) := [SERVER_SOCKET_KEY, SERVER_TOKEN_KEY, FONT_ID_KEY]

/-- A process environment used where a concrete run is evaluated. -/
def sampleConfigEnv : ConfigEnv :=
  { fileOpened := true, cwd := "/sdcard".toList, _fontScale := 100, opt_mute_audio := 0,
    opt_ide := 1,
    environ := ["HOME=/data/fontId".toList, "serverSocket=8080".toList, "LANG=en".toList,
      "fontId=2".toList] }

/-! ### Module procedures (`sblib_*`) -/

/-- Constants of the Android NDK header `android/sensor.h`. -/
def ASENSOR_TYPE_ACCELEROMETER : Int := 1
def ASENSOR_TYPE_MAGNETIC_FIELD : Int := 2
def ASENSOR_TYPE_GYROSCOPE : Int := 4
def ASENSOR_TYPE_LIGHT : Int := 5
def ASENSOR_TYPE_PROXIMITY : Int := 8

/-- Modelled from the spec: the type tags of `common/var.h` are not among the translated
sources; these are the three tags the module procedures test, and `V_OTHER` for every other
kind of variable. -/
inductive VarType
  | V_INT
  | V_NUM
  | V_STR
  | V_OTHER
  deriving DecidableEq, Repr

/-- Modelled from the spec: `var_t` of `common/var.h` is not among the translated sources;
section 3 describes the return slot as holding a string-valued error, so a variable is a type tag
with the integer and the string it may hold. -/
structure var_t where
  type : VarType
  i : Int
  str : List Char
  deriving DecidableEq, Repr

/-- Modelled from the spec: `v_is_type(v, type)` of `common/var.h`, the test of the type tag. -/
def v_is_type (v : var_t) (type : VarType) : Bool := decide (v.type = type)

/-- Modelled from the spec: `v_setstr(var, string)` of `common/var.h`, which places a string in
the variable (section 3: "a string-valued error placed in the return slot"). -/
def v_setstr (_var : var_t) (string : List Char) : var_t :=
  { type := VarType.V_STR, i := 0, str := string }

/-- Declarations the module procedures use and that live in files which are not among the
translated sources: the conversions `v_getint` and `v_getstr` of `common/var.h` and the message
`ERR_PARAM` of `languages/messages.en.h`. -/
structure ModuleDecls where
  v_getint : var_t → Int
  v_getstr : var_t → List Char
  ERR_PARAM : List Char

/-- Calls the module procedures make to the Java activity and to the sensor manager;
`setFloat name v` stands for `setFloat(name, v_getreal(v))`. -/
inductive ModuleCall
  | getBoolean (methodName : List Char)
  | speak (text : List Char)
  | setFloat (methodName : List Char) (value : var_t)
  | setString (methodName : List Char) (value : List Char)
  | ASensorManager_createEventQueue
  | ASensorManager_destroyEventQueue
  | ASensorEventQueue_enableSensor (sensor : Int)
  | ASensorEventQueue_disableSensor (sensor : Int)
  deriving DecidableEq, Repr

/-- The answers of the sensor manager: whether `ASensorManager_createEventQueue` gives a queue,
and the default sensor of each sensor type, if the device has one. -/
structure SensorManager where
  queueCreated : Bool
  defaultSensor : Int → Option Int

/-- The sensor members of `Runtime` (`_sensorEventQueue` as "is not `NULL`", `_sensor`,
`_sensorEvent.type`) and the calls the module procedures have made so far. -/
structure Sensors where
  _sensorEventQueue : Bool
  _sensor : Option Int
  _sensorEventType : Int
  calls : List ModuleCall
  deriving DecidableEq, Repr

def Sensors.call (s : Sensors) (c : ModuleCall) : Sensors := { s with calls := s.calls ++ [c] }

/-- `void Runtime::disableSensor()`. -/
def Sensors.disableSensor (s : Sensors) : Sensors :=
  let s1 :=
    if s._sensorEventQueue then
      (match s._sensor with
        | some sensor => s.call (ModuleCall.ASensorEventQueue_disableSensor sensor)
        | none => s).call ModuleCall.ASensorManager_destroyEventQueue
    else s
  { s1 with _sensorEventQueue := false, _sensor := none }

/-- `bool Runtime::enableSensor(int sensorType)`. -/
def Sensors.enableSensor (m : SensorManager) (sensorType : Int) (s : Sensors) :
    Bool × Sensors :=
  let s1 := { s with _sensorEventType := 0 }
  let s2 :=
    if !s1._sensorEventQueue then
      { s1.call ModuleCall.ASensorManager_createEventQueue with
        _sensorEventQueue := m.queueCreated }
    else
      match s1._sensor with
      | some sensor => s1.call (ModuleCall.ASensorEventQueue_disableSensor sensor)
      | none => s1
  let s3 := { s2 with _sensor := m.defaultSensor sensorType }
  match s3._sensor with
  | some sensor => (true, s3.call (ModuleCall.ASensorEventQueue_enableSensor sensor))
  | none => (false, s3)

/-! The module procedures give the value returned, the return slot and the sensor state
afterwards; the result is `none` when a procedure reads `params[0]` and the array is empty. -/

/-- `int gps_on(int param_count, slib_par_t *params, var_t *retval)`. -/
def gps_on (_param_count : Int) (_params : List var_t) (retval : var_t) (s : Sensors) :
    Option (Int × var_t × Sensors) :=
  some (1, retval, s.call (ModuleCall.getBoolean "requestLocationUpdates".toList))

/-- `int gps_off(int param_count, slib_par_t *params, var_t *retval)`. -/
def gps_off (_param_count : Int) (_params : List var_t) (retval : var_t) (s : Sensors) :
    Option (Int × var_t × Sensors) :=
  some (1, retval, s.call (ModuleCall.getBoolean "removeLocationUpdates".toList))

/-- `int sensor_on(int param_count, slib_par_t *params, var_t *retval)`. -/
def sensor_on (d : ModuleDecls) (m : SensorManager) (param_count : Int) (params : List var_t) (retval : var_t)
    (s : Sensors) : Option (Int × var_t × Sensors) :=
  let enabled : Option (Bool × Sensors) :=
    if param_count = 1 then
      match params.head? with
      | none => none
      | some p =>
        let id := d.v_getint p
        if id = 0 then some (s.enableSensor m ASENSOR_TYPE_ACCELEROMETER)
        else if id = 1 then some (s.enableSensor m ASENSOR_TYPE_MAGNETIC_FIELD)
        else if id = 2 then some (s.enableSensor m ASENSOR_TYPE_GYROSCOPE)
        else if id = 3 then some (s.enableSensor m ASENSOR_TYPE_LIGHT)
        else if id = 4 then some (s.enableSensor m ASENSOR_TYPE_PROXIMITY)
        else some (false, s)
    else some (false, s)
  match enabled with
  | none => none
  | some (result, s1) =>
    if !result then some (0, v_setstr retval "sensor not active".toList, s1)
    else some (1, retval, s1)

/-- `int sensor_off(int param_count, slib_par_t *params, var_t *retval)`. -/
def sensor_off (_param_count : Int) (_params : List var_t) (retval : var_t) (s : Sensors) :
    Option (Int × var_t × Sensors) :=
  some (1, retval, s.disableSensor)

/-- `int tts_speak(int param_count, slib_par_t *params, var_t *retval)`. -/
def tts_speak (d : ModuleDecls) (param_count : Int) (params : List var_t) (retval : var_t)
    (s : Sensors) : Option (Int × var_t × Sensors) :=
  if param_count = 1 then
    match params.head? with
    | none => none
    | some p =>
      if v_is_type p VarType.V_STR then
        some (1, retval, s.call (ModuleCall.speak (d.v_getstr p)))
      else some (0, v_setstr retval d.ERR_PARAM, s)
  else some (0, v_setstr retval d.ERR_PARAM, s)

/-- `int tts_pitch(int param_count, slib_par_t *params, var_t *retval)`. -/
def tts_pitch (d : ModuleDecls) (param_count : Int) (params : List var_t) (retval : var_t)
    (s : Sensors) : Option (Int × var_t × Sensors) :=
  if param_count = 1 then
    match params.head? with
    | none => none
    | some p =>
      if v_is_type p VarType.V_NUM || v_is_type p VarType.V_INT then
        some (1, retval, s.call (ModuleCall.setFloat "setTtsPitch".toList p))
      else some (0, v_setstr retval d.ERR_PARAM, s)
  else some (0, v_setstr retval d.ERR_PARAM, s)

/-- `int tts_speech_rate(int param_count, slib_par_t *params, var_t *retval)`. -/
def tts_speech_rate (d : ModuleDecls) (param_count : Int) (params : List var_t)
    (retval : var_t) (s : Sensors) : Option (Int × var_t × Sensors) :=
  if param_count = 1 then
    match params.head? with
    | none => none
    | some p =>
      if v_is_type p VarType.V_NUM || v_is_type p VarType.V_INT then
        some (1, retval, s.call (ModuleCall.setFloat "setTtsRate".toList p))
      else some (0, v_setstr retval d.ERR_PARAM, s)
  else some (0, v_setstr retval d.ERR_PARAM, s)

/-- `int tts_lang(int param_count, slib_par_t *params, var_t *retval)`. -/
def tts_lang (d : ModuleDecls) (param_count : Int) (params : List var_t) (retval : var_t)
    (s : Sensors) : Option (Int × var_t × Sensors) :=
  if param_count = 1 then
    match params.head? with
    | none => none
    | some p =>
      if v_is_type p VarType.V_STR then
        some (1, retval, s.call (ModuleCall.setString "setTtsLocale".toList (d.v_getstr p)))
      else some (0, v_setstr retval d.ERR_PARAM, s)
  else some (0, v_setstr retval d.ERR_PARAM, s)

/-- `int tts_off(int param_count, slib_par_t *params, var_t *retval)`. -/
def tts_off (_param_count : Int) (_params : List var_t) (retval : var_t) (s : Sensors) :
    Option (Int × var_t × Sensors) :=
  some (1, retval, s.call (ModuleCall.getBoolean "setTtsQuiet".toList))

/-- An entry of `lib_procs`: `struct LibProcs`. The command takes the declarations and the sensor
manager it may need besides the three arguments of the C function. -/
structure LibProcs where
  name : List Char
  command : ModuleDecls → SensorManager → Int → List var_t → var_t → Sensors →
    Option (Int × var_t × Sensors)

/-- The table `lib_procs[]`. -/
def lib_procs : List LibProcs :=
  [{ name := "GPS_ON".toList, command := fun _ _ => gps_on },
    { name := "GPS_OFF".toList, command := fun _ _ => gps_off },
    { name := "SENSOR_ON".toList, command := sensor_on },
    { name := "SENSOR_OFF".toList, command := fun _ _ => sensor_off },
    { name := "TTS_PITCH".toList, command := fun d _ => tts_pitch d },
    { name := "TTS_RATE".toList, command := fun d _ => tts_speech_rate d },
    { name := "TTS_LANG".toList, command := fun d _ => tts_lang d },
    { name := "TTS_OFF".toList, command := fun _ _ => tts_off },
    { name := "SPEAK".toList, command := fun d _ => tts_speak d }]

/-- `int sblib_proc_count(void)`. -/
def sblib_proc_count : Int := lib_procs.length

/-- The element `table[index]` of a C array: `none` when the index is outside the array, where
the access reads memory that is not part of the table. -/
def arrayAt {α : Type} (table : List α) (index : Int) : Option α :=
  if index < 0 then none else table.get? index.toNat

/-- `int sblib_proc_getname(int index, char *proc_name)`: the value returned and the content of
`proc_name` afterwards; `none` when the function reads outside `lib_procs`. -/
def sblib_proc_getname (index : Int) (proc_name : List Char) : Option (Int × List Char) :=
  if index < sblib_proc_count then
    match arrayAt lib_procs index with
    | none => none
    | some entry => some (1, entry.name)
  else some (0, proc_name)

/-- `int sblib_proc_exec(int index, int param_count, slib_par_t *params, var_t *retval)`:
`none` when the function reads outside `lib_procs` (or the procedure reads outside `params`). -/
def sblib_proc_exec (d : ModuleDecls) (m : SensorManager) (index : Int) (param_count : Int)
    (params : List var_t) (retval : var_t) (s : Sensors) : Option (Int × var_t × Sensors) :=
  if index < sblib_proc_count then
    match arrayAt lib_procs index with
    | none => none
    | some entry => entry.command d m param_count params retval s
  else some (0, retval, s)

/-- The table `lib_funcs[]`. -/
def lib_funcs : List (List Char) := ["LOCATION".toList, "SENSOR".toList]

/-- `int sblib_func_count(void)`. -/
def sblib_func_count : Int := lib_funcs.length

/-- `int sblib_func_getname(int index, char *proc_name)`: as `sblib_proc_getname`. -/
def sblib_func_getname (index : Int) (proc_name : List Char) : Option (Int × List Char) :=
  if index < sblib_func_count then
    match arrayAt lib_funcs index with
    | none => none
    | some name => some (1, name)
  else some (0, proc_name)

/-- A choice of the declarations the module procedures take from elsewhere: `v_getint` and
`v_getstr` read the fields of the variable. -/
def sampleModuleDecls : ModuleDecls :=
  { v_getint := fun v => v.i, v_getstr := fun v => v.str, ERR_PARAM := "Invalid parameter".toList }

/-- A device with an accelerometer and a light sensor only. -/
def sampleSensorManager : SensorManager :=
  { queueCreated := true,
    defaultSensor := fun type =>
      if type = ASENSOR_TYPE_ACCELEROMETER ∨ type = ASENSOR_TYPE_LIGHT then some type else none }

/-- The sensor members right after `Runtime::Runtime(app)`. -/
def Sensors.new : Sensors :=
  { _sensorEventQueue := false, _sensor := none, _sensorEventType := 0, calls := [] }

/-- An integer variable. -/
def intVar (n : Int) : var_t := { type := VarType.V_INT, i := n, str := [] }

/-- A string variable. -/
def strVar (s : List Char) : var_t := { type := VarType.V_STR, i := 0, str := s }

end Android

namespace MoSync

open SmallBASIC

/-! ## MoSync: `src/platform/mosync/controller.cpp` -/

def LONG_PRESS_TIME : Int := 3000

/-- Modelled from the spec: the run-mode enumeration of `controller.h` is not among the
translated sources; these are the five modes `controller.cpp` names. `exit_state` is the Closing
state of spec section 3, `conn_state` the wait for a connection. -/
inductive ExecState
  | init_state
  | run_state
  | modal_state
  | conn_state
  | exit_state
  deriving DecidableEq, Repr

/-- Declarations that `controller.cpp` uses and that live in files which are not among the
translated sources: the inline `isRunning()` of `controller.h`, the `MAK_*` key codes and
`CONNOP_*` codes of the MoSync `maapi.h`, the `SB_*` key codes of the interpreter. `uninit` is
the indeterminate value of the local `MAEvent event` of `processEvents`, which the function
returns when it fetched no event. -/
structure Decls where
  isRunning : ExecState → Bool
  uninit : MAEvent
  CONNOP_CONNECT : Int
  CONNOP_READ : Int
  MAK_FIRE : Int
  MAK_5 : Int
  MAK_SOFTRIGHT : Int
  MAK_BACK : Int
  MAK_TAB : Int
  MAK_HOME : Int
  MAK_END : Int
  MAK_INSERT : Int
  MAK_MENU : Int
  MAK_KP_MULTIPLY : Int
  MAK_KP_PLUS : Int
  MAK_KP_MINUS : Int
  MAK_SLASH : Int
  MAK_PAGEUP : Int
  MAK_PAGEDOWN : Int
  MAK_UP : Int
  MAK_DOWN : Int
  MAK_LEFT : Int
  MAK_RIGHT : Int
  MAK_BACKSPACE : Int
  MAK_DELETE : Int
  SB_KEY_TAB : Int
  SB_KEY_KP_HOME : Int
  SB_KEY_END : Int
  SB_KEY_INSERT : Int
  SB_KEY_MENU : Int
  SB_KEY_KP_MUL : Int
  SB_KEY_KP_PLUS : Int
  SB_KEY_KP_MINUS : Int
  SB_KEY_KP_DIV : Int
  SB_KEY_PGUP : Int
  SB_KEY_PGDN : Int
  SB_KEY_UP : Int
  SB_KEY_DN : Int
  SB_KEY_LEFT : Int
  SB_KEY_RIGHT : Int
  SB_KEY_BACKSPACE : Int
  SB_PKEY_SIZE_CHG : Int
  SB_KEY_MK_PUSH : Int
  SB_KEY_MK_RELEASE : Int

/-- Calls that leave `controller.cpp`, recorded in `Controller.trace`. -/
inductive Call
  | maWait (ms : Int)
  | dev_pushkey (key : Int)
  | dev_clrkb
  | osd_cls
  | ui_reset
  | brun_break
  | runIdleListeners
  | fireEvent (event : MAEvent)
  | maConnect
  | maConnRead (conn : Int) (size : Int)
  | maConnClose (conn : Int)
  deriving DecidableEq, Repr

/-- What one call of `maGetEvent` finds: an event, together with the bytes the host stored in
the buffer of the outstanding `maConnRead` before it posted the event (empty for every event but
a read completion). -/
structure HostEvent where
  event : MAEvent
  stored : List Nat
  deriving DecidableEq, Repr

/-- The fields of `Controller` that the translated functions use, together with the host:
`events` is what the successive calls of `maGetEvent` will find (`none` is a call that finds the
queue empty), `clock` the values the coming calls of `maGetMilliSecondCount` return (`now` once
they are used up), `scrWidth` and `scrHeight` the answer of `maGetScrSize`, `readBuffer` the
1024 bytes of the local `buffer` of `readConnection` that the host fills, and `trace` records
the outgoing calls. -/
structure Controller where
  runMode : ExecState
  lastEventTime : Int
  eventsPerTick : Int
  penDownX : Int
  penDownY : Int
  penDownTime : Int
  loadPath : List Char
  outputWidth : Int
  outputHeight : Int
  events : List (Option HostEvent)
  clock : List Int
  now : Int
  scrWidth : Int
  scrHeight : Int
  readBuffer : List Nat
  trace : List Call
  deriving DecidableEq

def Controller.call (c : Controller) (x : Call) : Controller := { c with trace := c.trace ++ [x] }

/-- Modelled from the spec: the inline `isExit()` of `controller.h` is not among the translated
sources; it is the test for the Closing state, here `exit_state`. -/
def Controller.isExit (c : Controller) : Bool := decide (c.runMode = ExecState.exit_state)

/-- Modelled from the spec: the inline `isModal()` of `controller.h` is not among the translated
sources; it is the test for the Modal state. -/
def Controller.isModal (c : Controller) : Bool := decide (c.runMode = ExecState.modal_state)

/-- `maGetMilliSecondCount()`: the value read and the controller with the clock advanced. -/
def Controller.maGetMilliSecondCount (c : Controller) : Int × Controller :=
  match c.clock with
  | [] => (c.now, c)
  | t :: rest => (t, { c with clock := rest, now := t })

/-- The second `switch (key)` of `Controller::handleKey`: the key each case hands to
`dev_pushkey`. -/
def pushedKey (d : Decls) (key : Int) : Int :=
  if key = d.MAK_TAB then d.SB_KEY_TAB
  else if key = d.MAK_HOME then d.SB_KEY_KP_HOME
  else if key = d.MAK_END then d.SB_KEY_END
  else if key = d.MAK_INSERT then d.SB_KEY_INSERT
  else if key = d.MAK_MENU then d.SB_KEY_MENU
  else if key = d.MAK_KP_MULTIPLY then d.SB_KEY_KP_MUL
  else if key = d.MAK_KP_PLUS then d.SB_KEY_KP_PLUS
  else if key = d.MAK_KP_MINUS then d.SB_KEY_KP_MINUS
  else if key = d.MAK_SLASH then d.SB_KEY_KP_DIV
  else if key = d.MAK_PAGEUP then d.SB_KEY_PGUP
  else if key = d.MAK_PAGEDOWN then d.SB_KEY_PGDN
  else if key = d.MAK_UP then d.SB_KEY_UP
  else if key = d.MAK_DOWN then d.SB_KEY_DN
  else if key = d.MAK_LEFT then d.SB_KEY_LEFT
  else if key = d.MAK_RIGHT then d.SB_KEY_RIGHT
  else if key = d.MAK_BACKSPACE ∨ key = d.MAK_DELETE then d.SB_KEY_BACKSPACE
  else key

/-- The first `switch (key)` of `Controller::handleKey`. -/
def Controller.handleKeyExit (d : Decls) (key : Int) (c : Controller) : Controller :=
  if key = d.MAK_FIRE ∨ key = d.MAK_5 then c
  else if key = d.MAK_SOFTRIGHT ∨ key = d.MAK_BACK then
    { c with runMode := ExecState.exit_state }
  else c

/-- `void Controller::handleKey(int key)`: the first `switch`, then, if `isRunning()`, the
second one, every case of which is a `dev_pushkey`. -/
def Controller.handleKey (d : Decls) (key : Int) (c : Controller) : Controller :=
  if d.isRunning (c.handleKeyExit d key).runMode then
    (c.handleKeyExit d key).call (Call.dev_pushkey (pushedKey d key))
  else c.handleKeyExit d key

/-- `void Controller::fireEvent(MAEvent &event)`: the event goes to the listeners of the MAUI
framework, which are outside the translated files; the call is recorded. -/
def Controller.fireEvent (event : MAEvent) (c : Controller) : Controller :=
  c.call (Call.fireEvent event)

/-- The `switch (event.type)` of `Controller::processEvents`. -/
def Controller.dispatch (d : Decls) (event : MAEvent) (c : Controller) : Controller :=
  match event.type with
  | EventType.EVENT_TYPE_SCREEN_CHANGED =>
    ({ c with outputWidth := c.scrWidth, outputHeight := c.scrHeight }).handleKey d
      d.SB_PKEY_SIZE_CHG
  | EventType.EVENT_TYPE_POINTER_PRESSED =>
    let r := c.maGetMilliSecondCount
    ({ r.2 with penDownTime := r.1, penDownX := event.point.x,
                penDownY := event.point.y }).handleKey d d.SB_KEY_MK_PUSH
  | EventType.EVENT_TYPE_POINTER_DRAGGED => c
  | EventType.EVENT_TYPE_POINTER_RELEASED =>
    if event.point.y < c.outputHeight then
      ({ c with penDownTime := 0, penDownX := -1, penDownY := -1 }).handleKey d
        d.SB_KEY_MK_RELEASE
    else c
  | EventType.EVENT_TYPE_CLOSE => { c with runMode := ExecState.exit_state }
  | EventType.EVENT_TYPE_KEY_PRESSED => c.handleKey d event.key
  | _ => c

/-- The host stores the bytes of a read completion at the start of the read buffer. -/
def storeBytes (stored buffer : List Nat) : List Nat := stored ++ buffer.drop stored.length

/-- The body of the loop of `Controller::processEvents` up to the test of `untilType`, for the
event `maGetEvent` delivered: the host has stored the bytes that come with it, the event is
fired when the controller is modal, then dispatched on its type. -/
def Controller.takeEvent (d : Decls) (h : HostEvent) (c : Controller) : Controller :=
  let c := { c with readBuffer := storeBytes h.stored c.readBuffer }
  let c := if c.isModal then c.fireEvent h.event else c
  c.dispatch d h.event

/-- The loop `while (!isExit() && maGetEvent(&event))` of `Controller::processEvents`, running
over what the coming calls of `maGetEvent` find; `event` is the current value of the local
variable. The result is the value of `event` at the end, the controller, and what is left for
later calls of `maGetEvent`. -/
def Controller.eventLoop (d : Decls) (untilType : Option EventType) :
    List (Option HostEvent) → MAEvent → Controller →
      MAEvent × Controller × List (Option HostEvent)
  | [], event, c => (event, c, [])
  | none :: rest, event, c =>
    if c.isExit then (event, c, none :: rest) else (event, c, rest)
  | some h :: rest, event, c =>
    if c.isExit then (event, c, some h :: rest)
    else if untilType = some h.event.type then (h.event, c.takeEvent d h, rest)
    else Controller.eventLoop d untilType rest h.event (c.takeEvent d h)

/-- The first statement of `Controller::processEvents`, which restarts the long-press timer. -/
def Controller.longPress (c : Controller) : Controller :=
  if c.penDownTime ≠ 0 then
    if c.maGetMilliSecondCount.1 - c.penDownTime > LONG_PRESS_TIME then
      { c.maGetMilliSecondCount.2 with penDownTime := c.maGetMilliSecondCount.1 }
    else c.maGetMilliSecondCount.2
  else c

/-- The last statement of `Controller::processEvents`: `if (runMode == exit_state) ... else
...`. -/
def Controller.afterLoop (ms : Int) (c : Controller) : Controller :=
  if c.runMode = ExecState.exit_state then (c.call Call.ui_reset).call Call.brun_break
  else if ms ≠ 0 then (c.call Call.runIdleListeners).call (Call.maWait ms)
  else c.call Call.runIdleListeners

/-- `MAEvent Controller::processEvents(int ms, int untilType)`; `untilType` is `none` for -1.
The local `event` starts as the indeterminate `uninit`. -/
def Controller.processEvents (d : Decls) (ms : Int) (untilType : Option EventType)
    (c : Controller) : MAEvent × Controller :=
  ((Controller.eventLoop d untilType c.longPress.events d.uninit c.longPress).1,
    Controller.afterLoop ms
      { (Controller.eventLoop d untilType c.longPress.events d.uninit c.longPress).2.1 with
        events := (Controller.eventLoop d untilType c.longPress.events d.uninit c.longPress).2.2 })

/-- `void Controller::setRunning()`. -/
def Controller.setRunning (c : Controller) : Controller :=
  { (((c.call Call.osd_cls).call Call.dev_clrkb).call Call.ui_reset) with
    loadPath := [], runMode := ExecState.run_state }

/-- The loop of `Controller::modalLoop`. -/
def Controller.modalLoopIter (d : Decls) : Nat → Controller → Outcome Controller
  | 0, _ => Outcome.outOfFuel
  | fuel + 1, c =>
    if c.runMode = ExecState.modal_state then
      Controller.modalLoopIter d fuel (c.processEvents d (-1) none).2
    else Outcome.returned c

/-- `void Controller::modalLoop()`. -/
def Controller.modalLoop (d : Decls) (fuel : Nat) (c : Controller) : Outcome Controller :=
  Controller.modalLoopIter d fuel { c with runMode := ExecState.modal_state }

/-- The loop of the first branch of `Controller::pause`. -/
def Controller.pauseModal (d : Decls) (ms msWait msStart : Int) :
    Nat → Controller → Outcome Controller
  | 0, _ => Outcome.outOfFuel
  | fuel + 1, c =>
    if c.runMode = ExecState.modal_state then
      let r := c.maGetMilliSecondCount
      if r.1 - msStart ≥ ms then Outcome.returned { r.2 with runMode := ExecState.run_state }
      else Controller.pauseModal d ms msWait msStart fuel (r.2.processEvents d msWait none).2
    else Outcome.returned c

/-- `maGetEvent(&event)` where the event is thrown away, as in the second branch of `pause`:
whether an event was found, and the controller afterwards. -/
def Controller.maGetEvent (c : Controller) : Bool × Controller :=
  match c.events with
  | [] => (false, c)
  | none :: rest => (false, { c with events := rest })
  | some h :: rest =>
    (true, { c with events := rest, readBuffer := storeBytes h.stored c.readBuffer })

/-- The loop of the second branch of `Controller::pause`. -/
def Controller.pauseDrain (ms msStart : Int) : Nat → Controller → Outcome Controller
  | 0, _ => Outcome.outOfFuel
  | fuel + 1, c =>
    let r := c.maGetMilliSecondCount
    if r.1 - msStart < ms then
      let g := r.2.maGetEvent
      Controller.pauseDrain ms msStart fuel (if g.1 then g.2 else g.2.call (Call.maWait 10))
    else Outcome.returned r.2

/-- `void Controller::pause(int ms)`; `ms / 2` rounds towards zero. -/
def Controller.pause (d : Decls) (ms : Int) (fuel : Nat) (c : Controller) :
    Outcome Controller :=
  if c.runMode = ExecState.run_state then
    let msWait := Int.tdiv ms 2
    let r := c.maGetMilliSecondCount
    Controller.pauseModal d ms msWait r.1 fuel { r.2 with runMode := ExecState.modal_state }
  else
    let r := c.maGetMilliSecondCount
    Controller.pauseDrain ms r.1 fuel r.2

/-- The bytes `strncpy(dst, src, n)` writes to `dst`: the bytes of `src` up to its first zero
byte, at most `n` of them, then zero bytes up to `n` bytes in all. -/
def strncpy (src : List Nat) (n : Nat) : List Nat :=
  ((src.take n).takeWhile (fun b => decide (b ≠ 0))) ++
    List.replicate (n - ((src.take n).takeWhile (fun b => decide (b ≠ 0))).length) 0

/-- The locals `connected`, `length`, `size` and `result` of `Controller::readConnection`;
`result` is `none` for `NULL`, otherwise the bytes of the allocated block. -/
structure ReadState where
  connected : Bool
  length : Nat
  size : Int
  result : Option (List Nat)
  deriving DecidableEq, Repr

/-- The statement `if (event.type == EVENT_TYPE_CONN) ...` in the loop of `readConnection`;
`fault` when `buffer[size] = 0` writes outside the 1024 bytes of `buffer`. -/
def Controller.onConnEvent (d : Decls) (conn : Int) (event : MAEvent) (st : ReadState)
    (c : Controller) : Outcome (ReadState × Controller) :=
  if event.type = EventType.EVENT_TYPE_CONN then
    if event.conn.opType = d.CONNOP_CONNECT then
      if !st.connected then
        if event.conn.result > 0 then
          Outcome.returned ({ st with connected := true }, c.call (Call.maConnRead conn 1023))
        else
          Outcome.returned ({ st with connected := false },
            { c with runMode := ExecState.init_state })
      else Outcome.returned (st, c)
    else if event.conn.opType = d.CONNOP_READ then
      if event.conn.result > 0 then
        let size := event.conn.result
        if size < 1024 then
          let buffer := c.readBuffer.set size.toNat 0
          let c := { c with readBuffer := buffer }
          let st : ReadState :=
            match st.result with
            | none =>
              { st with size := size, result := some (strncpy buffer size.toNat ++ [0]),
                        length := size.toNat }
            | some old =>
              { st with size := size,
                        result := some (old.take st.length ++ strncpy buffer size.toNat ++ [0]),
                        length := st.length + size.toNat }
          Outcome.returned (st, c.call (Call.maConnRead conn 1023))
        else Outcome.fault
      else Outcome.returned (st, { c with runMode := ExecState.init_state })
    else Outcome.returned (st, c)
  else Outcome.returned (st, c)

/-- The loop `while (runMode == conn_state)` of `Controller::readConnection`. -/
def Controller.readLoop (d : Decls) (conn : Int) :
    Nat → ReadState → Controller → Outcome (ReadState × Controller)
  | 0, _, _ => Outcome.outOfFuel
  | fuel + 1, st, c =>
    if c.runMode = ExecState.conn_state then
      match Controller.onConnEvent d conn
          (c.processEvents d 50 (some EventType.EVENT_TYPE_CONN)).1 st
          (c.processEvents d 50 (some EventType.EVENT_TYPE_CONN)).2 with
      | Outcome.returned r => Controller.readLoop d conn fuel r.1 r.2
      | Outcome.blocked => Outcome.blocked
      | Outcome.fault => Outcome.fault
      | Outcome.outOfFuel => Outcome.outOfFuel
    else Outcome.returned (st, c)

/-- `char *Controller::readConnection(const char *url)`; `conn` is the handle `maConnect(url)`
returns. The result is the returned pointer (`none` for `NULL`, otherwise the bytes of the
block, the terminating zero included) and the controller afterwards. -/
def Controller.readConnection (d : Decls) (conn : Int) (fuel : Nat) (c : Controller) :
    Outcome (Option (List Nat) × Controller) :=
  let c := c.call Call.maConnect
  if conn > 0 then
    match Controller.readLoop d conn fuel
        { connected := false, length := 0, size := 0, result := none }
        { c with runMode := ExecState.conn_state } with
    | Outcome.returned r => Outcome.returned (r.1.result, r.2.call (Call.maConnClose conn))
    | Outcome.blocked => Outcome.blocked
    | Outcome.fault => Outcome.fault
    | Outcome.outOfFuel => Outcome.outOfFuel
  else Outcome.returned (none, c)

/-- The event that completes a connect with the given result. -/
def connectDone (d : Decls) (conn result : Int) : HostEvent :=
  { event := { MAEvent.new with type := EventType.EVENT_TYPE_CONN,
                                conn := { handle := conn, opType := d.CONNOP_CONNECT,
                                          result := result } },
    stored := [] }

/-- The event that completes a read which delivered the given bytes. -/
def readDone (d : Decls) (conn : Int) (chunk : List Nat) : HostEvent :=
  { event := { MAEvent.new with type := EventType.EVENT_TYPE_CONN,
                                conn := { handle := conn, opType := d.CONNOP_READ,
                                          result := chunk.length } },
    stored := chunk }

/-- The event that completes a read with a result that is not positive (end of data, error). -/
def readEnd (d : Decls) (conn result : Int) : HostEvent :=
  { event := { MAEvent.new with type := EventType.EVENT_TYPE_CONN,
                                conn := { handle := conn, opType := d.CONNOP_READ,
                                          result := result } },
    stored := [] }

/-- The calls of `maConnRead` and `maConnClose` in a trace, in order. -/
def connCalls (trace : List Call) : List Call :=
  trace.filter (fun x => match x with
    | Call.maConnRead _ _ => true
    | Call.maConnClose _ => true
    | _ => false)

/-- The keys pushed to the interpreter with `dev_pushkey` according to a trace, in order. -/
def pushedKeys (trace : List Call) : List Int :=
  trace.filterMap (fun x => match x with
    | Call.dev_pushkey key => some key
    | _ => none)

/-- A choice of the declarations `controller.cpp` takes from elsewhere, used where a concrete
run is evaluated: a program runs in `run_state` and `modal_state`; the codes are pairwise
different. -/
def sampleDecls : Decls :=
  { isRunning := fun m => decide (m = ExecState.run_state ∨ m = ExecState.modal_state),
    uninit := MAEvent.new,
    CONNOP_CONNECT := 7, CONNOP_READ := 1,
    MAK_FIRE := 284, MAK_5 := 53, MAK_SOFTRIGHT := 286, MAK_BACK := 293, MAK_TAB := 9,
    MAK_HOME := 278, MAK_END := 279, MAK_INSERT := 277, MAK_MENU := 292,
    MAK_KP_MULTIPLY := 268, MAK_KP_PLUS := 270, MAK_KP_MINUS := 269, MAK_SLASH := 47,
    MAK_PAGEUP := 280, MAK_PAGEDOWN := 281, MAK_UP := 273, MAK_DOWN := 274, MAK_LEFT := 276,
    MAK_RIGHT := 275, MAK_BACKSPACE := 8, MAK_DELETE := 127,
    SB_KEY_TAB := 1009, SB_KEY_KP_HOME := 1002, SB_KEY_END := 1003, SB_KEY_INSERT := 1004,
    SB_KEY_MENU := 1001, SB_KEY_KP_MUL := 1005, SB_KEY_KP_PLUS := 1006,
    SB_KEY_KP_MINUS := 1007, SB_KEY_KP_DIV := 1014, SB_KEY_PGUP := 1008, SB_KEY_PGDN := 1015,
    SB_KEY_UP := 1010, SB_KEY_DN := 1011, SB_KEY_LEFT := 1012, SB_KEY_RIGHT := 1013,
    SB_KEY_BACKSPACE := 1016, SB_PKEY_SIZE_CHG := 2001, SB_KEY_MK_PUSH := 2002,
    SB_KEY_MK_RELEASE := 2003 }

/-- A controller in the given run mode with a 320 by 480 output, the pen up, a zeroed read
buffer, facing the given events and clock readings. -/
def sampleController (mode : ExecState) (events : List (Option HostEvent))
    (clock : List Int) : Controller :=
  { runMode := mode, lastEventTime := 0, eventsPerTick := 0, penDownX := -1, penDownY := -1,
    penDownTime := 0, loadPath := [], outputWidth := 320, outputHeight := 480,
    events := events, clock := clock, now := 0, scrWidth := 320, scrHeight := 480,
    readBuffer := List.replicate 1024 0, trace := [] }

/-- A key-press event carrying the given key. -/
def keyPressed (key : Int) : HostEvent :=
  { event := { MAEvent.new with type := EventType.EVENT_TYPE_KEY_PRESSED, key := key },
    stored := [] }

/-- The close event. -/
def closeEvent : HostEvent :=
  { event := { MAEvent.new with type := EventType.EVENT_TYPE_CLOSE }, stored := [] }

/-- The last of the given clock readings, or `now` when there is none. -/
def lastReading : List Int → Int → Int
  | [], now => now
  | t :: rest, _ => lastReading rest t

/-- The value `maGetMilliSecondCount` ends up returning once the scripted readings are used. -/
def Controller.finalTime (c : Controller) : Int := lastReading c.clock c.now

/-- What the event handling of the controller may do to the fields the wait loops depend on:
the run mode stays or becomes `exit_state`, no `maConnRead` or `maConnClose` is issued, and the
clock only moves forward along its readings. -/
def Controller.Frame (c c1 : Controller) : Prop :=
  (c1.runMode = c.runMode ∨ c1.runMode = ExecState.exit_state) ∧
    connCalls c1.trace = connCalls c.trace ∧
    c1.finalTime = c.finalTime ∧ c1.clock.length ≤ c.clock.length

instance Controller.Frame.decidable (c c1 : Controller) : Decidable (c.Frame c1) := by
  unfold Controller.Frame
  infer_instance

/-- What `maGetEvent` finds while a sequence of reads completes: before each completion a
number of calls that find the queue empty, then the completion with its bytes. -/
def readScript (d : Decls) (conn : Int) : List (Nat × List Nat) → List (Option HostEvent)
  | [] => []
  | item :: items =>
    List.replicate item.1 none ++ some (readDone d conn item.2) :: readScript d conn items

/-- The bytes `readConnection` accumulates from a sequence of chunks: each chunk as `strncpy`
copies it. -/
def copiedBytes : List (Nat × List Nat) → List Nat
  | [] => []
  | item :: items => strncpy item.2 item.2.length ++ copiedBytes items

/-- The number of iterations of the loop of `readConnection` a `readScript` takes. -/
def readScriptLength : List (Nat × List Nat) → Nat
  | [] => 0
  | item :: items => item.1 + 1 + readScriptLength items

/-- The relation between the locals of `readConnection` and the bytes accumulated so far:
nothing yet and `result` is `NULL`, or `result` holds the bytes followed by the terminating zero
and `length` is their number. -/
def ReadState.Accumulated (st : ReadState) (acc : List Nat) : Prop :=
  (st.result = none ∧ acc = []) ∨ (st.result = some (acc ++ [0]) ∧ st.length = acc.length)

instance ReadState.Accumulated.decidable (st : ReadState) (acc : List Nat) :
    Decidable (st.Accumulated acc) := by
  unfold ReadState.Accumulated
  infer_instance

/-- The keys for which the first `switch` of `handleKey` can set the exit state. -/
def exitKey (d : Decls) (key : Int) : Prop := key = d.MAK_SOFTRIGHT ∨ key = d.MAK_BACK

instance exitKey.decidable (d : Decls) (key : Int) : Decidable (exitKey d key) := by
  unfold exitKey
  infer_instance

/-- An event that does not ask for the exit state: neither a Close event nor a press of a Back
or SoftRight key. -/
def HostEvent.noExit (d : Decls) (h : HostEvent) : Prop :=
  h.event.type ≠ EventType.EVENT_TYPE_CLOSE ∧
    (h.event.type = EventType.EVENT_TYPE_KEY_PRESSED → ¬ exitKey d h.event.key)

instance HostEvent.noExit.decidable (d : Decls) (h : HostEvent) : Decidable (h.noExit d) := by
  unfold HostEvent.noExit
  infer_instance

/-- The keys `processEvents` makes up for screen and pointer events are not Back or SoftRight
keys. -/
def Decls.pseudoKeysApart (d : Decls) : Prop :=
  ¬ exitKey d d.SB_PKEY_SIZE_CHG ∧ ¬ exitKey d d.SB_KEY_MK_PUSH ∧ ¬ exitKey d d.SB_KEY_MK_RELEASE

instance Decls.pseudoKeysApart.decidable (d : Decls) : Decidable d.pseudoKeysApart := by
  unfold Decls.pseudoKeysApart
  infer_instance

/-- A pointer event of the given type at the given position. -/
def pointerEvent (type : EventType) (x y : Int) : HostEvent :=
  { event := { MAEvent.new with type := type, point := { x := x, y := y } }, stored := [] }

/-- The test `penDownX != -1 && penDownY != -1` of `Controller::getPen`, as the value stored in
`result`. -/
def Controller.penDown (c : Controller) : Int :=
  if c.penDownX ≠ -1 ∧ c.penDownY ≠ -1 then 1 else 0

/-- `int Controller::getPen(int code)`: the value returned and the controller afterwards;
`penOff` is the test `penMode == PEN_OFF` on a member the function only reads. -/
def Controller.getPen (d : Decls) (penOff : Bool) (code : Int) (c : Controller) :
    Int × Controller :=
  if c.isExit then (0, (c.call Call.ui_reset).call Call.brun_break)
  else
    let c1 := if penOff then (c.processEvents d 0 none).2 else c
    if code = 0 then
      let c2 := ((c1.processEvents d 1 none).2.processEvents d 0 none).2
      (c2.penDown, c2)
    else if code = 3 then
      let c2 := (c1.processEvents d 0 none).2
      (c2.penDown, c2)
    else if code = 1 then (c1.penDownX, c1)
    else if code = 2 then (c1.penDownY, c1)
    else if code = 4 ∨ code = 10 then
      let c2 := (c1.processEvents d 0 none).2
      (c2.penDownX, c2)
    else if code = 5 ∨ code = 11 then
      let c2 := (c1.processEvents d 0 none).2
      (c2.penDownY, c2)
    else (0, c1)

end MoSync

/-! ## Properties -/

namespace Android

open SmallBASIC

/-! ### Event buffer -/

theorem pushEvents_queue (es : List MAEvent) (rt : Runtime) (q : Stack MAEvent)
    (h : rt._eventQueue = some q) :
    Runtime.pushEvents es rt =
      some { rt with _eventQueue := some { items := es.reverse ++ q.items } } := by
  induction es generalizing rt q with
  | nil =>
    obtain ⟨_, _, _, _, _, _, _, _, _, _⟩ := rt
    simp only at h
    subst h
    simp [Runtime.pushEvents]
  | cons e es ih =>
    simp only [Runtime.pushEvents, Runtime.pushEvent, h, Option.some_bind]
    rw [ih { rt with _eventQueue := some (q.push e) } (q.push e) rfl]
    simp [Stack.push]

theorem popEvents_queue (es rest : List MAEvent) (rt : Runtime)
    (h : rt._eventQueue = some { items := es ++ rest }) :
    Runtime.popEvents es.length rt =
      some (es.map some, { rt with _eventQueue := some { items := rest } }) := by
  induction es generalizing rt with
  | nil =>
    obtain ⟨_, _, _, _, _, _, _, _, _, _⟩ := rt
    simp only [List.nil_append] at h
    subst h
    simp [Runtime.popEvents]
  | cons e es ih =>
    simp only [List.length_cons, Runtime.popEvents, Runtime.popEvent, h, Stack.pop,
      List.cons_append]
    rw [ih { rt with _eventQueue := some { items := es ++ rest } } rfl]
    simp

theorem push_then_pop (e : MAEvent) (rt : Runtime) (q : Stack MAEvent)
    (h : rt._eventQueue = some q) :
    ∃ rt1, rt.pushEvent e = some rt1 ∧ rt1.popEvent = some (some e, rt) := by
  obtain ⟨_, _, _, _, _, _, _, _, _, _⟩ := rt
  simp only at h
  subst h
  refine ⟨_, rfl, ?_⟩
  simp [Runtime.popEvent, Stack.pop, Stack.push]

/-- C1: events pushed with `pushEvent` onto an empty event buffer come back from the same number
of `popEvent` calls in reverse order of the pushes (last in, first out), each exactly once, and
the runtime is then what it was before the pushes, its buffer empty; and on any constructed
buffer a `pushEvent(e)` followed by a `popEvent` returns `e` and restores the buffer. -/
theorem event_buffer_lifo (rt : Runtime) (es : List MAEvent)
    (h : rt._eventQueue = some Stack.new) :
    (∃ rt1, Runtime.pushEvents es rt = some rt1 ∧
        Runtime.popEvents es.length rt1 = some (es.reverse.map some, rt) ∧
        rt.hasEvent = false ∧ es.reverse.Perm es) ∧
      ∀ (r : Runtime) (q : Stack MAEvent) (e : MAEvent), r._eventQueue = some q →
        ∃ r1, r.pushEvent e = some r1 ∧ r1.popEvent = some (some e, r) := by
  refine ⟨⟨_, pushEvents_queue es rt _ h, ?_, ?_, List.reverse_perm es⟩, ?_⟩
  · obtain ⟨st, kp, hf, g, o, q, sm, dr, host, tr⟩ := rt
    simp only at h
    subst h
    have hp := popEvents_queue es.reverse [] (Runtime.mk st kp hf g o
      (some (Stack.mk (es.reverse ++ []))) sm dr host tr) rfl
    rw [List.length_reverse] at hp
    simpa [Stack.new] using hp
  · simp [Runtime.hasEvent, h, Stack.new, Stack.size]
  · intro r q e hq
    exact push_then_pop e r q hq

theorem event_buffer_lifo_witness :
    (sampleRuntime [])._eventQueue = some Stack.new ∧
      ∃ rt1, Runtime.pushEvents [sampleEvent EventType.EVENT_TYPE_KEY_PRESSED 65,
            sampleEvent EventType.EVENT_TYPE_SCREEN_CHANGED 0,
            sampleEvent EventType.EVENT_TYPE_POINTER_PRESSED 0] (sampleRuntime []) = some rt1 ∧
        Runtime.popEvents 3 rt1 =
          some ([some (sampleEvent EventType.EVENT_TYPE_POINTER_PRESSED 0),
            some (sampleEvent EventType.EVENT_TYPE_SCREEN_CHANGED 0),
            some (sampleEvent EventType.EVENT_TYPE_KEY_PRESSED 65)], sampleRuntime []) := by
  refine ⟨rfl, ?_⟩
  obtain ⟨rt1, h1, h2, _, _⟩ := (event_buffer_lifo (sampleRuntime [])
    [sampleEvent EventType.EVENT_TYPE_KEY_PRESSED 65,
      sampleEvent EventType.EVENT_TYPE_SCREEN_CHANGED 0,
      sampleEvent EventType.EVENT_TYPE_POINTER_PRESSED 0] rfl).1
  exact ⟨rt1, h1, h2⟩

/-! ### Construction on `APP_CMD_INIT_WINDOW` -/

/-- C4: `handleCommand(APP_CMD_INIT_WINDOW)` runs `Runtime::construct` exactly when the runtime
is in the Initial state; in every other state it leaves the runtime (run state and event buffer
included) as it is; and from Initial, when graphics, output widget and event stack are all
created, the runtime ends in the Active state with an empty event buffer. -/
theorem init_window_constructs_once (sys : SystemDecls) (env : ConstructEnv) (rt : Runtime) :
    (rt._state ≠ State.kInitState → handleCommand sys env APP_CMD_INIT_WINDOW rt = rt) ∧
    (rt._state = State.kInitState →
      handleCommand sys env APP_CMD_INIT_WINDOW rt = rt.construct env) ∧
    (rt._state = State.kInitState →
      env.graphicsAllocated = true → env.graphicsConstructed = true →
      env.outputAllocated = true → env.outputConstructed = true → env.queueAllocated = true →
      (handleCommand sys env APP_CMD_INIT_WINDOW rt)._state = State.kActiveState ∧
      (handleCommand sys env APP_CMD_INIT_WINDOW rt)._eventQueue = some Stack.new ∧
      (handleCommand sys env APP_CMD_INIT_WINDOW rt).hasEvent = false) := by
  refine ⟨?_, ?_, ?_⟩
  · intro h
    simp [handleCommand, Runtime.isInitial, h]
  · intro h
    simp [handleCommand, Runtime.isInitial, h]
  · intro h h1 h2 h3 h4 h5
    simp [handleCommand, Runtime.isInitial, h, Runtime.construct, h1, h2, h3, h4, h5,
      Runtime.hasEvent, Stack.new, Stack.size]

theorem init_window_constructs_once_witness :
    (handleCommand sampleDecls sampleEnv APP_CMD_INIT_WINDOW (Runtime.new []))._state =
        State.kActiveState ∧
      (handleCommand sampleDecls sampleEnv APP_CMD_INIT_WINDOW (Runtime.new []))._eventQueue =
        some Stack.new ∧
      handleCommand sampleDecls sampleEnv APP_CMD_INIT_WINDOW (sampleRuntime []) =
        sampleRuntime [] := by
  have h := init_window_constructs_once sampleDecls sampleEnv (Runtime.new [])
  have h2 := init_window_constructs_once sampleDecls sampleEnv (sampleRuntime [])
  have h3 := h.2.2 rfl rfl rfl rfl rfl rfl
  exact ⟨h3.1, h3.2.1, h2.1 (by decide)⟩

/-! ### `Runtime::pause` -/

theorem wrapInt32_of_range (x : Int) (h1 : -2147483648 ≤ x) (h2 : x ≤ 2147483647) :
    wrapInt32 x = x := by
  unfold wrapInt32
  omega

theorem wrapInt32_le (x : Int) : wrapInt32 x ≤ 2147483647 := by
  unfold wrapInt32
  omega

/-- When the elapsed-time test of the loop of `pause` cannot succeed, the loop returns only
with the break flag observed. -/
theorem pauseLoop_returns_on_break (sys : SystemDecls) (env : ConstructEnv) (timeout : Int)
    (hexit : ∀ s : Int, ¬ (timeout > 0 ∧ wrapInt32 s > timeout))
    (fuel : Nat) (slept : Int) (rt r : Runtime)
    (h : Runtime.pauseLoop sys env timeout fuel slept rt = Outcome.returned r) :
    sys.isBreak r = true := by
  induction fuel generalizing slept rt with
  | zero => simp [Runtime.pauseLoop] at h
  | succ fuel ih =>
    unfold Runtime.pauseLoop at h
    cases hp : rt.pollEvents sys env false with
    | returned rt1 =>
      rw [hp] at h
      simp only at h
      by_cases hb : sys.isBreak rt1 = true
      · simp only [hb, if_true, Outcome.returned.injEq] at h
        rw [← h]
        exact hb
      · simp only [hb, if_false] at h
        cases hq : (if rt1.hasEvent then rt1.popAndProcess sys else Outcome.returned rt1) with
        | returned rt2 =>
          rw [hq] at h
          simp only [hexit (slept + WAIT_INTERVAL), if_false] at h
          exact ih _ _ h
        | blocked => rw [hq] at h; simp at h
        | fault => rw [hq] at h; simp at h
        | outOfFuel => rw [hq] at h; simp at h
    | blocked => rw [hp] at h; simp at h
    | fault => rw [hp] at h; simp at h
    | outOfFuel => rw [hp] at h; simp at h

/-- A non-blocking poll at which nothing is pending leaves the runtime untouched apart from
the moment of the host that went by and the recorded call. -/
theorem pollEvents_quiet (sys : SystemDecls) (env : ConstructEnv) (rt : Runtime)
    (hfocus : rt._hasFocus = true) (hquiet : ∀ w ∈ rt.host, w = none)
    (hdestroy : rt.destroyRequested = false) :
    rt.pollEvents sys env false =
      Outcome.returned { rt with host := rt.host.drop 1,
                                 trace := rt.trace ++ [Call.ALooper_pollAll 0] } := by
  obtain ⟨st, kp, hf, g, o, q, sm, dr, host, tr⟩ := rt
  simp only at hfocus hquiet hdestroy
  subst hfocus hdestroy
  cases host with
  | nil => simp [Runtime.pollEvents, Runtime.call, ALooper_pollAll]
  | cons w host =>
    have hw : w = none := hquiet w (List.mem_cons_self _ _)
    subst hw
    simp [Runtime.pollEvents, Runtime.call, ALooper_pollAll]

/-- One iteration of the loop of `pause` with nothing pending, no break and an empty buffer:
either the elapsed-time exit is taken, or the loop goes on with `slept` advanced. -/
theorem pauseLoop_quiet_step (sys : SystemDecls) (env : ConstructEnv) (N : Int)
    (hbreak : ∀ r, sys.isBreak r = false) (fuel : Nat) (slept : Int) (rt : Runtime)
    (hfocus : rt._hasFocus = true) (hquiet : ∀ w ∈ rt.host, w = none)
    (hdestroy : rt.destroyRequested = false) (hempty : rt.hasEvent = false)
    (h0 : 0 ≤ slept) (hmax : slept + 10 ≤ 2147483647) :
    Runtime.pauseLoop sys env N (fuel + 1) slept rt =
      if N > 0 ∧ slept + 10 > N then Outcome.returned (rt.afterIdle 1)
      else Runtime.pauseLoop sys env N fuel (slept + 10) (rt.afterIdle 1) := by
  have hw : wrapInt32 (slept + WAIT_INTERVAL) = slept + 10 := by
    rw [WAIT_INTERVAL]
    exact wrapInt32_of_range _ (by omega) (by omega)
  rw [Runtime.pauseLoop, pollEvents_quiet sys env rt hfocus hquiet hdestroy]
  obtain ⟨st, kp, hf, g, o, q, sm, dr, host, tr⟩ := rt
  have he : Runtime.hasEvent (Runtime.mk st kp hf g o q sm dr (List.drop 1 host)
      (tr ++ [Call.ALooper_pollAll 0])) = false := hempty
  simp only [hbreak, Bool.false_eq_true, if_false, he, hw]
  simp [Runtime.call, Runtime.afterIdle, idleIterations]

theorem afterIdle_afterIdle (rt : Runtime) (a b : Nat) :
    (rt.afterIdle a).afterIdle b = rt.afterIdle (a + b) := by
  have hi : ∀ a b : Nat, idleIterations a ++ idleIterations b = idleIterations (a + b) := by
    intro a b
    induction a with
    | zero => simp [idleIterations]
    | succ a ih => simp [idleIterations, Nat.succ_add, ih]
  simp [Runtime.afterIdle, List.drop_drop, hi, Nat.add_comm]

theorem pauseLoop_quiet (sys : SystemDecls) (env : ConstructEnv) (N : Int)
    (hbreak : ∀ r, sys.isBreak r = false) (hN : 0 < N) (k : Nat) :
    ∀ (fuel : Nat) (slept : Int) (rt : Runtime), rt._hasFocus = true →
      (∀ w ∈ rt.host, w = none) → rt.destroyRequested = false → rt.hasEvent = false →
      0 ≤ slept → slept + 10 * ((k : Int) + 1) ≤ 2147483647 → slept + 10 * (k : Int) ≤ N →
      N < slept + 10 * ((k : Int) + 1) → k < fuel →
      Runtime.pauseLoop sys env N fuel slept rt = Outcome.returned (rt.afterIdle (k + 1)) := by
  induction k with
  | zero =>
    intro fuel slept rt hfocus hquiet hdestroy hempty h0 hmax hlow hhigh hfuel
    obtain ⟨fuel, rfl⟩ : ∃ f, fuel = f + 1 := ⟨fuel - 1, by omega⟩
    rw [pauseLoop_quiet_step sys env N hbreak fuel slept rt hfocus hquiet hdestroy hempty h0
      (by push_cast at hmax; omega)]
    have hx : N > 0 ∧ slept + 10 > N := ⟨hN, by push_cast at hhigh; omega⟩
    simp [hx]
  | succ k ih =>
    intro fuel slept rt hfocus hquiet hdestroy hempty h0 hmax hlow hhigh hfuel
    obtain ⟨fuel, rfl⟩ : ∃ f, fuel = f + 1 := ⟨fuel - 1, by omega⟩
    rw [pauseLoop_quiet_step sys env N hbreak fuel slept rt hfocus hquiet hdestroy hempty h0
      (by push_cast at hmax; omega)]
    have hx : ¬ (N > 0 ∧ slept + 10 > N) := by push_cast at hlow; omega
    simp only [hx, if_false]
    rw [ih fuel (slept + 10) (rt.afterIdle 1) hfocus
      (fun w hw => hquiet w (List.mem_of_mem_drop hw)) hdestroy hempty (by omega)
      (by push_cast at hmax ⊢; omega) (by push_cast at hlow ⊢; omega)
      (by push_cast at hhigh ⊢; omega) (by omega), afterIdle_afterIdle, Nat.add_comm 1]

theorem sampleRuntime_quiet (n : Nat) : ∀ w ∈ ((sampleRuntime []).afterIdle n).host, w = none := by
  intro w hw
  have h : ((sampleRuntime []).afterIdle n).host = [] := by
    simp [Runtime.afterIdle, sampleRuntime, Runtime.new, Runtime.construct, sampleEnv]
  rw [h] at hw
  cases hw

theorem processedEvents_idleIterations (n : Nat) : processedEvents (idleIterations n) = [] := by
  induction n with
  | zero => rfl
  | succ n ih => simpa [idleIterations, processedEvents] using ih

theorem sleptMillis_idleIterations (n : Nat) : sleptMillis (idleIterations n) = 10 * (n : Int) := by
  induction n with
  | zero => rfl
  | succ n ih =>
    have h : sleptMillis (idleIterations (n + 1)) = 10 + sleptMillis (idleIterations n) := by
      simp [idleIterations, sleptMillis, WAIT_INTERVAL]
    rw [h, ih]
    push_cast
    ring

/-- C9 (as amended): `Runtime::pause(0)` never takes the elapsed-time exit, which is guarded by
`timeout > 0`: whenever it returns, the break flag is up in the runtime it returns; and when the
flag is up after the first poll it returns at once, with that runtime (no event popped, no
sleep). -/
theorem pause_zero_returns_only_on_break (sys : SystemDecls) (env : ConstructEnv)
    (rt : Runtime) :
    (∀ (fuel : Nat) (r : Runtime),
        rt.pause sys env 0 fuel = Outcome.returned r → sys.isBreak r = true) ∧
    (∀ rt1 : Runtime, rt.pollEvents sys env false = Outcome.returned rt1 →
        sys.isBreak rt1 = true →
        ∀ fuel : Nat, rt.pause sys env 0 (fuel + 1) = Outcome.returned rt1) := by
  refine ⟨?_, ?_⟩
  · intro fuel r h
    have h0 : (0 : Int) ≠ -1 := by decide
    simp only [Runtime.pause, h0, if_false] at h
    exact pauseLoop_returns_on_break sys env 0 (fun s hs => absurd hs.1 (by decide)) fuel 0 rt r h
  · intro rt1 hp hb fuel
    have h0 : (0 : Int) ≠ -1 := by decide
    simp [Runtime.pause, h0, Runtime.pauseLoop, hp, hb]

theorem pause_zero_returns_only_on_break_witness :
    closingBreaks.isBreak { sampleRuntime [] with _state := State.kClosingState,
                                                  trace := [Call.ALooper_pollAll 0] } = true ∧
      Runtime.pause closingBreaks sampleEnv 0 1
          { sampleRuntime [] with _state := State.kClosingState } =
        Outcome.returned { sampleRuntime [] with _state := State.kClosingState,
                                                 trace := [Call.ALooper_pollAll 0] } := by
  have h := pause_zero_returns_only_on_break closingBreaks sampleEnv
    { sampleRuntime [] with _state := State.kClosingState }
  have h2 := h.2 { sampleRuntime [] with _state := State.kClosingState,
                                         trace := [Call.ALooper_pollAll 0] } (by decide)
    (by decide) 0
  exact ⟨h.1 1 _ h2, h2⟩

/-- C9, as stated, fails: with focus, an empty event buffer, a host on which nothing happens and
the break flag never raised, `pause(0)` does not return, whatever the number of iterations it is
given; after two iterations it has slept twice and is still in the loop. -/
theorem pause_zero_counterexample :
    (∀ (fuel : Nat) (r : Runtime),
        (sampleRuntime []).pause sampleDecls sampleEnv 0 fuel ≠ Outcome.returned r) ∧
      Runtime.pauseLoop sampleDecls sampleEnv 0 5 0 (sampleRuntime []) =
        Runtime.pauseLoop sampleDecls sampleEnv 0 3 20 ((sampleRuntime []).afterIdle 2) := by
  refine ⟨?_, ?_⟩
  · intro fuel r h
    have h0 : (0 : Int) ≠ -1 := by decide
    simp only [Runtime.pause, h0, if_false] at h
    have hb := pauseLoop_returns_on_break sampleDecls sampleEnv 0
      (fun s hs => absurd hs.1 (by decide)) fuel 0 _ r h
    simp [sampleDecls] at hb
  · rw [pauseLoop_quiet_step sampleDecls sampleEnv 0 (fun _ => rfl) 4 0 (sampleRuntime []) rfl
        (sampleRuntime_quiet 0) rfl rfl (by decide) (by decide),
      if_neg (by decide),
      pauseLoop_quiet_step sampleDecls sampleEnv 0 (fun _ => rfl) 3 (0 + 10)
        ((sampleRuntime []).afterIdle 1) rfl
        (sampleRuntime_quiet 1) rfl rfl (by decide) (by decide),
      if_neg (by decide), afterIdle_afterIdle]
    rfl

/-- C10 (as amended): for a timeout `0 < N ≤ 2147483639` (so that the `int` counter `slept` does
not overflow), when the runtime has focus (the poll is then non-blocking), nothing is pending at
the host, the event buffer is empty and the break flag is never raised, `pause(N)` returns after
exactly `N / 10 + 1` iterations, having processed no event and slept `T = 10 * (N / 10 + 1)`
milliseconds, where `N < T ≤ N + 10`. -/
theorem pause_timeout_elapses (sys : SystemDecls) (env : ConstructEnv) (N : Int) (rt : Runtime)
    (hN : 0 < N) (hmax : N ≤ 2147483639) (hfocus : rt._hasFocus = true)
    (hquiet : ∀ w ∈ rt.host, w = none) (hdestroy : rt.destroyRequested = false)
    (hempty : rt.hasEvent = false) (hbreak : ∀ r, sys.isBreak r = false)
    (fuel : Nat) (hfuel : (N / 10).toNat + 1 ≤ fuel) :
    rt.pause sys env N fuel = Outcome.returned (rt.afterIdle ((N / 10).toNat + 1)) ∧
      processedEvents (rt.afterIdle ((N / 10).toNat + 1)).trace = processedEvents rt.trace ∧
      sleptMillis (rt.afterIdle ((N / 10).toNat + 1)).trace =
        sleptMillis rt.trace + 10 * (N / 10 + 1) ∧
      N < 10 * (N / 10 + 1) ∧ 10 * (N / 10 + 1) ≤ N + 10 := by
  have hk : (((N / 10).toNat : Nat) : Int) = N / 10 := Int.toNat_of_nonneg (by omega)
  refine ⟨?_, ?_, ?_, by omega, by omega⟩
  · have h1 : N ≠ -1 := by omega
    simp only [Runtime.pause, h1, if_false]
    exact pauseLoop_quiet sys env N hbreak hN (N / 10).toNat fuel 0 rt hfocus hquiet hdestroy
      hempty (le_refl 0) (by rw [hk]; omega) (by rw [hk]; omega) (by rw [hk]; omega)
      (by omega)
  · have h := processedEvents_idleIterations ((N / 10).toNat + 1)
    simp only [processedEvents] at h
    simp only [Runtime.afterIdle, processedEvents, List.filterMap_append, h, List.append_nil]
  · simp only [Runtime.afterIdle, sleptMillis, List.map_append, List.sum_append]
    have h := sleptMillis_idleIterations ((N / 10).toNat + 1)
    simp only [sleptMillis] at h
    rw [h]
    push_cast
    rw [hk]

theorem pause_timeout_elapses_witness :
    (sampleRuntime []).pause sampleDecls sampleEnv 200 21 =
        Outcome.returned ((sampleRuntime []).afterIdle 21) ∧
      processedEvents ((sampleRuntime []).afterIdle 21).trace = [] ∧
      sleptMillis ((sampleRuntime []).afterIdle 21).trace = 210 := by
  have h := pause_timeout_elapses sampleDecls sampleEnv 200 (sampleRuntime []) (by decide)
    (by decide) rfl (sampleRuntime_quiet 0) rfl rfl (fun _ => rfl) 21 (by decide)
  have hk : ((200 : Int) / 10).toNat + 1 = 21 := by decide
  rw [hk] at h
  refine ⟨h.1, h.2.1, ?_⟩
  rw [h.2.2.1]
  decide

/-- C10, as stated, fails: without focus the poll of the loop blocks, so with no incoming event
`pause(200)` never returns; and for the timeout 2147483647 the `int` counter `slept` can never
exceed the timeout, so the elapsed-time exit is never taken even with focus. -/
theorem pause_timeout_counterexample :
    (∀ (fuel : Nat) (r : Runtime),
        ((Runtime.new []).construct sampleEnv).pause sampleDecls sampleEnv 200 fuel ≠
          Outcome.returned r) ∧
      ((Runtime.new []).construct sampleEnv).pause sampleDecls sampleEnv 200 1 =
        Outcome.blocked ∧
      (∀ (fuel : Nat) (r : Runtime),
        (sampleRuntime []).pause sampleDecls sampleEnv 2147483647 fuel ≠ Outcome.returned r) := by
  refine ⟨?_, ?_, ?_⟩
  · intro fuel r
    cases fuel with
    | zero => simp [Runtime.pause, Runtime.pauseLoop]
    | succ n =>
      simp [Runtime.pause, Runtime.pauseLoop, Runtime.pollEvents, Runtime.construct, Runtime.new,
        sampleEnv, ALooper_pollAll, Runtime.call]
  · simp [Runtime.pause, Runtime.pauseLoop, Runtime.pollEvents, Runtime.construct, Runtime.new,
      sampleEnv, ALooper_pollAll, Runtime.call]
  · intro fuel r h
    have h1 : (2147483647 : Int) ≠ -1 := by decide
    simp only [Runtime.pause, h1, if_false] at h
    have hb := pauseLoop_returns_on_break sampleDecls sampleEnv 2147483647
      (fun s hs => absurd hs.2 (not_lt.mpr (wrapInt32_le s))) fuel 0 _ r h
    simp [sampleDecls] at hb

/-! ### `Runtime::handleKeyEvent` -/

theorem not_mem_switchCases (n : Int) (h : n ∉ switchCases) :
    n ≠ AKEYCODE_ENDCALL ∧ n ≠ AKEYCODE_BACK ∧ n ≠ AKEYCODE_MENU ∧ n ≠ AKEYCODE_TAB ∧
      n ≠ AKEYCODE_HOME ∧ n ≠ AKEYCODE_MOVE_END ∧ n ≠ AKEYCODE_INSERT ∧
      n ≠ AKEYCODE_NUMPAD_MULTIPLY ∧ n ≠ AKEYCODE_NUMPAD_ADD ∧ n ≠ AKEYCODE_NUMPAD_SUBTRACT ∧
      n ≠ AKEYCODE_PAGE_UP ∧ n ≠ AKEYCODE_PAGE_DOWN ∧ n ≠ AKEYCODE_DPAD_UP ∧
      n ≠ AKEYCODE_DPAD_DOWN ∧ n ≠ AKEYCODE_DPAD_LEFT ∧ n ≠ AKEYCODE_DPAD_RIGHT ∧
      n ≠ AKEYCODE_CLEAR ∧ n ≠ AKEYCODE_DEL ∧ n ≠ AKEYCODE_ENTER ∧ n ≠ GBOARD_KEY_QUESTION := by
  simpa [switchCases, not_or] using h

/-- The body of `handleKeyEvent` for a native code that reaches the `default:` branch. -/
theorem handleKeyEvent_of_default (sys : SystemDecls) (event : MAEvent) (rt : Runtime)
    (h : event.nativeKey ∉ switchCases) :
    rt.handleKeyEvent sys event =
      if event.nativeKey < 127 ∧ event.nativeKey ≠ event.key then
        if sys.isRunning rt._state &&
            decide (sys.getUnicodeChar event.nativeKey event.key ≠ 0) then
          ({ event with key := sys.getUnicodeChar event.nativeKey event.key },
            (rt.call (Call.getUnicodeChar event.nativeKey event.key)).call
              (Call.dev_pushkey (sys.getUnicodeChar event.nativeKey event.key)))
        else
          ({ event with key := sys.getUnicodeChar event.nativeKey event.key },
            rt.call (Call.getUnicodeChar event.nativeKey event.key))
      else if sys.isRunning rt._state && decide (event.key ≠ 0) then
        (event, rt.call (Call.dev_pushkey event.key))
      else (event, rt) := by
  obtain ⟨h1, h2, h3, h4, h5, h6, h7, h8, h9, h10, h11, h12, h13, h14, h15, h16, h17, h18, h19,
    h20⟩ := not_mem_switchCases _ h
  unfold Runtime.handleKeyEvent
  simp only [h1, h2, h3, h4, h5, h6, h7, h8, h9, h10, h11, h12, h13, h14, h15, h16, h17, h18,
    h19, h20, if_false]
  by_cases hc : event.nativeKey < 127 ∧ event.nativeKey ≠ event.key
  · simp only [hc, and_self, if_true, ne_eq, not_false_eq_true]
    simp [Runtime.call]
  · simp only [hc, if_false]

theorem handleKeyEvent_of_back (sys : SystemDecls) (event : MAEvent) (rt : Runtime)
    (hb : event.nativeKey = AKEYCODE_BACK) :
    rt.handleKeyEvent sys event =
      if rt._keypadActive then
        if sys.isRunning rt._state && decide (event.key ≠ 0) then
          (event, (rt.showKeypad false).call (Call.dev_pushkey event.key))
        else (event, rt.showKeypad false)
      else
        if sys.isRunning (sys.setBack (rt.call Call.setBack))._state && decide (event.key ≠ 0) then
          (event, (sys.setBack (rt.call Call.setBack)).call (Call.dev_pushkey event.key))
        else (event, sys.setBack (rt.call Call.setBack)) := by
  unfold Runtime.handleKeyEvent
  simp only [hb, AKEYCODE_BACK, AKEYCODE_ENDCALL]
  by_cases hk : rt._keypadActive = true
  · simp [hk, Runtime.showKeypad, Runtime.call]
  · simp [hk]

/-- C14: for each of the eighteen native codes of the fixed table of `Runtime::handleKeyEvent`
the key the event leaves with is the canonical key of that entry, whatever the event carried in
`key` before (and whatever the runtime and the declarations of `keymap.h` are): MENU gives
`SB_KEY_MENU`, TAB `SB_KEY_TAB`, HOME `SB_KEY_KP_HOME`, MOVE_END `SB_KEY_END`, INSERT
`SB_KEY_INSERT`, NUMPAD_MULTIPLY / ADD / SUBTRACT `SB_KEY_KP_MUL` / `KP_PLUS` / `KP_MINUS`,
PAGE_UP / PAGE_DOWN `SB_KEY_PGUP` / `SB_KEY_PGDN`, the four DPAD codes `SB_KEY_UP` / `DN` /
`LEFT` / `RIGHT`, CLEAR `SB_KEY_DELETE`, DEL `SB_KEY_BACKSPACE`, ENTER `SB_KEY_ENTER` and 274 the
question mark (63). -/
theorem handleKeyEvent_fixed_table (sys : SystemDecls) (event : MAEvent) (rt : Runtime) :
    (rt.handleKeyEvent sys { event with nativeKey := AKEYCODE_MENU }).1.key = sys.SB_KEY_MENU ∧
    (rt.handleKeyEvent sys { event with nativeKey := AKEYCODE_TAB }).1.key = sys.SB_KEY_TAB ∧
    (rt.handleKeyEvent sys { event with nativeKey := AKEYCODE_HOME }).1.key =
      sys.SB_KEY_KP_HOME ∧
    (rt.handleKeyEvent sys { event with nativeKey := AKEYCODE_MOVE_END }).1.key =
      sys.SB_KEY_END ∧
    (rt.handleKeyEvent sys { event with nativeKey := AKEYCODE_INSERT }).1.key =
      sys.SB_KEY_INSERT ∧
    (rt.handleKeyEvent sys { event with nativeKey := AKEYCODE_NUMPAD_MULTIPLY }).1.key =
      sys.SB_KEY_KP_MUL ∧
    (rt.handleKeyEvent sys { event with nativeKey := AKEYCODE_NUMPAD_ADD }).1.key =
      sys.SB_KEY_KP_PLUS ∧
    (rt.handleKeyEvent sys { event with nativeKey := AKEYCODE_NUMPAD_SUBTRACT }).1.key =
      sys.SB_KEY_KP_MINUS ∧
    (rt.handleKeyEvent sys { event with nativeKey := AKEYCODE_PAGE_UP }).1.key =
      sys.SB_KEY_PGUP ∧
    (rt.handleKeyEvent sys { event with nativeKey := AKEYCODE_PAGE_DOWN }).1.key =
      sys.SB_KEY_PGDN ∧
    (rt.handleKeyEvent sys { event with nativeKey := AKEYCODE_DPAD_UP }).1.key = sys.SB_KEY_UP ∧
    (rt.handleKeyEvent sys { event with nativeKey := AKEYCODE_DPAD_DOWN }).1.key =
      sys.SB_KEY_DN ∧
    (rt.handleKeyEvent sys { event with nativeKey := AKEYCODE_DPAD_LEFT }).1.key =
      sys.SB_KEY_LEFT ∧
    (rt.handleKeyEvent sys { event with nativeKey := AKEYCODE_DPAD_RIGHT }).1.key =
      sys.SB_KEY_RIGHT ∧
    (rt.handleKeyEvent sys { event with nativeKey := AKEYCODE_CLEAR }).1.key =
      sys.SB_KEY_DELETE ∧
    (rt.handleKeyEvent sys { event with nativeKey := AKEYCODE_DEL }).1.key =
      sys.SB_KEY_BACKSPACE ∧
    (rt.handleKeyEvent sys { event with nativeKey := AKEYCODE_ENTER }).1.key =
      sys.SB_KEY_ENTER ∧
    (rt.handleKeyEvent sys { event with nativeKey := GBOARD_KEY_QUESTION }).1.key = 63 := by
  refine ⟨?_, ?_, ?_, ?_, ?_, ?_, ?_, ?_, ?_, ?_, ?_, ?_, ?_, ?_, ?_, ?_, ?_, ?_⟩ <;>
  · unfold Runtime.handleKeyEvent
    simp only [AKEYCODE_ENDCALL, AKEYCODE_BACK, AKEYCODE_MENU, AKEYCODE_TAB, AKEYCODE_HOME,
      AKEYCODE_MOVE_END, AKEYCODE_INSERT, AKEYCODE_NUMPAD_MULTIPLY, AKEYCODE_NUMPAD_ADD,
      AKEYCODE_NUMPAD_SUBTRACT, AKEYCODE_PAGE_UP, AKEYCODE_PAGE_DOWN, AKEYCODE_DPAD_UP,
      AKEYCODE_DPAD_DOWN, AKEYCODE_DPAD_LEFT, AKEYCODE_DPAD_RIGHT, AKEYCODE_CLEAR, AKEYCODE_DEL,
      AKEYCODE_ENTER, GBOARD_KEY_QUESTION]
    simp
    split_ifs <;> rfl

/-- C15: for a key event whose native code is none of the case labels of the `switch` of
`Runtime::handleKeyEvent` (the table entries and the two intercepted keys), a native code below
127 that differs from the key the event carries is replaced by the answer of
`getUnicodeChar(nativeKey, key)`, the carried key serving as the meta state, and that call is
the one host call made for the translation; otherwise (the native code is at least 127, or
equals the carried key) the event is left as it is and the runtime makes no `getUnicodeChar`
call: it is unchanged but for the `dev_pushkey` of a running program. -/
theorem handleKeyEvent_default_translation (sys : SystemDecls) (event : MAEvent) (rt : Runtime)
    (h : event.nativeKey ∉ switchCases) :
    (event.nativeKey < 127 ∧ event.nativeKey ≠ event.key →
      (rt.handleKeyEvent sys event).1 =
        { event with key := sys.getUnicodeChar event.nativeKey event.key } ∧
      ((rt.handleKeyEvent sys event).2 =
          rt.call (Call.getUnicodeChar event.nativeKey event.key) ∨
        (rt.handleKeyEvent sys event).2 =
          (rt.call (Call.getUnicodeChar event.nativeKey event.key)).call
            (Call.dev_pushkey (sys.getUnicodeChar event.nativeKey event.key)))) ∧
    (127 ≤ event.nativeKey ∨ event.nativeKey = event.key →
      (rt.handleKeyEvent sys event).1 = event ∧
      ((rt.handleKeyEvent sys event).2 = rt ∨
        (rt.handleKeyEvent sys event).2 = rt.call (Call.dev_pushkey event.key))) := by
  rw [handleKeyEvent_of_default sys event rt h]
  refine ⟨?_, ?_⟩
  · intro hc
    rw [if_pos hc]
    split_ifs
    · exact ⟨rfl, Or.inr rfl⟩
    · exact ⟨rfl, Or.inl rfl⟩
  · intro hc
    have hn : ¬ (event.nativeKey < 127 ∧ event.nativeKey ≠ event.key) := by
      rintro ⟨h1, h2⟩
      rcases hc with hc | hc
      · omega
      · exact h2 hc
    rw [if_neg hn]
    split_ifs
    · exact ⟨rfl, Or.inr rfl⟩
    · exact ⟨rfl, Or.inl rfl⟩

theorem handleKeyEvent_default_translation_witness :
    ((sampleRuntime []).handleKeyEvent sampleDecls
        { sampleEvent EventType.EVENT_TYPE_KEY_PRESSED 1 with nativeKey := 29 }).1 =
      { sampleEvent EventType.EVENT_TYPE_KEY_PRESSED 29 with nativeKey := 29 } ∧
    ((sampleRuntime []).handleKeyEvent sampleDecls
        { sampleEvent EventType.EVENT_TYPE_KEY_PRESSED 233 with nativeKey := 233 }) =
      ({ sampleEvent EventType.EVENT_TYPE_KEY_PRESSED 233 with nativeKey := 233 },
        sampleRuntime []) := by
  have h1 := handleKeyEvent_default_translation sampleDecls
    { sampleEvent EventType.EVENT_TYPE_KEY_PRESSED 1 with nativeKey := 29 } (sampleRuntime [])
    (by decide)
  have h2 := handleKeyEvent_default_translation sampleDecls
    { sampleEvent EventType.EVENT_TYPE_KEY_PRESSED 233 with nativeKey := 233 } (sampleRuntime [])
    (by decide)
  refine ⟨(h1.1 (by decide)).1, ?_⟩
  have h3 := h2.2 (Or.inl (by decide))
  refine Prod.ext h3.1 ?_
  rcases h3.2 with h4 | h4
  · exact h4
  · rw [h4]
    exact absurd h4 (by decide)

/-- C17: the key `Runtime::handleKeyEvent` leaves in the event is a function of the native code
and of the key the event carried alone: two runs on events that agree in both, under the same
`SB_KEY_*` constants and with the same answer of `getUnicodeChar` for these two arguments, end
with the same key, whatever the two runtimes are (run state, keypad flag, focus flag, event
buffer and all other fields may differ), whatever the other fields of the two events are, and
whatever the remaining declarations (`isRunning`, `setBack`, `showMenu`, ...) do. -/
theorem handleKeyEvent_pure (sys1 sys2 : SystemDecls) (e1 e2 : MAEvent)
    (rt1 rt2 : Runtime) (hn : e1.nativeKey = e2.nativeKey) (hk : e1.key = e2.key)
    (hmap : sys1.keymap = sys2.keymap)
    (hhost : sys1.getUnicodeChar e1.nativeKey e1.key =
      sys2.getUnicodeChar e2.nativeKey e2.key) :
    (rt1.handleKeyEvent sys1 e1).1.key = (rt2.handleKeyEvent sys2 e2).1.key := by
  simp only [SystemDecls.keymap, List.cons.injEq, and_true] at hmap
  obtain ⟨m1, m2, m3, m4, m5, m6, m7, m8, m9, m10, m11, m12, m13, m14, m15, m16, m17⟩ := hmap
  by_cases hmem : e1.nativeKey ∈ switchCases
  · have hmem2 : e2.nativeKey ∈ switchCases := hn ▸ hmem
    simp only [switchCases, List.mem_cons, List.mem_singleton, List.not_mem_nil, or_false]
      at hmem
    rcases hmem with h | h | h | h | h | h | h | h | h | h | h | h | h | h | h | h | h | h | h | h
    all_goals
      have h2 : e2.nativeKey = _ := hn ▸ h
      unfold Runtime.handleKeyEvent
      simp only [h, h2, AKEYCODE_ENDCALL, AKEYCODE_BACK, AKEYCODE_MENU, AKEYCODE_TAB,
        AKEYCODE_HOME, AKEYCODE_MOVE_END, AKEYCODE_INSERT, AKEYCODE_NUMPAD_MULTIPLY,
        AKEYCODE_NUMPAD_ADD, AKEYCODE_NUMPAD_SUBTRACT, AKEYCODE_PAGE_UP, AKEYCODE_PAGE_DOWN,
        AKEYCODE_DPAD_UP, AKEYCODE_DPAD_DOWN, AKEYCODE_DPAD_LEFT, AKEYCODE_DPAD_RIGHT,
        AKEYCODE_CLEAR, AKEYCODE_DEL, AKEYCODE_ENTER, GBOARD_KEY_QUESTION]
      simp
      split_ifs <;> first | rfl | assumption
  · have hmem2 : e2.nativeKey ∉ switchCases := hn ▸ hmem
    rw [handleKeyEvent_of_default sys1 e1 rt1 hmem, handleKeyEvent_of_default sys2 e2 rt2 hmem2]
    have hc : (e1.nativeKey < 127 ∧ e1.nativeKey ≠ e1.key) ↔
        (e2.nativeKey < 127 ∧ e2.nativeKey ≠ e2.key) := by rw [hn, hk]
    by_cases hd : e1.nativeKey < 127 ∧ e1.nativeKey ≠ e1.key
    · rw [if_pos hd, if_pos (hc.mp hd)]
      split_ifs <;> exact hhost
    · rw [if_neg hd, if_neg (fun x => hd (hc.mpr x))]
      split_ifs <;> exact hk
theorem handleKeyEvent_pure_witness :
    ((sampleRuntime []).handleKeyEvent sampleDecls
        { sampleEvent EventType.EVENT_TYPE_KEY_PRESSED 1 with nativeKey := 29 }).1.key =
      ({ Runtime.new [none] with _state := State.kRunState, _keypadActive := true }.handleKeyEvent
        closingBreaks { sampleEvent EventType.EVENT_TYPE_POINTER_PRESSED 1 with
          nativeKey := 29, touchId := 7 }).1.key :=
  handleKeyEvent_pure sampleDecls closingBreaks _ _ _ _ rfl rfl rfl rfl

/-- C18: when `Runtime::handleKeyEvent` handles a native Back key the event is left as it is.
With the keypad shown the keypad is closed (`showKeypad(false)`, `_keypadActive` becomes false),
the run state stays what it was and `setBack` is not called; with the keypad not shown `setBack`
is called and the keypad flag stays what it was, given that `System::setBack` does not touch
it. An event with translated key 0, such as the one `process_input` builds for Back, pushes no
key to the interpreter: the runtime is exactly the one `showKeypad(false)`, respectively
`setBack`, leaves. -/
theorem back_key_closes_keypad_or_goes_back (sys : SystemDecls) (event : MAEvent) (rt : Runtime)
    (hb : event.nativeKey = AKEYCODE_BACK) :
    (rt.handleKeyEvent sys event).1 = event ∧
    (rt._keypadActive = true →
      ((rt.handleKeyEvent sys event).2 = rt.showKeypad false ∨
        (rt.handleKeyEvent sys event).2 =
          (rt.showKeypad false).call (Call.dev_pushkey event.key)) ∧
      (rt.handleKeyEvent sys event).2._keypadActive = false ∧
      (rt.handleKeyEvent sys event).2._state = rt._state ∧
      (Call.setBack ∈ (rt.handleKeyEvent sys event).2.trace → Call.setBack ∈ rt.trace)) ∧
    (rt._keypadActive = false →
      ((rt.handleKeyEvent sys event).2 = sys.setBack (rt.call Call.setBack) ∨
        (rt.handleKeyEvent sys event).2 =
          (sys.setBack (rt.call Call.setBack)).call (Call.dev_pushkey event.key)) ∧
      ((sys.setBack (rt.call Call.setBack))._keypadActive = rt._keypadActive →
        (rt.handleKeyEvent sys event).2._keypadActive = rt._keypadActive)) ∧
    (event.key = 0 →
      (rt.handleKeyEvent sys event).2 =
        if rt._keypadActive then rt.showKeypad false else sys.setBack (rt.call Call.setBack)) ∧
    backEvent.nativeKey = AKEYCODE_BACK ∧ backEvent.key = 0 := by
  rw [handleKeyEvent_of_back sys event rt hb]
  refine ⟨?_, ?_, ?_, ?_, rfl, rfl⟩
  · split_ifs <;> rfl
  · intro hk
    simp only [hk, if_true]
    refine ⟨?_, ?_⟩
    · split_ifs
      · exact Or.inr rfl
      · exact Or.inl rfl
    · split_ifs <;> simp [Runtime.showKeypad, Runtime.call]
  · intro hk
    simp only [hk, Bool.false_eq_true, if_false]
    refine ⟨?_, ?_⟩
    · split_ifs
      · exact Or.inr rfl
      · exact Or.inl rfl
    · intro hs
      split_ifs
      · simpa [Runtime.call, hk] using hs
      · simpa [hk] using hs
  · intro h0
    simp only [h0, ne_eq, not_true_eq_false, decide_False, Bool.and_false, Bool.false_eq_true,
      if_false]
    split_ifs <;> rfl

theorem back_key_closes_keypad_or_goes_back_witness :
    ((sampleRuntime []).handleKeyEvent sampleDecls backEvent).1 = backEvent ∧
      ({ sampleRuntime [] with _keypadActive := true }.handleKeyEvent sampleDecls backEvent).2 =
        { sampleRuntime [] with _keypadActive := false, trace := [Call.showKeypad false] } ∧
      ((sampleRuntime []).handleKeyEvent sampleDecls backEvent).2 =
        { sampleRuntime [] with trace := [Call.setBack] } := by
  have h1 := back_key_closes_keypad_or_goes_back sampleDecls backEvent (sampleRuntime []) rfl
  have h2 := back_key_closes_keypad_or_goes_back sampleDecls backEvent
    { sampleRuntime [] with _keypadActive := true } rfl
  refine ⟨h1.1, ?_, ?_⟩
  · rw [h2.2.2.2.1 rfl]
    rfl
  · rw [h1.2.2.2.1 rfl]
    rfl

/-- C16, evaluated where the code departs from it: the event `onUnicodeChar(274)` pushes carries
`nativeKey = key = 274`, and `handleKeyEvent` turns its key into 63 (the question mark), the
entry of the fixed table for `GBOARD_KEY_QUESTION`; likewise the event of `onUnicodeChar(66)`
(the letter B) leaves with the key `SB_KEY_ENTER`, 66 being `AKEYCODE_ENTER`. -/
theorem onUnicodeChar_table_collision :
    (∃ rt1, (sampleRuntime []).onUnicodeChar 274 = some rt1 ∧
      ∃ e rt2, rt1.popEvent = some (some e, rt2) ∧ e.nativeKey = 274 ∧ e.key = 274 ∧
        ∀ (sys : SystemDecls) (rt : Runtime), (rt.handleKeyEvent sys e).1.key = 63) ∧
    (∃ rt1, (sampleRuntime []).onUnicodeChar 66 = some rt1 ∧
      ∃ e rt2, rt1.popEvent = some (some e, rt2) ∧ e.nativeKey = 66 ∧ e.key = 66 ∧
        ∀ (sys : SystemDecls) (rt : Runtime),
          (rt.handleKeyEvent sys e).1.key = sys.SB_KEY_ENTER) ∧
    sampleDecls.SB_KEY_ENTER = 10 := by
  refine ⟨⟨_, rfl, _, _, rfl, rfl, rfl, ?_⟩, ⟨_, rfl, _, _, rfl, rfl, rfl, ?_⟩, rfl⟩
  · intro sys rt
    unfold Runtime.handleKeyEvent
    simp [MAEvent.new, AKEYCODE_ENDCALL, AKEYCODE_BACK, AKEYCODE_MENU, AKEYCODE_TAB,
        AKEYCODE_HOME, AKEYCODE_MOVE_END, AKEYCODE_INSERT, AKEYCODE_NUMPAD_MULTIPLY,
        AKEYCODE_NUMPAD_ADD, AKEYCODE_NUMPAD_SUBTRACT, AKEYCODE_PAGE_UP, AKEYCODE_PAGE_DOWN,
        AKEYCODE_DPAD_UP, AKEYCODE_DPAD_DOWN, AKEYCODE_DPAD_LEFT, AKEYCODE_DPAD_RIGHT,
        AKEYCODE_CLEAR, AKEYCODE_DEL, AKEYCODE_ENTER, GBOARD_KEY_QUESTION]
    split_ifs <;> rfl
  · intro sys rt
    unfold Runtime.handleKeyEvent
    simp [MAEvent.new, AKEYCODE_ENDCALL, AKEYCODE_BACK, AKEYCODE_MENU, AKEYCODE_TAB,
        AKEYCODE_HOME, AKEYCODE_MOVE_END, AKEYCODE_INSERT, AKEYCODE_NUMPAD_MULTIPLY,
        AKEYCODE_NUMPAD_ADD, AKEYCODE_NUMPAD_SUBTRACT, AKEYCODE_PAGE_UP, AKEYCODE_PAGE_DOWN,
        AKEYCODE_DPAD_UP, AKEYCODE_DPAD_DOWN, AKEYCODE_DPAD_LEFT, AKEYCODE_DPAD_RIGHT,
        AKEYCODE_CLEAR, AKEYCODE_DEL, AKEYCODE_ENTER, GBOARD_KEY_QUESTION]
    split_ifs <;> rfl

/-! ### `Runtime::onResize` -/

/-- C13: on a runtime whose graphics and event buffer exist, `Runtime::onResize(width, height)`
with a size that differs from the one `Graphics` holds returns with the viewport size set to
`(width, height)` and with exactly one event pushed, of type `EVENT_TYPE_SCREEN_CHANGED` (the
buffer is the old one with that event on top, one element longer); the same call repeated on the
runtime so obtained changes nothing, so that two equal resizes enqueue one event; and a call
with the size `Graphics` already holds returns the runtime as it was. -/
theorem onResize_enqueues_once (rt : Runtime) (g : Graphics) (q : Stack MAEvent)
    (width height : Int) (hg : rt._graphics = some g) (hq : rt._eventQueue = some q) :
    (g.getWidth ≠ width ∨ g.getHeight ≠ height →
      ∃ r, rt.onResize width height = some r ∧
        r._graphics = some { width := width, height := height } ∧
        r._eventQueue =
          some (q.push { MAEvent.new with type := EventType.EVENT_TYPE_SCREEN_CHANGED }) ∧
        r.bufferSize = rt.bufferSize + 1 ∧
        r.onResize width height = some r) ∧
    (g.getWidth = width → g.getHeight = height → rt.onResize width height = some rt) := by
  obtain ⟨st, kp, hf, g0, o, q0, sm, dr, host, tr⟩ := rt
  simp only at hg hq
  subst hg hq
  refine ⟨?_, ?_⟩
  · intro hne
    refine ⟨Runtime.mk st kp hf (some (g.setSize width height)) o
      (some (q.push { MAEvent.new with type := EventType.EVENT_TYPE_SCREEN_CHANGED })) sm dr host
      (tr ++ [Call.ALooper_acquire, Call.ALooper_wake, Call.ALooper_release]), ?_, ?_⟩
    · simp [Runtime.onResize, hne, Runtime.pushEvent, Runtime.call]
    · simp [Runtime.onResize, Runtime.bufferSize, Stack.push, Stack.size, Graphics.setSize,
        Graphics.getWidth, Graphics.getHeight]
  · intro hw hh
    simp [Runtime.onResize, hw, hh]

theorem onResize_enqueues_once_witness :
    ∃ r, (sampleRuntime []).onResize 600 800 = some r ∧
      r._graphics = some { width := 600, height := 800 } ∧
      r._eventQueue = some { items := [sampleEvent EventType.EVENT_TYPE_SCREEN_CHANGED 0] } ∧
      r.onResize 600 800 = some r ∧
      (sampleRuntime []).onResize 800 600 = some (sampleRuntime []) := by
  have h := onResize_enqueues_once (sampleRuntime []) { width := 800, height := 600 } Stack.new
    600 800 rfl rfl
  have h2 := onResize_enqueues_once (sampleRuntime []) { width := 800, height := 600 } Stack.new
    800 600 rfl rfl
  obtain ⟨r, h3, h4, h5, _, h6⟩ := h.1 (Or.inl (by decide))
  exact ⟨r, h3, h4, h5, h6, h2.2 rfl rfl⟩

/-! ### `handleInput` and `process_input` -/

/-- C20: `handleInput` on a runtime that is not active returns 0 and leaves the runtime as it
is, for every native input event. On an active runtime (its event buffer exists) it returns 1
with exactly one event pushed for a motion event whose masked action is DOWN, MOVE or UP (pointer
pressed, dragged, released, carrying the position of the native event) and for a key event with
action DOWN (key pressed, with the key code as `nativeKey` and the meta state as `key`); for
every other input it returns 0 and leaves the runtime as it is. So the value returned is 1
exactly when one event was pushed, and 0 exactly when nothing changed. -/
theorem handleInput_pushes_at_most_one (sys : SystemDecls) (event : AInputEvent)
    (rt : Runtime) :
    (sys.isActive rt._state = false → handleInput sys event rt = some (0, rt)) ∧
    (∀ q : Stack MAEvent, sys.isActive rt._state = true → rt._eventQueue = some q →
      (event.type = AINPUT_EVENT_TYPE_MOTION →
        (event.action % 256 = AMOTION_EVENT_ACTION_DOWN →
          handleInput sys event rt = some (1, { rt with
            _eventQueue :=
              some (q.push (getMotionEvent EventType.EVENT_TYPE_POINTER_PRESSED event)) })) ∧
        (event.action % 256 = AMOTION_EVENT_ACTION_MOVE →
          handleInput sys event rt = some (1, { rt with
            _eventQueue :=
              some (q.push (getMotionEvent EventType.EVENT_TYPE_POINTER_DRAGGED event)) })) ∧
        (event.action % 256 = AMOTION_EVENT_ACTION_UP →
          handleInput sys event rt = some (1, { rt with
            _eventQueue :=
              some (q.push (getMotionEvent EventType.EVENT_TYPE_POINTER_RELEASED event)) })) ∧
        (event.action % 256 ≠ AMOTION_EVENT_ACTION_DOWN →
          event.action % 256 ≠ AMOTION_EVENT_ACTION_MOVE →
          event.action % 256 ≠ AMOTION_EVENT_ACTION_UP →
          handleInput sys event rt = some (0, rt))) ∧
      (event.type = AINPUT_EVENT_TYPE_KEY →
        (event.action = AKEY_EVENT_ACTION_DOWN →
          handleInput sys event rt = some (1, { rt with
            _eventQueue :=
              some (q.push { MAEvent.new with type := EventType.EVENT_TYPE_KEY_PRESSED,
                                              nativeKey := event.keyCode,
                                              key := event.metaState }) })) ∧
        (event.action ≠ AKEY_EVENT_ACTION_DOWN → handleInput sys event rt = some (0, rt))) ∧
      (event.type ≠ AINPUT_EVENT_TYPE_MOTION → event.type ≠ AINPUT_EVENT_TYPE_KEY →
        handleInput sys event rt = some (0, rt)) ∧
      ∃ (n : Int) (r : Runtime), handleInput sys event rt = some (n, r) ∧
        ((n = 1 ∧ r.bufferSize = rt.bufferSize + 1) ∨ (n = 0 ∧ r = rt))) := by
  refine ⟨?_, ?_⟩
  · intro h
    simp [handleInput, h]
  · intro q ha hq
    have hkm : AINPUT_EVENT_TYPE_KEY ≠ AINPUT_EVENT_TYPE_MOTION := by decide
    refine ⟨?_, ?_, ?_, ?_⟩
    · intro ht
      refine ⟨?_, ?_, ?_, ?_⟩
      · intro h1
        simp [handleInput, ha, ht, h1, AMOTION_EVENT_ACTION_MASK, Runtime.pushEvent, hq]
      · intro h1
        simp [handleInput, ha, ht, h1, AMOTION_EVENT_ACTION_MASK, Runtime.pushEvent, hq,
          AMOTION_EVENT_ACTION_MOVE, AMOTION_EVENT_ACTION_DOWN]
      · intro h1
        simp [handleInput, ha, ht, h1, AMOTION_EVENT_ACTION_MASK, Runtime.pushEvent, hq,
          AMOTION_EVENT_ACTION_MOVE, AMOTION_EVENT_ACTION_DOWN, AMOTION_EVENT_ACTION_UP]
      · intro h1 h2 h3
        simp [handleInput, ha, ht, h1, h2, h3, AMOTION_EVENT_ACTION_MASK]
    · intro ht
      refine ⟨?_, ?_⟩
      · intro h1
        simp [handleInput, ha, ht, h1, hkm, Runtime.pushEvent, hq]
      · intro h1
        simp [handleInput, ha, ht, h1, hkm]
    · intro h1 h2
      simp [handleInput, ha, h1, h2]
    · unfold handleInput
      simp only [ha, if_true]
      split
      · rename_i e he
        refine ⟨1, { rt with _eventQueue := some (q.push e) }, ?_, Or.inl ⟨rfl, ?_⟩⟩
        · simp [Runtime.pushEvent, hq]
        · simp [Runtime.bufferSize, hq, Stack.push, Stack.size]
      · exact ⟨0, rt, rfl, Or.inr ⟨rfl, rfl⟩⟩

theorem handleInput_pushes_at_most_one_witness :
    handleInput sampleDecls (motionInput 0 12 34) (Runtime.new []) = some (0, Runtime.new []) ∧
      handleInput sampleDecls (motionInput 0 12 34) (sampleRuntime []) =
        some (1, { sampleRuntime [] with
          _eventQueue := some { items := [{ sampleEvent EventType.EVENT_TYPE_POINTER_PRESSED 0 with
            point := { x := 12, y := 34 } }] } }) ∧
      handleInput sampleDecls (keyInput 1 29 0) (sampleRuntime []) =
        some (0, sampleRuntime []) := by
  have h0 := handleInput_pushes_at_most_one sampleDecls (motionInput 0 12 34) (Runtime.new [])
  have h1 := handleInput_pushes_at_most_one sampleDecls (motionInput 0 12 34) (sampleRuntime [])
  have h2 := handleInput_pushes_at_most_one sampleDecls (keyInput 1 29 0) (sampleRuntime [])
  exact ⟨h0.1 rfl, ((h1.2 Stack.new rfl rfl).1 rfl).1 rfl,
    ((h2.2 Stack.new rfl rfl).2.1 rfl).2 (by decide)⟩

/-- The step of `process_input` at a native Back key. -/
theorem process_input_back (sys : SystemDecls) (event : AInputEvent)
    (queue : List AInputEvent) (rt : Runtime) (q : Stack MAEvent)
    (ht : event.type = AINPUT_EVENT_TYPE_KEY) (hk : event.keyCode = AKEYCODE_BACK)
    (hq : rt._eventQueue = some q) :
    process_input sys (event :: queue) rt =
      process_input sys queue
        ((if event.action = AKEY_EVENT_ACTION_DOWN ∧ sys.isActive rt._state = true then
            { rt with _eventQueue := some (q.push backEvent) }
          else rt).call (Call.AInputQueue_finishEvent event 1)) := by
  rw [process_input]
  simp only [ht, hk, and_self, if_true]
  by_cases hc : event.action = AKEY_EVENT_ACTION_DOWN ∧ sys.isActive rt._state = true
  · simp only [hc, and_self, if_true, Runtime.pushEvent, hq, backEvent]
  · simp only [hc, if_false]

/-- C19: for a native key event with the key code Back, on a runtime whose event buffer exists,
`process_input` neither calls `AInputQueue_preDispatchEvent` nor `handleInput`: the one call it
records for the event is `AInputQueue_finishEvent(event, 1)`, and it goes on with the rest of
the input queue. When the action is DOWN and the runtime is active it pushes exactly one event
before that, the key-pressed event with `nativeKey = AKEYCODE_BACK`; otherwise it pushes
nothing. So one Back event makes the buffer grow by at most one. -/
theorem process_input_intercepts_back (sys : SystemDecls) (event : AInputEvent)
    (queue : List AInputEvent) (rt : Runtime) (q : Stack MAEvent)
    (ht : event.type = AINPUT_EVENT_TYPE_KEY) (hk : event.keyCode = AKEYCODE_BACK)
    (hq : rt._eventQueue = some q) :
    (event.action = AKEY_EVENT_ACTION_DOWN ∧ sys.isActive rt._state = true →
      process_input sys (event :: queue) rt =
        process_input sys queue
          ({ rt with _eventQueue := some (q.push backEvent) }.call
            (Call.AInputQueue_finishEvent event 1)) ∧
      process_input sys [event] rt =
        some ({ rt with _eventQueue := some (q.push backEvent) }.call
          (Call.AInputQueue_finishEvent event 1))) ∧
    (¬ (event.action = AKEY_EVENT_ACTION_DOWN ∧ sys.isActive rt._state = true) →
      process_input sys (event :: queue) rt =
        process_input sys queue (rt.call (Call.AInputQueue_finishEvent event 1)) ∧
      process_input sys [event] rt =
        some (rt.call (Call.AInputQueue_finishEvent event 1))) ∧
    (∃ r, process_input sys [event] rt = some r ∧
      r.trace = rt.trace ++ [Call.AInputQueue_finishEvent event 1] ∧
      r.bufferSize ≤ rt.bufferSize + 1) ∧
    backEvent.type = EventType.EVENT_TYPE_KEY_PRESSED ∧ backEvent.nativeKey = AKEYCODE_BACK := by
  refine ⟨?_, ?_, ?_, rfl, rfl⟩
  · intro hc
    rw [process_input_back sys event queue rt q ht hk hq,
      process_input_back sys event [] rt q ht hk hq, if_pos hc]
    exact ⟨rfl, rfl⟩
  · intro hc
    rw [process_input_back sys event queue rt q ht hk hq,
      process_input_back sys event [] rt q ht hk hq, if_neg hc]
    exact ⟨rfl, rfl⟩
  · rw [process_input_back sys event [] rt q ht hk hq]
    refine ⟨_, rfl, ?_, ?_⟩
    · split_ifs <;> rfl
    · split_ifs
      · simp [Runtime.call, Runtime.bufferSize, hq, Stack.push, Stack.size]
      · simp [Runtime.call, Runtime.bufferSize]

theorem process_input_intercepts_back_witness :
    process_input sampleDecls [keyInput 0 4 0] (sampleRuntime []) =
        some { sampleRuntime [] with
          _eventQueue := some { items := [backEvent] },
          trace := [Call.AInputQueue_finishEvent (keyInput 0 4 0) 1] } ∧
      process_input sampleDecls [keyInput 1 4 0] (sampleRuntime []) =
        some { sampleRuntime [] with
          trace := [Call.AInputQueue_finishEvent (keyInput 1 4 0) 1] } := by
  have h0 := process_input_intercepts_back sampleDecls (keyInput 0 4 0) [] (sampleRuntime [])
    Stack.new rfl rfl rfl
  have h1 := process_input_intercepts_back sampleDecls (keyInput 1 4 0) [] (sampleRuntime [])
    Stack.new rfl rfl rfl
  exact ⟨(h0.1 (by decide)).2, (h1.2.1 (by decide)).2⟩

/-! ### The event buffer across the handlers -/

theorem handleKeyEvent_queue (sys : SystemDecls) (hs : sys.KeepsBuffer) (e : MAEvent)
    (rt : Runtime) : (rt.handleKeyEvent sys e).2._eventQueue = rt._eventQueue := by
  obtain ⟨hBack, -, -, -, hMenu, -⟩ := hs
  by_cases hmem : e.nativeKey ∈ switchCases
  · simp only [switchCases, List.mem_cons, List.mem_singleton, List.not_mem_nil, or_false]
      at hmem
    rcases hmem with h | h | h | h | h | h | h | h | h | h | h | h | h | h | h | h | h | h | h | h
    all_goals
      unfold Runtime.handleKeyEvent
      simp only [h, AKEYCODE_ENDCALL, AKEYCODE_BACK, AKEYCODE_MENU, AKEYCODE_TAB,
        AKEYCODE_HOME, AKEYCODE_MOVE_END, AKEYCODE_INSERT, AKEYCODE_NUMPAD_MULTIPLY,
        AKEYCODE_NUMPAD_ADD, AKEYCODE_NUMPAD_SUBTRACT, AKEYCODE_PAGE_UP, AKEYCODE_PAGE_DOWN,
        AKEYCODE_DPAD_UP, AKEYCODE_DPAD_DOWN, AKEYCODE_DPAD_LEFT, AKEYCODE_DPAD_RIGHT,
        AKEYCODE_CLEAR, AKEYCODE_DEL, AKEYCODE_ENTER, GBOARD_KEY_QUESTION]
      simp
      split_ifs <;> simp [Runtime.call, Runtime.showKeypad, hBack, hMenu]
  · rw [handleKeyEvent_of_default sys e rt hmem]
    split_ifs <;> rfl

theorem processEvent_queue (sys : SystemDecls) (hs : sys.KeepsBuffer) (e : MAEvent)
    (rt : Runtime) : (rt.processEvent sys e).2._eventQueue = rt._eventQueue := by
  unfold Runtime.processEvent
  split
  · simp [hs.2.2.2.1, Runtime.call]
  · exact handleKeyEvent_queue sys hs e rt
  · simp [hs.2.2.1, Runtime.call]

theorem bufferSize_call (rt : Runtime) (c : Call) : (rt.call c).bufferSize = rt.bufferSize := rfl

theorem hasEvent_iff (rt : Runtime) : rt.hasEvent = true ↔ 0 < rt.bufferSize := by
  unfold Runtime.hasEvent Runtime.bufferSize
  cases rt._eventQueue <;> simp

/-- With an event in the buffer, the pop-and-process step of `pause` returns, having handed the
top of the buffer to `processEvent`. -/
theorem popAndProcess_of_hasEvent (sys : SystemDecls) (rt : Runtime) (h : rt.hasEvent = true) :
    ∃ e rt2, rt.popEvent = some (some e, rt2) ∧ rt2.bufferSize + 1 = rt.bufferSize ∧
      rt.popAndProcess sys =
        Outcome.returned ((rt2.call (Call.processEvent e)).processEvent sys e).2 := by
  obtain ⟨st, kp, hf, g, o, q, sm, dr, host, tr⟩ := rt
  cases q with
  | none => simp [Runtime.hasEvent] at h
  | some q =>
    obtain ⟨items⟩ := q
    cases items with
    | nil => simp [Runtime.hasEvent, Stack.size] at h
    | cons e rest =>
      refine ⟨e, Runtime.mk st kp hf g o (some (Stack.mk rest)) sm dr host tr, ?_, ?_, ?_⟩
      · simp [Runtime.popEvent, Stack.pop]
      · simp [Runtime.bufferSize, Stack.size]
      · simp [Runtime.popAndProcess, Runtime.popEvent, Stack.pop]


theorem pushEvents_some (es : List MAEvent) (rt r : Runtime)
    (h : Runtime.pushEvents es rt = some r) :
    r._state = rt._state ∧ rt.bufferSize ≤ r.bufferSize ∧
      (rt._eventQueue = none → r._eventQueue = none) := by
  cases hq : rt._eventQueue with
  | none =>
    cases es with
    | nil =>
      simp only [Runtime.pushEvents, Option.some.injEq] at h
      subst h
      exact ⟨rfl, le_refl _, fun _ => hq⟩
    | cons e es => simp [Runtime.pushEvents, Runtime.pushEvent, hq] at h
  | some q =>
    rw [pushEvents_queue es rt q hq] at h
    simp only [Option.some.injEq] at h
    subst h
    refine ⟨rfl, ?_, fun hn => by simp at hn⟩
    simp [Runtime.bufferSize, hq, Stack.size]

/-- The two shapes of the result of `handleInput`: nothing happened, or one event was built and
handed to `pushEvent`. -/
theorem handleInput_cases (sys : SystemDecls) (event : AInputEvent) (rt : Runtime) :
    handleInput sys event rt = some (0, rt) ∨
      ∃ e, handleInput sys event rt = (rt.pushEvent e).map (fun rt1 => (1, rt1)) := by
  unfold handleInput
  by_cases ha : sys.isActive rt._state = true
  · simp only [ha, if_true]
    split
    · rename_i e he
      exact Or.inr ⟨e, rfl⟩
    · exact Or.inl rfl
  · left
    simp only [ha, Bool.false_eq_true, if_false]

theorem handleInput_some (sys : SystemDecls) (event : AInputEvent) (rt r : Runtime) (n : Int)
    (h : handleInput sys event rt = some (n, r)) : rt.bufferSize ≤ r.bufferSize := by
  rcases handleInput_cases sys event rt with hc | ⟨e, hc⟩
  · rw [hc] at h
    simp only [Option.some.injEq, Prod.mk.injEq] at h
    rw [← h.2]
  · rw [hc] at h
    cases hq : rt._eventQueue with
    | none => simp [Runtime.pushEvent, hq] at h
    | some q =>
      simp only [Runtime.pushEvent, hq, Option.map_some', Option.some.injEq,
        Prod.mk.injEq] at h
      rw [← h.2]
      simp [Runtime.bufferSize, hq, Stack.push, Stack.size]

theorem process_input_some (sys : SystemDecls) (queue : List AInputEvent) (rt r : Runtime)
    (h : process_input sys queue rt = some r) : rt.bufferSize ≤ r.bufferSize := by
  induction queue generalizing rt with
  | nil =>
    simp only [process_input, Option.some.injEq] at h
    rw [h]
  | cons event queue ih =>
    rw [process_input] at h
    by_cases hb : event.type = AINPUT_EVENT_TYPE_KEY ∧ event.keyCode = AKEYCODE_BACK
    · simp only [hb, and_self, if_true] at h
      by_cases hc : event.action = AKEY_EVENT_ACTION_DOWN ∧ sys.isActive rt._state = true
      · simp only [hc, and_self, if_true] at h
        cases hq : rt._eventQueue with
        | none => simp [Runtime.pushEvent, hq] at h
        | some q =>
          simp only [Runtime.pushEvent, hq] at h
          have h2 := ih _ h
          simp only [Runtime.call, Runtime.bufferSize, Stack.push, Stack.size,
            List.length_cons] at h2
          simp only [Runtime.bufferSize, hq, Stack.size]
          omega
      · simp only [hc, if_false] at h
        have h2 := ih _ h
        rwa [bufferSize_call] at h2
    · simp only [hb, if_false] at h
      by_cases hp : event.preDispatched = true
      · simp only [hp, if_true] at h
        have h2 := ih _ h
        rwa [bufferSize_call] at h2
      · simp only [hp, Bool.false_eq_true, if_false] at h
        cases hi : handleInput sys event (rt.call (Call.AInputQueue_preDispatchEvent event)) with
        | none => simp [hi] at h
        | some p =>
          obtain ⟨n, r2⟩ := p
          simp only [hi] at h
          have h1 := handleInput_some sys event _ r2 n hi
          have h2 := ih _ h
          rw [bufferSize_call] at h1 h2
          omega

theorem handleCommand_bufferSize (sys : SystemDecls) (hs : sys.KeepsBuffer)
    (env : ConstructEnv) (cmd : Int) (rt : Runtime)
    (hinit : rt._state = State.kInitState → rt._eventQueue = none) :
    rt.bufferSize ≤ (handleCommand sys env cmd rt).bufferSize := by
  unfold handleCommand
  split_ifs with h1 h2 h3 h4
  · have hq := hinit (by simpa [Runtime.isInitial] using h2)
    simp [Runtime.bufferSize, hq]
  · exact le_refl _
  · simp [Runtime.bufferSize, hs.2.2.2.2.2, Runtime.call, Runtime.setFocus]
  · exact le_refl _
  · exact le_refl _

theorem processSource_bufferSize (sys : SystemDecls) (hs : sys.KeepsBuffer)
    (env : ConstructEnv) (source : Option PollSource) (rt r : Runtime)
    (hinit : rt._state = State.kInitState → rt._eventQueue = none)
    (h : processSource sys env source rt = some r) : rt.bufferSize ≤ r.bufferSize := by
  cases source with
  | none =>
    simp only [processSource, Option.some.injEq] at h
    rw [h]
  | some s =>
    cases s with
    | input queue => exact process_input_some sys queue rt r h
    | cmd c =>
      simp only [processSource, Option.some.injEq] at h
      rw [← h]
      exact handleCommand_bufferSize sys hs env c rt hinit

/-- A poll never takes an event out of the buffer. -/
theorem pollEvents_bufferSize (sys : SystemDecls) (hs : sys.KeepsBuffer) (env : ConstructEnv)
    (blocking : Bool) (rt r : Runtime)
    (hinit : rt._state = State.kInitState → rt._eventQueue = none)
    (h : rt.pollEvents sys env blocking = Outcome.returned r) :
    rt.bufferSize ≤ r.bufferSize := by
  unfold Runtime.pollEvents at h
  simp only at h
  generalize (if (blocking || !rt._hasFocus) = true then (-1 : Int) else 0) = t at h
  split at h
  · simp at h
  · by_cases hd : (rt.call (Call.ALooper_pollAll t)).destroyRequested = true
    · simp only [hd, if_true, Outcome.returned.injEq] at h
      rw [← h]
      simp [Runtime.bufferSize, hs.2.1, Runtime.call]
    · simp only [hd, Bool.false_eq_true, if_false, Outcome.returned.injEq] at h
      rw [← h]
      simp [Runtime.bufferSize, Runtime.call]
  · rename_i w host hw
    cases hp : Runtime.pushEvents w.pushed
        { rt.call (Call.ALooper_pollAll t) with host := host } with
    | none => simp [hp] at h
    | some r0 =>
      simp only [hp, Option.some_bind] at h
      obtain ⟨hst, hsz, hnone⟩ := pushEvents_some _ _ _ hp
      have h3 : rt.bufferSize ≤ r0.bufferSize := by
        simpa [Runtime.bufferSize, Runtime.call] using hsz
      cases hps : processSource sys env w.source r0 with
      | none => simp [hps] at h
      | some rt1 =>
        simp only [hps] at h
        have h2 := processSource_bufferSize sys hs env w.source r0 rt1
          (fun hi => hnone (hinit (by simpa [Runtime.call] using hst ▸ hi))) hps
        by_cases hd : (rt1.destroyRequested || w.destroyRequested) = true
        · simp only [hd, if_true, Outcome.returned.injEq] at h
          rw [← h]
          simp only [Runtime.bufferSize, hs.2.1, Runtime.call]
          simp only [Runtime.bufferSize] at h2 h3
          omega
        · simp only [hd, Bool.false_eq_true, if_false, Outcome.returned.injEq] at h
          rw [← h]
          simp only [Runtime.bufferSize]
          simp only [Runtime.bufferSize] at h2 h3
          omega


/-! ### `Runtime::pause(-1)` -/

theorem ALooper_pollAll_blocking (n : Nat) (w : Wakeup) (rest : List (Option Wakeup)) :
    ALooper_pollAll (-1) (List.replicate n none ++ some w :: rest) = some (some w, rest) := by
  induction n with
  | zero => simp [ALooper_pollAll]
  | succ n ih => simpa [List.replicate_succ, ALooper_pollAll] using ih

/-- A blocking poll that ends with a wake-up at which producers have pushed events, no source
being ready: the events are in the buffer, last pushed on top. -/
theorem pollEvents_blocking_pushed (sys : SystemDecls) (env : ConstructEnv) (rt : Runtime)
    (q : Stack MAEvent) (es : List MAEvent) (n : Nat) (rest : List (Option Wakeup))
    (hq : rt._eventQueue = some q) (hd : rt.destroyRequested = false)
    (hh : rt.host = List.replicate n none ++ some (pushedWakeup es) :: rest) :
    rt.pollEvents sys env true =
      Outcome.returned { rt with _eventQueue := some { items := es.reverse ++ q.items },
                                 host := rest,
                                 trace := rt.trace ++ [Call.ALooper_pollAll (-1)] } := by
  obtain ⟨st, kp, hf, g, o, q0, sm, dr, host, tr⟩ := rt
  simp only at hq hd hh
  subst hq hd hh
  have hp := pushEvents_queue es (Runtime.mk st kp hf g o (some q) sm false rest
    (tr ++ [Call.ALooper_pollAll (-1)])) q rfl
  simp only [Runtime.pollEvents, Bool.true_or, if_true, Runtime.call,
    ALooper_pollAll_blocking, pushedWakeup, hp, Option.some_bind, processSource]
  simp


/-- C11: `Runtime::pause(-1)` makes one poll, a blocking one, and is parked with it when no
wake-up comes. Once the poll has returned, the call returns: with the runtime the poll left when
the buffer is empty then, and otherwise after popping the top event and handing exactly that one
to `processEvent`, the buffer being one element shorter than after the poll. So a call takes at
most one event out of the buffer (polls only add events; the handlers of `System` are assumed to
leave the buffer alone, and a runtime in the Initial state has no buffer yet). When the buffer is
empty at the call and the wake-up that ends the poll carries exactly one pushed event, that
event is the one processed and the buffer is empty on return. -/
theorem pause_indefinite_one_event (sys : SystemDecls) (env : ConstructEnv)
    (hs : sys.KeepsBuffer) (rt : Runtime) (fuel : Nat) :
    (rt.pollEvents sys env true = Outcome.blocked →
      rt.pause sys env (-1) fuel = Outcome.blocked) ∧
    (∀ rt1 : Runtime, rt.pollEvents sys env true = Outcome.returned rt1 →
      (rt1.hasEvent = false → rt.pause sys env (-1) fuel = Outcome.returned rt1) ∧
      (rt1.hasEvent = true → ∃ e rt2, rt1.popEvent = some (some e, rt2) ∧
        rt.pause sys env (-1) fuel =
          Outcome.returned ((rt2.call (Call.processEvent e)).processEvent sys e).2 ∧
        ((rt2.call (Call.processEvent e)).processEvent sys e).2.bufferSize + 1 =
          rt1.bufferSize)) ∧
    ((rt._state = State.kInitState → rt._eventQueue = none) →
      ∀ r : Runtime, rt.pause sys env (-1) fuel = Outcome.returned r →
        rt.bufferSize ≤ r.bufferSize + 1) ∧
    (∀ (e : MAEvent) (n : Nat) (rest : List (Option Wakeup)),
      rt._eventQueue = some Stack.new → rt.destroyRequested = false →
      rt.host = List.replicate n none ++ some (pushedWakeup [e]) :: rest →
      ∃ r, rt.pause sys env (-1) fuel = Outcome.returned r ∧
        r = (Runtime.processEvent sys e { rt with
              host := rest,
              trace := rt.trace ++ [Call.ALooper_pollAll (-1), Call.processEvent e] }).2 ∧
        r.hasEvent = false ∧ r.bufferSize = 0) := by
  have hafter : ∀ rt1 : Runtime, rt.pollEvents sys env true = Outcome.returned rt1 →
      (rt1.hasEvent = false → rt.pause sys env (-1) fuel = Outcome.returned rt1) ∧
      (rt1.hasEvent = true → ∃ e rt2, rt1.popEvent = some (some e, rt2) ∧
        rt.pause sys env (-1) fuel =
          Outcome.returned ((rt2.call (Call.processEvent e)).processEvent sys e).2 ∧
        ((rt2.call (Call.processEvent e)).processEvent sys e).2.bufferSize + 1 =
          rt1.bufferSize) := by
    intro rt1 hp
    refine ⟨?_, ?_⟩
    · intro he
      simp [Runtime.pause, hp, he]
    · intro he
      obtain ⟨e, rt2, hpop, hsz, hrun⟩ := popAndProcess_of_hasEvent sys rt1 he
      refine ⟨e, rt2, hpop, ?_, ?_⟩
      · simp [Runtime.pause, hp, he, hrun]
      · have hq := processEvent_queue sys hs e (rt2.call (Call.processEvent e))
        simp only [Runtime.bufferSize, hq]
        simpa [Runtime.bufferSize, Runtime.call] using hsz
  refine ⟨?_, hafter, ?_, ?_⟩
  · intro hp
    simp [Runtime.pause, hp]
  · intro hinit r hr
    cases hp : rt.pollEvents sys env true with
    | returned rt1 =>
      have hmono := pollEvents_bufferSize sys hs env true rt rt1 hinit hp
      by_cases he : rt1.hasEvent = true
      · obtain ⟨e, rt2, -, hrun, hsz⟩ := (hafter rt1 hp).2 he
        rw [hrun, Outcome.returned.injEq] at hr
        rw [← hr]
        omega
      · have he2 : rt1.hasEvent = false := by simpa using he
        rw [(hafter rt1 hp).1 he2, Outcome.returned.injEq] at hr
        rw [← hr]
        omega
    | blocked => simp [Runtime.pause, hp] at hr
    | fault => simp [Runtime.pause, hp] at hr
    | outOfFuel => simp [Runtime.pause, hp] at hr
  · intro e n rest hq hd hh
    obtain ⟨st, kp, hf, g, o, q0, sm, dr, host, tr⟩ := rt
    simp only at hq hd hh
    subst hq hd hh
    have hp := pollEvents_blocking_pushed sys env (Runtime.mk st kp hf g o (some Stack.new) sm
      false (List.replicate n none ++ some (pushedWakeup [e]) :: rest) tr) Stack.new [e] n rest
      rfl rfl rfl
    have hrun : Runtime.pause sys env (-1) fuel (Runtime.mk st kp hf g o (some Stack.new) sm false
        (List.replicate n none ++ some (pushedWakeup [e]) :: rest) tr) =
        Outcome.returned (Runtime.processEvent sys e (Runtime.mk st kp hf g o (some Stack.new) sm
          false rest (tr ++ [Call.ALooper_pollAll (-1), Call.processEvent e]))).2 := by
      rw [Runtime.pause, if_pos rfl, hp]
      simp [Runtime.hasEvent, Stack.new, Stack.size, Runtime.popAndProcess,
        Runtime.popEvent, Stack.pop, Runtime.call]
    refine ⟨_, hrun, rfl, ?_, ?_⟩
    · simp [Runtime.hasEvent, processEvent_queue sys hs, Stack.new, Stack.size]
    · simp [Runtime.bufferSize, processEvent_queue sys hs, Stack.new, Stack.size]

theorem sampleDecls_keepsBuffer : sampleDecls.KeepsBuffer := by
  refine ⟨fun _ => rfl, fun b r => ?_, fun _ _ => rfl, fun _ => rfl, fun _ => rfl, fun _ => rfl⟩
  cases b <;> rfl

theorem pause_indefinite_one_event_witness :
    (sampleRuntime [none, some (pushedWakeup [sampleEvent EventType.EVENT_TYPE_CHAR 65])]).pause
        sampleDecls sampleEnv (-1) 0 =
      Outcome.returned { sampleRuntime [] with
        trace := [Call.ALooper_pollAll (-1),
          Call.processEvent (sampleEvent EventType.EVENT_TYPE_CHAR 65),
          Call.handleEvent (sampleEvent EventType.EVENT_TYPE_CHAR 65)] } := by
  obtain ⟨r, h1, h2, -, -⟩ := (pause_indefinite_one_event sampleDecls sampleEnv
    sampleDecls_keepsBuffer
    (sampleRuntime [none, some (pushedWakeup [sampleEvent EventType.EVENT_TYPE_CHAR 65])])
    0).2.2.2 (sampleEvent EventType.EVENT_TYPE_CHAR 65) 1 [] rfl rfl rfl
  rw [h1, h2]
  rfl

/-! ### The break flag in the loop of `Runtime::pause` -/

/-- When the elapsed-time test of the loop of `pause` cannot succeed, the runtime the loop
returns is the one a poll of the loop has just left. -/
theorem pauseLoop_returns_after_poll (sys : SystemDecls) (env : ConstructEnv) (timeout : Int)
    (hexit : ∀ s : Int, ¬ (timeout > 0 ∧ wrapInt32 s > timeout))
    (fuel : Nat) (slept : Int) (rt r : Runtime)
    (h : Runtime.pauseLoop sys env timeout fuel slept rt = Outcome.returned r) :
    ∃ rt0 : Runtime, rt0.pollEvents sys env false = Outcome.returned r := by
  induction fuel generalizing slept rt with
  | zero => simp [Runtime.pauseLoop] at h
  | succ fuel ih =>
    unfold Runtime.pauseLoop at h
    cases hp : rt.pollEvents sys env false with
    | returned rt1 =>
      rw [hp] at h
      simp only at h
      by_cases hb : sys.isBreak rt1 = true
      · simp only [hb, if_true, Outcome.returned.injEq] at h
        exact ⟨rt, by rw [hp, h]⟩
      · simp only [hb, if_false] at h
        cases hq : (if rt1.hasEvent then rt1.popAndProcess sys else Outcome.returned rt1) with
        | returned rt2 =>
          rw [hq] at h
          simp only [hexit (slept + WAIT_INTERVAL), if_false] at h
          exact ih _ _ h
        | blocked => rw [hq] at h; simp at h
        | fault => rw [hq] at h; simp at h
        | outOfFuel => rw [hq] at h; simp at h
    | blocked => rw [hp] at h; simp at h
    | fault => rw [hp] at h; simp at h
    | outOfFuel => rw [hp] at h; simp at h

/-- C12: in the loop of `Runtime::pause` (any timeout other than -1), at every iteration,
whatever `slept` is: when the break flag is up in the runtime the poll has left, the loop
returns exactly that runtime, so no event is popped and no `usleep` is made after the poll, and
the timeout plays no part. For a negative timeout the elapsed-time exit is never taken: an
iteration at which the flag is down goes on to the next one after the sleep, and the wait
returns only a runtime in which the flag is up, the one a poll of the loop has just left. -/
theorem pause_break_flag (sys : SystemDecls) (env : ConstructEnv) (timeout : Int)
    (hne : timeout ≠ -1) :
    (∀ (fuel : Nat) (slept : Int) (rt rt1 : Runtime),
      rt.pollEvents sys env false = Outcome.returned rt1 → sys.isBreak rt1 = true →
      Runtime.pauseLoop sys env timeout (fuel + 1) slept rt = Outcome.returned rt1) ∧
    (∀ (fuel : Nat) (rt rt1 : Runtime),
      rt.pollEvents sys env false = Outcome.returned rt1 → sys.isBreak rt1 = true →
      rt.pause sys env timeout (fuel + 1) = Outcome.returned rt1) ∧
    (timeout < 0 →
      (∀ (fuel : Nat) (rt r : Runtime), rt.pause sys env timeout fuel = Outcome.returned r →
        sys.isBreak r = true ∧
          ∃ rt0 : Runtime, rt0.pollEvents sys env false = Outcome.returned r) ∧
      (∀ (fuel : Nat) (slept : Int) (rt rt1 rt2 : Runtime),
        rt.pollEvents sys env false = Outcome.returned rt1 → sys.isBreak rt1 = false →
        (if rt1.hasEvent then rt1.popAndProcess sys else Outcome.returned rt1) =
          Outcome.returned rt2 →
        Runtime.pauseLoop sys env timeout (fuel + 1) slept rt =
          Runtime.pauseLoop sys env timeout fuel (wrapInt32 (slept + WAIT_INTERVAL))
            (rt2.call (Call.usleep (WAIT_INTERVAL * 1000))))) := by
  refine ⟨?_, ?_, ?_⟩
  · intro fuel slept rt rt1 hp hb
    simp [Runtime.pauseLoop, hp, hb]
  · intro fuel rt rt1 hp hb
    simp [Runtime.pause, hne, Runtime.pauseLoop, hp, hb]
  · intro hneg
    have hexit : ∀ s : Int, ¬ (timeout > 0 ∧ wrapInt32 s > timeout) :=
      fun s hs => absurd hs.1 (by omega)
    refine ⟨?_, ?_⟩
    · intro fuel rt r h
      simp only [Runtime.pause, hne, if_false] at h
      exact ⟨pauseLoop_returns_on_break sys env timeout hexit fuel 0 rt r h,
        pauseLoop_returns_after_poll sys env timeout hexit fuel 0 rt r h⟩
    · intro fuel slept rt rt1 rt2 hp hb hq
      rw [Runtime.pauseLoop, hp]
      simp only [hb, Bool.false_eq_true, if_false]
      rw [hq]
      simp only [hexit (slept + WAIT_INTERVAL), if_false]

theorem pause_break_flag_witness :
    Runtime.pause closingBreaks sampleEnv (-5) 1
        { sampleRuntime [] with _state := State.kClosingState } =
      Outcome.returned { sampleRuntime [] with _state := State.kClosingState,
                                               trace := [Call.ALooper_pollAll 0] } ∧
    Runtime.pauseLoop sampleDecls sampleEnv (-5) 3 0 (sampleRuntime []) =
      Runtime.pauseLoop sampleDecls sampleEnv (-5) 2 10 ((sampleRuntime []).afterIdle 1) ∧
    ∀ (fuel : Nat) (r : Runtime),
      (sampleRuntime []).pause sampleDecls sampleEnv (-5) fuel ≠ Outcome.returned r := by
  have h := pause_break_flag closingBreaks sampleEnv (-5) (by decide)
  have h2 := pause_break_flag sampleDecls sampleEnv (-5) (by decide)
  refine ⟨?_, ?_, ?_⟩
  · exact h.2.1 0 { sampleRuntime [] with _state := State.kClosingState }
      { sampleRuntime [] with _state := State.kClosingState,
                              trace := [Call.ALooper_pollAll 0] } (by decide) (by decide)
  · exact (h2.2.2 (by decide)).2 2 0 (sampleRuntime [])
      { sampleRuntime [] with trace := [Call.ALooper_pollAll 0] }
      { sampleRuntime [] with trace := [Call.ALooper_pollAll 0] } (by decide) rfl (by decide)
  · intro fuel r hr
    have hb := ((h2.2.2 (by decide)).1 fuel (sampleRuntime []) r hr).1
    simp [sampleDecls] at hb

/-! ### Focus and the polling mode -/

theorem ALooper_pollAll_quiet (host : List (Option Wakeup)) (h : ∀ w ∈ host, w = none) :
    ALooper_pollAll (-1) host = none := by
  induction host with
  | nil => simp [ALooper_pollAll]
  | cons w host ih =>
    have hw : w = none := h w (List.mem_cons_self _ _)
    subst hw
    simpa [ALooper_pollAll] using ih (fun w hw => h w (List.mem_cons_of_mem _ hw))

/-- A poll with the infinite timeout that ends with a wake-up carrying nothing. -/
theorem pollEvents_wait (sys : SystemDecls) (env : ConstructEnv) (blocking : Bool)
    (rt : Runtime) (n : Nat) (rest : List (Option Wakeup))
    (hb : blocking = true ∨ rt._hasFocus = false) (hd : rt.destroyRequested = false)
    (hh : rt.host = List.replicate n none ++ some (pushedWakeup []) :: rest) :
    rt.pollEvents sys env blocking =
      Outcome.returned { rt with host := rest,
                                 trace := rt.trace ++ [Call.ALooper_pollAll (-1)] } := by
  obtain ⟨st, kp, hf, g, o, q0, sm, dr, host, tr⟩ := rt
  simp only at hb hd hh
  subst hd hh
  have ht : (blocking || !hf) = true := by
    rcases hb with hb | hb <;> simp [hb]
  simp only [Runtime.pollEvents, ht, if_true, Runtime.call, ALooper_pollAll_blocking,
    pushedWakeup, Runtime.pushEvents, Option.some_bind, processSource]
  simp

/-- C21: `handleCommand(APP_CMD_LOST_FOCUS)` changes the focus flag and nothing else, the run
state included; `handleCommand(APP_CMD_GAINED_FOCUS)` sets the flag and calls `redraw()`, which
leaves the run state alone as long as `redraw` (outside the translated files) does. In
`Runtime::pollEvents` the timeout handed to `ALooper_pollAll` is -1 when blocking was asked for
or the runtime has no focus: the poll is parked while nothing is pending and returns at the
first wake-up, recorded as a poll with -1; with focus and no blocking asked for the timeout is
0: the poll returns at once when nothing is pending, recorded as a poll with 0. -/
theorem focus_gates_polling (sys : SystemDecls) (env : ConstructEnv) (rt : Runtime) :
    handleCommand sys env APP_CMD_LOST_FOCUS rt = { rt with _hasFocus := false } ∧
    handleCommand sys env APP_CMD_GAINED_FOCUS rt =
      sys.redraw ({ rt with _hasFocus := true }.call Call.redraw) ∧
    ((∀ r : Runtime, (sys.redraw r)._state = r._state ∧ (sys.redraw r)._hasFocus = r._hasFocus) →
      (handleCommand sys env APP_CMD_GAINED_FOCUS rt)._state = rt._state ∧
      (handleCommand sys env APP_CMD_GAINED_FOCUS rt)._hasFocus = true) ∧
    (∀ blocking : Bool, blocking = true ∨ rt._hasFocus = false →
      ((∀ w ∈ rt.host, w = none) → rt.pollEvents sys env blocking = Outcome.blocked) ∧
      (∀ (n : Nat) (rest : List (Option Wakeup)), rt.destroyRequested = false →
        rt.host = List.replicate n none ++ some (pushedWakeup []) :: rest →
        rt.pollEvents sys env blocking =
          Outcome.returned { rt with host := rest,
                                     trace := rt.trace ++ [Call.ALooper_pollAll (-1)] })) ∧
    (rt._hasFocus = true → (∀ w ∈ rt.host, w = none) → rt.destroyRequested = false →
      rt.pollEvents sys env false =
        Outcome.returned { rt with host := rt.host.drop 1,
                                   trace := rt.trace ++ [Call.ALooper_pollAll 0] }) := by
  refine ⟨?_, ?_, ?_, ?_, ?_⟩
  · simp [handleCommand, APP_CMD_LOST_FOCUS, APP_CMD_INIT_WINDOW, APP_CMD_GAINED_FOCUS,
      Runtime.setFocus]
  · simp [handleCommand, APP_CMD_INIT_WINDOW, APP_CMD_GAINED_FOCUS, Runtime.setFocus]
  · intro hr
    simp [handleCommand, APP_CMD_INIT_WINDOW, APP_CMD_GAINED_FOCUS, Runtime.setFocus, hr,
      Runtime.call]
  · intro blocking hb
    refine ⟨?_, ?_⟩
    · intro hq
      have ht : (blocking || !rt._hasFocus) = true := by
        rcases hb with hb | hb <;> simp [hb]
      simp [Runtime.pollEvents, ht, Runtime.call, ALooper_pollAll_quiet rt.host hq]
    · intro n rest hd hh
      exact pollEvents_wait sys env blocking rt n rest hb hd hh
  · intro hf hq hd
    exact pollEvents_quiet sys env rt hf hq hd

theorem focus_gates_polling_witness :
    (handleCommand sampleDecls sampleEnv APP_CMD_LOST_FOCUS (sampleRuntime []))._state =
        State.kActiveState ∧
      (handleCommand sampleDecls sampleEnv APP_CMD_LOST_FOCUS (sampleRuntime [])).pollEvents
        sampleDecls sampleEnv false = Outcome.blocked ∧
      (sampleRuntime []).pollEvents sampleDecls sampleEnv false =
        Outcome.returned { sampleRuntime [] with trace := [Call.ALooper_pollAll 0] } := by
  have h := focus_gates_polling sampleDecls sampleEnv (sampleRuntime [])
  have h2 := focus_gates_polling sampleDecls sampleEnv
    (handleCommand sampleDecls sampleEnv APP_CMD_LOST_FOCUS (sampleRuntime []))
  refine ⟨?_, ?_, ?_⟩
  · rw [h.1]
    rfl
  · exact (h2.2.2.2.1 false (Or.inr (by rw [h.1]))).1 (by rw [h.1]; intro w hw; cases hw)
  · exact h.2.2.2.2 rfl (sampleRuntime_quiet 0) rfl

/-! ### `Runtime::saveConfig` -/

theorem strstr_iff (h n : List Char) : strstr h n = true ↔ List.IsInfix n h := by
  induction h with
  | nil => cases n <;> simp [strstr]
  | cons c rest ih =>
    rw [strstr, Bool.or_eq_true, ih, List.infix_cons_iff, List.isPrefixOf_iff_prefix]

theorem envKey_isPrefix (env : List Char) : List.IsPrefix (envKey env) env :=
  List.takeWhile_prefix _

/-- C22 (as amended): when the settings file opens, `Runtime::saveConfig` writes the `path`,
`fontScale2`, `muteAudio` and `optIde` lines and then, in the order of `environ`, each entry
verbatim followed by a newline if and only if the text of the entry (key, `=` and value
together) contains `serverSocket`, `serverToken` or `fontId` as a run of consecutive characters.
In particular every entry whose key is one of the three is written, and an entry in which none
of the three occurs is not. -/
theorem saveConfig_passthrough (e : ConfigEnv) (h : e.fileOpened = true) :
    saveConfig e =
      some ([PATH_KEY ++ "='".toList ++ e.cwd ++ "'\n".toList,
          FONT_SCALE_KEY ++ "=".toList ++ formatInt e._fontScale ++ "\n".toList,
          MUTE_AUDIO_KEY ++ "=".toList ++ formatInt e.opt_mute_audio ++ "\n".toList,
          OPT_IDE_KEY ++ "=".toList ++ formatInt e.opt_ide ++ "\n".toList] ++
        (e.environ.filter passesThrough).map (fun env => env ++ "\n".toList)) ∧
    (∀ env : List Char,
      env ++ "\n".toList ∈
          (e.environ.filter passesThrough).map (fun env => env ++ "\n".toList) ↔
        env ∈ e.environ ∧ (List.IsInfix SERVER_SOCKET_KEY env ∨
          List.IsInfix SERVER_TOKEN_KEY env ∨ List.IsInfix FONT_ID_KEY env)) ∧
    (∀ env : List Char, envKey env ∈ passthroughKeys → passesThrough env = true) := by
  have hpass : ∀ env : List Char, passesThrough env = true ↔
      List.IsInfix SERVER_SOCKET_KEY env ∨ List.IsInfix SERVER_TOKEN_KEY env ∨
        List.IsInfix FONT_ID_KEY env := by
    intro env
    simp only [passesThrough, Bool.or_eq_true, strstr_iff, or_assoc]
  refine ⟨by simp only [saveConfig, h, if_true], ?_, ?_⟩
  · intro env
    simp only [List.mem_map, List.mem_filter, ← hpass]
    constructor
    · rintro ⟨a, ha, hEq⟩
      have : a = env := List.append_cancel_right hEq
      subst this
      exact ha
    · intro ha
      exact ⟨env, ha, rfl⟩
  · intro env hk
    rw [hpass]
    have hp := envKey_isPrefix env
    simp only [passthroughKeys, List.mem_cons, List.mem_singleton, List.not_mem_nil,
      or_false] at hk
    rcases hk with hk | hk | hk
    · exact Or.inl (hk ▸ hp.isInfix)
    · exact Or.inr (Or.inl (hk ▸ hp.isInfix))
    · exact Or.inr (Or.inr (hk ▸ hp.isInfix))

theorem saveConfig_passthrough_witness :
    saveConfig sampleConfigEnv =
      some ["path='/sdcard'\n".toList, "fontScale2=100\n".toList, "muteAudio=0\n".toList,
        "optIde=1\n".toList, "HOME=/data/fontId\n".toList, "serverSocket=8080\n".toList,
        "fontId=2\n".toList] :=
  (saveConfig_passthrough sampleConfigEnv rfl).1.trans (by decide)

/-- C22, as stated, fails: the entry `HOME=/data/fontId`, whose key `HOME` is none of the
passthrough keys, is written to the settings file, because the name `fontId` occurs in its
value. -/
theorem saveConfig_counterexample :
    envKey "HOME=/data/fontId".toList = "HOME".toList ∧
      envKey "HOME=/data/fontId".toList ∉ passthroughKeys ∧
      "HOME=/data/fontId".toList ∈ sampleConfigEnv.environ ∧
      (saveConfig sampleConfigEnv).map
        (fun written => decide ("HOME=/data/fontId\n".toList ∈ written)) = some true := by
  refine ⟨by decide, by decide, by decide, by decide⟩

/-! ### Module procedures -/

theorem enableSensor_fst (m : SensorManager) (sensorType : Int) (s : Sensors) :
    (s.enableSensor m sensorType).1 = (m.defaultSensor sensorType).isSome := by
  unfold Sensors.enableSensor
  simp only
  cases m.defaultSensor sensorType <;> rfl

/-- The two shapes of the result of `sensor_on`, given what `enableSensor` answered. -/
theorem sensor_on_of_enabled (retval : var_t) (r : Bool × Sensors) :
    (match some r with
      | none => none
      | some (result, s1) =>
        if !result then some ((0 : Int), v_setstr retval "sensor not active".toList, s1)
        else some (1, retval, s1)) =
      if r.1 then some (1, retval, r.2)
      else some (0, v_setstr retval "sensor not active".toList, r.2) := by
  obtain ⟨b, s1⟩ := r
  cases b <;> rfl

/-- The result of `sensor_on` for a sensor id of the `switch`. -/
theorem sensor_on_enable (d : ModuleDecls) (m : SensorManager) (params : List var_t)
    (retval : var_t) (s : Sensors) (p : var_t) (hp : params.head? = some p) :
    sensor_on d m 1 params retval s =
      if d.v_getint p = 0 then
        (if (m.defaultSensor ASENSOR_TYPE_ACCELEROMETER).isSome then
          some (1, retval, (s.enableSensor m ASENSOR_TYPE_ACCELEROMETER).2)
        else some (0, v_setstr retval "sensor not active".toList,
          (s.enableSensor m ASENSOR_TYPE_ACCELEROMETER).2))
      else if d.v_getint p = 1 then
        (if (m.defaultSensor ASENSOR_TYPE_MAGNETIC_FIELD).isSome then
          some (1, retval, (s.enableSensor m ASENSOR_TYPE_MAGNETIC_FIELD).2)
        else some (0, v_setstr retval "sensor not active".toList,
          (s.enableSensor m ASENSOR_TYPE_MAGNETIC_FIELD).2))
      else if d.v_getint p = 2 then
        (if (m.defaultSensor ASENSOR_TYPE_GYROSCOPE).isSome then
          some (1, retval, (s.enableSensor m ASENSOR_TYPE_GYROSCOPE).2)
        else some (0, v_setstr retval "sensor not active".toList,
          (s.enableSensor m ASENSOR_TYPE_GYROSCOPE).2))
      else if d.v_getint p = 3 then
        (if (m.defaultSensor ASENSOR_TYPE_LIGHT).isSome then
          some (1, retval, (s.enableSensor m ASENSOR_TYPE_LIGHT).2)
        else some (0, v_setstr retval "sensor not active".toList,
          (s.enableSensor m ASENSOR_TYPE_LIGHT).2))
      else if d.v_getint p = 4 then
        (if (m.defaultSensor ASENSOR_TYPE_PROXIMITY).isSome then
          some (1, retval, (s.enableSensor m ASENSOR_TYPE_PROXIMITY).2)
        else some (0, v_setstr retval "sensor not active".toList,
          (s.enableSensor m ASENSOR_TYPE_PROXIMITY).2))
      else some (0, v_setstr retval "sensor not active".toList, s) := by
  unfold sensor_on
  simp only [if_true, hp]
  split_ifs <;> simp_all [sensor_on_of_enabled, enableSensor_fst]

/-- C23: for a well-formed call (the parameter array is not empty when `param_count` is 1),
each of `tts_speak`, `tts_lang`, `tts_pitch`, `tts_speech_rate` returns 1 with the return slot
untouched when `param_count` is 1 and the argument has the right type (string for `tts_speak`
and `tts_lang`, number or integer for the other two), and otherwise returns 0 with `ERR_PARAM`
stored in the return slot and nothing else done; `sensor_on` returns either 1 with the return
slot untouched or 0 with "sensor not active" stored in it, and it returns 1 exactly when
`param_count` is 1, the sensor id is one of 0..4 and the device has a default sensor of the
corresponding type. -/
theorem module_procedures_success_or_error (d : ModuleDecls) (m : SensorManager)
    (param_count : Int) (params : List var_t) (retval : var_t) (s : Sensors)
    (hparams : param_count = 1 → params ≠ []) :
    ((param_count = 1 ∧ ∃ p, params.head? = some p ∧ p.type = VarType.V_STR) →
      ∃ s1, tts_speak d param_count params retval s = some (1, retval, s1)) ∧
    (¬ (param_count = 1 ∧ ∃ p, params.head? = some p ∧ p.type = VarType.V_STR) →
      tts_speak d param_count params retval s =
        some (0, v_setstr retval d.ERR_PARAM, s)) ∧
    ((param_count = 1 ∧ ∃ p, params.head? = some p ∧ p.type = VarType.V_STR) →
      ∃ s1, tts_lang d param_count params retval s = some (1, retval, s1)) ∧
    (¬ (param_count = 1 ∧ ∃ p, params.head? = some p ∧ p.type = VarType.V_STR) →
      tts_lang d param_count params retval s = some (0, v_setstr retval d.ERR_PARAM, s)) ∧
    ((param_count = 1 ∧ ∃ p, params.head? = some p ∧
        (p.type = VarType.V_NUM ∨ p.type = VarType.V_INT)) →
      ∃ s1, tts_pitch d param_count params retval s = some (1, retval, s1)) ∧
    (¬ (param_count = 1 ∧ ∃ p, params.head? = some p ∧
        (p.type = VarType.V_NUM ∨ p.type = VarType.V_INT)) →
      tts_pitch d param_count params retval s = some (0, v_setstr retval d.ERR_PARAM, s)) ∧
    ((param_count = 1 ∧ ∃ p, params.head? = some p ∧
        (p.type = VarType.V_NUM ∨ p.type = VarType.V_INT)) →
      ∃ s1, tts_speech_rate d param_count params retval s = some (1, retval, s1)) ∧
    (¬ (param_count = 1 ∧ ∃ p, params.head? = some p ∧
        (p.type = VarType.V_NUM ∨ p.type = VarType.V_INT)) →
      tts_speech_rate d param_count params retval s =
        some (0, v_setstr retval d.ERR_PARAM, s)) ∧
    (∃ result r1 s1, sensor_on d m param_count params retval s = some (result, r1, s1) ∧
      ((result = 1 ∧ r1 = retval) ∨
        (result = 0 ∧ r1 = v_setstr retval "sensor not active".toList)) ∧
      (result = 1 ↔ param_count = 1 ∧ ∃ p, params.head? = some p ∧
        ((d.v_getint p = 0 ∧ (m.defaultSensor ASENSOR_TYPE_ACCELEROMETER).isSome = true) ∨
          (d.v_getint p = 1 ∧ (m.defaultSensor ASENSOR_TYPE_MAGNETIC_FIELD).isSome = true) ∨
          (d.v_getint p = 2 ∧ (m.defaultSensor ASENSOR_TYPE_GYROSCOPE).isSome = true) ∨
          (d.v_getint p = 3 ∧ (m.defaultSensor ASENSOR_TYPE_LIGHT).isSome = true) ∨
          (d.v_getint p = 4 ∧ (m.defaultSensor ASENSOR_TYPE_PROXIMITY).isSome = true)))) := by
  by_cases hc : param_count = 1
  · subst hc
    obtain ⟨p, rest, rfl⟩ : ∃ p rest, params = p :: rest := by
      cases params with
      | nil => exact absurd rfl (hparams rfl)
      | cons p rest => exact ⟨p, rest, rfl⟩
    refine ⟨?_, ?_, ?_, ?_, ?_, ?_, ?_, ?_, ?_⟩
    · rintro ⟨-, q, hq, ht⟩
      simp only [List.head?_cons, Option.some.injEq] at hq
      subst hq
      exact ⟨s.call (ModuleCall.speak (d.v_getstr p)), by simp [tts_speak, v_is_type, ht]⟩
    · intro hn
      have ht : p.type ≠ VarType.V_STR := fun ht => hn ⟨rfl, p, rfl, ht⟩
      simp [tts_speak, v_is_type, ht]
    · rintro ⟨-, q, hq, ht⟩
      simp only [List.head?_cons, Option.some.injEq] at hq
      subst hq
      exact ⟨s.call (ModuleCall.setString "setTtsLocale".toList (d.v_getstr p)), by
        simp [tts_lang, v_is_type, ht]⟩
    · intro hn
      have ht : p.type ≠ VarType.V_STR := fun ht => hn ⟨rfl, p, rfl, ht⟩
      simp [tts_lang, v_is_type, ht]
    · rintro ⟨-, q, hq, ht⟩
      simp only [List.head?_cons, Option.some.injEq] at hq
      subst hq
      exact ⟨s.call (ModuleCall.setFloat "setTtsPitch".toList p), by
        simp [tts_pitch, v_is_type, ht]⟩
    · intro hn
      have ht : ¬ (p.type = VarType.V_NUM ∨ p.type = VarType.V_INT) :=
        fun ht => hn ⟨rfl, p, rfl, ht⟩
      simp [tts_pitch, v_is_type, ht]
    · rintro ⟨-, q, hq, ht⟩
      simp only [List.head?_cons, Option.some.injEq] at hq
      subst hq
      exact ⟨s.call (ModuleCall.setFloat "setTtsRate".toList p), by
        simp [tts_speech_rate, v_is_type, ht]⟩
    · intro hn
      have ht : ¬ (p.type = VarType.V_NUM ∨ p.type = VarType.V_INT) :=
        fun ht => hn ⟨rfl, p, rfl, ht⟩
      simp [tts_speech_rate, v_is_type, ht]
    · rw [sensor_on_enable d m (p :: rest) retval s p rfl]
      simp only [List.head?_cons, Option.some.injEq, true_and, exists_eq_left']
      split_ifs with h0 ha h1 hb h2 hg h3 hl h4 hx <;>
        exact ⟨_, _, _, rfl, by simp, by simp_all⟩
  · refine ⟨fun h => absurd h.1 hc, ?_, fun h => absurd h.1 hc, ?_, fun h => absurd h.1 hc, ?_,
      fun h => absurd h.1 hc, ?_, ?_⟩
    · intro _
      simp [tts_speak, hc]
    · intro _
      simp [tts_lang, hc]
    · intro _
      simp [tts_pitch, hc]
    · intro _
      simp [tts_speech_rate, hc]
    · exact ⟨0, _, s, by simp [sensor_on, hc], Or.inr ⟨rfl, rfl⟩, by simp [hc]⟩

theorem module_procedures_success_or_error_witness :
    tts_speak sampleModuleDecls 1 [strVar "hello".toList] (intVar 7) Sensors.new =
        some (1, intVar 7, Sensors.new.call (ModuleCall.speak "hello".toList)) ∧
      tts_speak sampleModuleDecls 1 [intVar 3] (intVar 7) Sensors.new =
        some (0, strVar "Invalid parameter".toList, Sensors.new) ∧
      tts_pitch sampleModuleDecls 2 [intVar 3, intVar 4] (intVar 7) Sensors.new =
        some (0, strVar "Invalid parameter".toList, Sensors.new) ∧
      (sensor_on sampleModuleDecls sampleSensorManager 1 [intVar 3] (intVar 7) Sensors.new).map
        (fun r => (r.1, r.2.1)) = some (1, intVar 7) ∧
      (sensor_on sampleModuleDecls sampleSensorManager 1 [intVar 2] (intVar 7) Sensors.new).map
        (fun r => (r.1, r.2.1)) = some (0, strVar "sensor not active".toList) ∧
      (sensor_on sampleModuleDecls sampleSensorManager 1 [intVar 5] (intVar 7) Sensors.new).map
        (fun r => (r.1, r.2.1)) = some (0, strVar "sensor not active".toList) := by
  have h1 := module_procedures_success_or_error sampleModuleDecls sampleSensorManager 1
    [strVar "hello".toList] (intVar 7) Sensors.new (fun _ => by decide)
  have h2 := module_procedures_success_or_error sampleModuleDecls sampleSensorManager 1
    [intVar 3] (intVar 7) Sensors.new (fun _ => by decide)
  have h3 := module_procedures_success_or_error sampleModuleDecls sampleSensorManager 2
    [intVar 3, intVar 4] (intVar 7) Sensors.new (fun _ => by decide)
  refine ⟨?_, ?_, ?_, by decide, by decide, by decide⟩
  · obtain ⟨s1, hs⟩ := h1.1 ⟨rfl, _, rfl, rfl⟩
    rw [hs]
    exact hs.symm.trans (by decide)
  · exact h2.2.1 (by decide)
  · exact h3.2.2.2.2.2.1 (by decide)

/-! ### The tables `lib_procs` and `lib_funcs` -/

/-- C24, evaluated on the code: `sblib_proc_count()` is 9 and `sblib_func_count()` is 2; for
`0 ≤ index` the three functions behave as the claim says (the entry at `index` when
`index < count`, the value 0 with nothing touched from `count` on); for a negative index the
test `index < sblib_proc_count()` succeeds as well, and the functions read `lib_procs[index]`,
respectively `lib_funcs[index]`, in front of the table. -/
theorem sblib_negative_index :
    sblib_proc_count = 9 ∧ sblib_func_count = 2 ∧
    lib_procs.map (fun entry => entry.name) =
      ["GPS_ON".toList, "GPS_OFF".toList, "SENSOR_ON".toList, "SENSOR_OFF".toList,
        "TTS_PITCH".toList, "TTS_RATE".toList, "TTS_LANG".toList, "TTS_OFF".toList,
        "SPEAK".toList] ∧
    (∀ (index : Int) (buf : List Char), 0 ≤ index → index < 9 →
      ∃ entry, lib_procs.get? index.toNat = some entry ∧
        sblib_proc_getname index buf = some (1, entry.name) ∧
        ∀ (d : ModuleDecls) (m : SensorManager) (n : Int) (ps : List var_t) (rv : var_t)
          (s : Sensors), sblib_proc_exec d m index n ps rv s = entry.command d m n ps rv s) ∧
    (∀ (index : Int) (buf : List Char), 9 ≤ index →
      sblib_proc_getname index buf = some (0, buf) ∧
        ∀ (d : ModuleDecls) (m : SensorManager) (n : Int) (ps : List var_t) (rv : var_t)
          (s : Sensors), sblib_proc_exec d m index n ps rv s = some (0, rv, s)) ∧
    (∀ (index : Int) (buf : List Char), 0 ≤ index → index < 2 →
      ∃ name, lib_funcs.get? index.toNat = some name ∧
        sblib_func_getname index buf = some (1, name)) ∧
    (∀ (index : Int) (buf : List Char), 2 ≤ index →
      sblib_func_getname index buf = some (0, buf)) ∧
    (∀ (index : Int) (buf : List Char), index < 0 →
      sblib_proc_getname index buf = none ∧ sblib_func_getname index buf = none ∧
        ∀ (d : ModuleDecls) (m : SensorManager) (n : Int) (ps : List var_t) (rv : var_t)
          (s : Sensors), sblib_proc_exec d m index n ps rv s = none) ∧
    sblib_proc_getname (-1) [] = none := by
  have hc : sblib_proc_count = 9 := by decide
  have hf : sblib_func_count = 2 := by decide
  refine ⟨hc, hf, by decide, ?_, ?_, ?_, ?_, ?_, by decide⟩
  · intro index buf h0 h9
    obtain ⟨k, rfl⟩ : ∃ k : Nat, index = (k : Int) := ⟨index.toNat, by omega⟩
    have hk : k < 9 := by omega
    have hlen : k < lib_procs.length := by simpa [lib_procs] using hk
    have hnn : ¬ ((k : Int) < 0) := by omega
    refine ⟨lib_procs.get ⟨k, hlen⟩, by simp [List.get?_eq_get hlen], ?_, ?_⟩
    · simp [sblib_proc_getname, hc, h9, arrayAt, hnn, List.getElem?_eq_getElem hlen]
    · intro d m n ps rv s
      simp [sblib_proc_exec, hc, h9, arrayAt, hnn, List.getElem?_eq_getElem hlen]
  · intro index buf h9
    have hn : ¬ index < 9 := by omega
    refine ⟨by simp [sblib_proc_getname, hc, hn], ?_⟩
    intro d m n ps rv s
    simp [sblib_proc_exec, hc, hn]
  · intro index buf h0 h2
    obtain ⟨k, rfl⟩ : ∃ k : Nat, index = (k : Int) := ⟨index.toNat, by omega⟩
    have hk : k < 2 := by omega
    have hlen : k < lib_funcs.length := by simpa [lib_funcs] using hk
    have hnn : ¬ ((k : Int) < 0) := by omega
    refine ⟨lib_funcs.get ⟨k, hlen⟩, by simp [List.get?_eq_get hlen], ?_⟩
    simp [sblib_func_getname, hf, h2, arrayAt, hnn, List.getElem?_eq_getElem hlen]
  · intro index buf h2
    have hn : ¬ index < 2 := by omega
    simp [sblib_func_getname, hf, hn]
  · intro index buf hneg
    have h9 : index < 9 := by omega
    have h2 : index < 2 := by omega
    refine ⟨by simp [sblib_proc_getname, hc, h9, arrayAt, hneg],
      by simp [sblib_func_getname, hf, h2, arrayAt, hneg], ?_⟩
    intro d m n ps rv s
    simp [sblib_proc_exec, hc, h9, arrayAt, hneg]

end Android

namespace MoSync

open SmallBASIC

/-! ### Frame of the event handling -/

theorem Frame.refl (c : Controller) : c.Frame c :=
  ⟨Or.inl rfl, rfl, rfl, le_refl _⟩

theorem Frame.trans {a b c : Controller} (h1 : a.Frame b) (h2 : b.Frame c) : a.Frame c := by
  obtain ⟨m1, t1, f1, l1⟩ := h1
  obtain ⟨m2, t2, f2, l2⟩ := h2
  refine ⟨?_, t2.trans t1, f2.trans f1, le_trans l2 l1⟩
  rcases m2 with m2 | m2
  · rw [m2]
    exact m1
  · exact Or.inr m2

theorem Frame.call (c : Controller) (x : Call) (hx : connCalls [x] = []) :
    c.Frame (c.call x) := by
  refine ⟨Or.inl rfl, ?_, rfl, le_refl _⟩
  simp only [Controller.call, connCalls, List.filter_append] at hx ⊢
  rw [hx, List.append_nil]

theorem Frame.exit (c : Controller) : c.Frame { c with runMode := ExecState.exit_state } :=
  ⟨Or.inr rfl, rfl, rfl, le_refl _⟩

theorem Frame.clock (c : Controller) : c.Frame c.maGetMilliSecondCount.2 := by
  obtain ⟨rm, le, ept, px, py, pt, lp, ow, oh, ev, clock, now, sw, sh, rb, tr⟩ := c
  cases clock with
  | nil => exact Frame.refl _
  | cons t rest =>
    exact ⟨Or.inl rfl, rfl, rfl, by simp [Controller.maGetMilliSecondCount]⟩

theorem Frame.handleKey (d : Decls) (key : Int) (c : Controller) :
    c.Frame (c.handleKey d key) := by
  have h1 : c.Frame (c.handleKeyExit d key) := by
    unfold Controller.handleKeyExit
    split_ifs
    · exact Frame.refl c
    · exact Frame.exit c
    · exact Frame.refl c
  unfold Controller.handleKey
  split_ifs
  · exact Frame.trans h1 (Frame.call _ _ rfl)
  · exact h1

theorem Frame.of_eq (c c1 : Controller) (hm : c1.runMode = c.runMode)
    (ht : c1.trace = c.trace) (hc : c1.clock = c.clock) (hn : c1.now = c.now) : c.Frame c1 := by
  refine ⟨Or.inl hm, by rw [ht], ?_, by rw [hc]⟩
  simp [Controller.finalTime, hc, hn]

theorem Frame.dispatch (d : Decls) (event : MAEvent) (c : Controller) :
    c.Frame (c.dispatch d event) := by
  unfold Controller.dispatch
  split
  · exact Frame.trans (Frame.of_eq c _ rfl rfl rfl rfl) (Frame.handleKey d _ _)
  · exact Frame.trans (Frame.clock c)
      (Frame.trans (Frame.of_eq _ _ rfl rfl rfl rfl) (Frame.handleKey d _ _))
  · exact Frame.refl c
  · split_ifs
    · exact Frame.trans (Frame.of_eq c _ rfl rfl rfl rfl) (Frame.handleKey d _ _)
    · exact Frame.refl c
  · exact Frame.exit c
  · exact Frame.handleKey d _ c
  · exact Frame.refl c

theorem Frame.takeEvent (d : Decls) (h : HostEvent) (c : Controller) :
    c.Frame (c.takeEvent d h) := by
  unfold Controller.takeEvent
  refine Frame.trans ?_ (Frame.dispatch d _ _)
  split_ifs
  · exact Frame.trans (Frame.of_eq c _ rfl rfl rfl rfl) (Frame.call _ _ rfl)
  · exact Frame.of_eq c _ rfl rfl rfl rfl

theorem Frame.eventLoop (d : Decls) (untilType : Option EventType)
    (events : List (Option HostEvent)) (event : MAEvent) (c : Controller) :
    c.Frame (Controller.eventLoop d untilType events event c).2.1 := by
  induction events generalizing event c with
  | nil => exact Frame.refl c
  | cons item rest ih =>
    cases item with
    | none =>
      simp only [Controller.eventLoop]
      split_ifs <;> exact Frame.refl c
    | some h =>
      simp only [Controller.eventLoop]
      split_ifs
      · exact Frame.refl c
      · exact Frame.takeEvent d h c
      · exact Frame.trans (Frame.takeEvent d h c) (ih _ _)

theorem Frame.longPress (c : Controller) : c.Frame c.longPress := by
  unfold Controller.longPress
  split_ifs
  · exact Frame.trans (Frame.clock c) (Frame.of_eq _ _ rfl rfl rfl rfl)
  · exact Frame.clock c
  · exact Frame.refl c

theorem Frame.afterLoop (ms : Int) (c : Controller) : c.Frame (c.afterLoop ms) := by
  unfold Controller.afterLoop
  split_ifs
  · exact Frame.trans (Frame.call c Call.ui_reset rfl) (Frame.call _ Call.brun_break rfl)
  · exact Frame.trans (Frame.call c Call.runIdleListeners rfl) (Frame.call _ (Call.maWait ms) rfl)
  · exact Frame.call c Call.runIdleListeners rfl

theorem Frame.processEvents (d : Decls) (ms : Int) (untilType : Option EventType)
    (c : Controller) : c.Frame (c.processEvents d ms untilType).2 := by
  unfold Controller.processEvents
  exact Frame.trans (Frame.longPress c)
    (Frame.trans (Frame.eventLoop d untilType _ d.uninit _)
      (Frame.trans (Frame.of_eq _ _ rfl rfl rfl rfl) (Frame.afterLoop ms _)))

theorem Frame.exit_stays {c c1 : Controller} (h : c.Frame c1)
    (he : c.runMode = ExecState.exit_state) : c1.runMode = ExecState.exit_state := by
  rcases h.1 with h1 | h1
  · rw [h1, he]
  · exact h1

theorem eventLoop_of_exit (d : Decls) (untilType : Option EventType)
    (events : List (Option HostEvent)) (event : MAEvent) (c : Controller)
    (he : c.runMode = ExecState.exit_state) :
    Controller.eventLoop d untilType events event c = (event, c, events) := by
  cases events with
  | nil => rfl
  | cons item rest =>
    cases item with
    | none => simp [Controller.eventLoop, Controller.isExit, he]
    | some h => simp [Controller.eventLoop, Controller.isExit, he]

theorem longPress_events (c : Controller) : c.longPress.events = c.events := by
  obtain ⟨rm, le, ept, px, py, pt, lp, ow, oh, ev, clock, now, sw, sh, rb, tr⟩ := c
  unfold Controller.longPress
  cases clock <;> simp only [Controller.maGetMilliSecondCount] <;> split_ifs <;> rfl

theorem longPress_trace (c : Controller) : c.longPress.trace = c.trace := by
  obtain ⟨rm, le, ept, px, py, pt, lp, ow, oh, ev, clock, now, sw, sh, rb, tr⟩ := c
  unfold Controller.longPress
  cases clock <;> simp only [Controller.maGetMilliSecondCount] <;> split_ifs <;> rfl

theorem longPress_runMode (c : Controller) : c.longPress.runMode = c.runMode := by
  obtain ⟨rm, le, ept, px, py, pt, lp, ow, oh, ev, clock, now, sw, sh, rb, tr⟩ := c
  unfold Controller.longPress
  cases clock <;> simp only [Controller.maGetMilliSecondCount] <;> split_ifs <;> rfl

theorem longPress_readBuffer (c : Controller) : c.longPress.readBuffer = c.readBuffer := by
  obtain ⟨rm, le, ept, px, py, pt, lp, ow, oh, ev, clock, now, sw, sh, rb, tr⟩ := c
  unfold Controller.longPress
  cases clock <;> simp only [Controller.maGetMilliSecondCount] <;> split_ifs <;> rfl

theorem takeEvent_conn_runMode (d : Decls) (c : Controller) (h : HostEvent)
    (ht : h.event.type = EventType.EVENT_TYPE_CONN) :
    (c.takeEvent d h).runMode = c.runMode := by
  simp only [Controller.takeEvent, Controller.dispatch, ht]
  split_ifs <;> rfl

theorem afterLoop_runMode (ms : Int) (c : Controller) :
    (c.afterLoop ms).runMode = c.runMode := by
  unfold Controller.afterLoop
  split_ifs <;> rfl

theorem afterLoop_events (ms : Int) (c : Controller) :
    (c.afterLoop ms).events = c.events := by
  unfold Controller.afterLoop
  split_ifs <;> rfl

theorem eventLoop_cons_none (d : Decls) (untilType : Option EventType)
    (rest : List (Option HostEvent)) (ev : MAEvent) (c : Controller)
    (hm : c.runMode ≠ ExecState.exit_state) :
    Controller.eventLoop d untilType (none :: rest) ev c = (ev, c, rest) := by
  simp [Controller.eventLoop, Controller.isExit, hm]

theorem eventLoop_cons_some (d : Decls) (untilType : Option EventType) (h : HostEvent)
    (rest : List (Option HostEvent)) (ev : MAEvent) (c : Controller)
    (hm : c.runMode ≠ ExecState.exit_state) :
    Controller.eventLoop d untilType (some h :: rest) ev c =
      if untilType = some h.event.type then (h.event, c.takeEvent d h, rest)
      else Controller.eventLoop d untilType rest h.event (c.takeEvent d h) := by
  simp [Controller.eventLoop, Controller.isExit, hm]

/-- A Back or SoftRight key handed to `handleKey` sets the exit state and pushes nothing. -/
theorem handleKey_back (d : Decls) (hrun : d.isRunning ExecState.exit_state = false)
    (hb1 : d.MAK_BACK ≠ d.MAK_FIRE) (hb2 : d.MAK_BACK ≠ d.MAK_5)
    (hs1 : d.MAK_SOFTRIGHT ≠ d.MAK_FIRE) (hs2 : d.MAK_SOFTRIGHT ≠ d.MAK_5)
    (c : Controller) (key : Int) (hk : key = d.MAK_BACK ∨ key = d.MAK_SOFTRIGHT) :
    c.handleKey d key = { c with runMode := ExecState.exit_state } := by
  have h1 : c.handleKeyExit d key = { c with runMode := ExecState.exit_state } := by
    unfold Controller.handleKeyExit
    rcases hk with hk | hk <;> subst hk <;> simp [hb1, hb2, hs1, hs2]
  unfold Controller.handleKey
  rw [h1]
  simp [hrun]

/-- The event is handled by `processEvents` when it is the first one `maGetEvent` delivers: the
controller after the loop body ran for it, given that the controller was not in the exit state. -/
theorem processEvents_first (d : Decls) (ms : Int) (untilType : Option EventType)
    (c : Controller) (h : HostEvent) (rest : List (Option HostEvent))
    (hev : c.events = some h :: rest) (hne : c.runMode ≠ ExecState.exit_state)
    (hexit : (c.longPress.takeEvent d h).runMode = ExecState.exit_state) :
    (c.processEvents d ms untilType).2 =
      (({ c.longPress.takeEvent d h with events := rest }).call Call.ui_reset).call
        Call.brun_break := by
  have hl : c.longPress.runMode ≠ ExecState.exit_state := by rw [longPress_runMode]; exact hne
  unfold Controller.processEvents
  rw [longPress_events, hev]
  simp only [Controller.eventLoop, Controller.isExit, hl, decide_False, Bool.false_eq_true,
    if_false]
  split_ifs
  · simp [Controller.afterLoop, hexit]
  · rw [eventLoop_of_exit d untilType rest h.event _ hexit]
    simp [Controller.afterLoop, hexit]

theorem processEvents_of_exit (d : Decls) (ms : Int) (untilType : Option EventType)
    (c : Controller) (he : c.runMode = ExecState.exit_state) :
    (c.processEvents d ms untilType).2 =
      (c.longPress.call Call.ui_reset).call Call.brun_break := by
  have hl : c.longPress.runMode = ExecState.exit_state := by rw [longPress_runMode]; exact he
  unfold Controller.processEvents
  rw [eventLoop_of_exit d untilType _ d.uninit _ hl]
  generalize c.longPress = c0 at hl
  obtain ⟨rm, le, ept, px, py, pt, lp, ow, oh, ev, clock, now, sw, sh, rb, tr⟩ := c0
  simp only at hl
  subst hl
  simp [Controller.afterLoop]

theorem takeEvent_close (d : Decls) (c : Controller) (h : HostEvent)
    (ht : h.event.type = EventType.EVENT_TYPE_CLOSE) :
    (c.takeEvent d h).runMode = ExecState.exit_state := by
  simp [Controller.takeEvent, Controller.dispatch, ht]

theorem takeEvent_back (d : Decls) (hrun : d.isRunning ExecState.exit_state = false)
    (hb1 : d.MAK_BACK ≠ d.MAK_FIRE) (hb2 : d.MAK_BACK ≠ d.MAK_5)
    (hs1 : d.MAK_SOFTRIGHT ≠ d.MAK_FIRE) (hs2 : d.MAK_SOFTRIGHT ≠ d.MAK_5)
    (c : Controller) (h : HostEvent)
    (ht : h.event.type = EventType.EVENT_TYPE_KEY_PRESSED)
    (hk : h.event.key = d.MAK_BACK ∨ h.event.key = d.MAK_SOFTRIGHT) :
    (c.takeEvent d h).runMode = ExecState.exit_state ∧
      pushedKeys (c.takeEvent d h).trace = pushedKeys c.trace := by
  simp only [Controller.takeEvent, Controller.dispatch, ht]
  rw [handleKey_back d hrun hb1 hb2 hs1 hs2 _ _ hk]
  refine ⟨rfl, ?_⟩
  split_ifs
  · simp [Controller.fireEvent, Controller.call, pushedKeys, List.filterMap_append]
  · rfl

theorem pushedKeys_exit_calls (c : Controller) :
    pushedKeys ((c.call Call.ui_reset).call Call.brun_break).trace = pushedKeys c.trace := by
  simp [Controller.call, pushedKeys, List.filterMap_append]

/-- C3: from every run mode, a Back or SoftRight key handed to `handleKey` sets the run mode to
the exit state and leaves the trace as it is (no `dev_pushkey`); a Close event that
`processEvents` handles sets the run mode to the exit state; and a Back or SoftRight key press
that `processEvents` handles sets the exit state without pushing a key to the interpreter. The
hypotheses say that the exit state does not count as running and that the labels of the first
`switch` differ. -/
theorem close_and_back_exit (d : Decls) (hrun : d.isRunning ExecState.exit_state = false)
    (hb1 : d.MAK_BACK ≠ d.MAK_FIRE) (hb2 : d.MAK_BACK ≠ d.MAK_5)
    (hs1 : d.MAK_SOFTRIGHT ≠ d.MAK_FIRE) (hs2 : d.MAK_SOFTRIGHT ≠ d.MAK_5) :
    (∀ (c : Controller) (key : Int), key = d.MAK_BACK ∨ key = d.MAK_SOFTRIGHT →
        (c.handleKey d key).runMode = ExecState.exit_state ∧
        (c.handleKey d key).trace = c.trace) ∧
    (∀ (c : Controller) (ms : Int) (untilType : Option EventType) (h : HostEvent)
        (rest : List (Option HostEvent)), c.events = some h :: rest →
        h.event.type = EventType.EVENT_TYPE_CLOSE →
        (c.processEvents d ms untilType).2.runMode = ExecState.exit_state) ∧
    (∀ (c : Controller) (ms : Int) (untilType : Option EventType) (h : HostEvent)
        (rest : List (Option HostEvent)), c.events = some h :: rest →
        h.event.type = EventType.EVENT_TYPE_KEY_PRESSED →
        h.event.key = d.MAK_BACK ∨ h.event.key = d.MAK_SOFTRIGHT →
        (c.processEvents d ms untilType).2.runMode = ExecState.exit_state ∧
        pushedKeys (c.processEvents d ms untilType).2.trace = pushedKeys c.trace) := by
  refine ⟨?_, ?_, ?_⟩
  · intro c key hk
    rw [handleKey_back d hrun hb1 hb2 hs1 hs2 c key hk]
    exact ⟨rfl, rfl⟩
  · intro c ms untilType h rest hev ht
    by_cases he : c.runMode = ExecState.exit_state
    · exact Frame.exit_stays (Frame.processEvents d ms untilType c) he
    · rw [processEvents_first d ms untilType c h rest hev he (takeEvent_close d _ h ht)]
      exact takeEvent_close d _ h ht
  · intro c ms untilType h rest hev ht hk
    by_cases he : c.runMode = ExecState.exit_state
    · refine ⟨Frame.exit_stays (Frame.processEvents d ms untilType c) he, ?_⟩
      rw [processEvents_of_exit d ms untilType c he, pushedKeys_exit_calls, longPress_trace]
    · have hb := takeEvent_back d hrun hb1 hb2 hs1 hs2 c.longPress h ht hk
      rw [processEvents_first d ms untilType c h rest hev he hb.1]
      refine ⟨hb.1, ?_⟩
      rw [pushedKeys_exit_calls]
      show pushedKeys (c.longPress.takeEvent d h).trace = pushedKeys c.trace
      rw [hb.2, longPress_trace]

theorem close_and_back_exit_witness :
    ((sampleController ExecState.run_state [] []).handleKey sampleDecls 293).runMode =
        ExecState.exit_state ∧
      ((sampleController ExecState.run_state [] []).handleKey sampleDecls 293).trace = [] ∧
      ((sampleController ExecState.run_state [some closeEvent] []).processEvents sampleDecls 0
        none).2.runMode = ExecState.exit_state ∧
      pushedKeys ((sampleController ExecState.modal_state [some (keyPressed 286)]
        []).processEvents sampleDecls 0 none).2.trace = [] := by
  have h := close_and_back_exit sampleDecls (by decide) (by decide) (by decide) (by decide)
    (by decide)
  have h1 := h.1 (sampleController ExecState.run_state [] []) 293 (Or.inl rfl)
  have h2 := h.2.1 (sampleController ExecState.run_state [some closeEvent] []) 0 none
    closeEvent [] rfl rfl
  have h3 := h.2.2 (sampleController ExecState.modal_state [some (keyPressed 286)] []) 0 none
    (keyPressed 286) [] rfl rfl (Or.inr rfl)
  exact ⟨h1.1, h1.2, h2, h3.2⟩

/-! ### The connection reader -/

/-- In `conn_state`, a call of `processEvents` that finds the queue empty returns the
indeterminate event. -/
theorem processEvents_idle (d : Decls) (c : Controller) (rest : List (Option HostEvent))
    (hm : c.runMode = ExecState.conn_state) (hev : c.events = none :: rest) :
    c.processEvents d 50 (some EventType.EVENT_TYPE_CONN) =
      (d.uninit, ({ c.longPress with events := rest }.call Call.runIdleListeners).call
        (Call.maWait 50)) := by
  have hl : c.longPress.runMode = ExecState.conn_state := by rw [longPress_runMode]; exact hm
  unfold Controller.processEvents
  rw [longPress_events, hev]
  simp [Controller.eventLoop, Controller.isExit, hl, Controller.afterLoop]

/-- In `conn_state`, a call of `processEvents` that finds a Connection event first returns it,
with the bytes that came with it stored in the read buffer. -/
theorem processEvents_conn (d : Decls) (c : Controller) (h : HostEvent)
    (rest : List (Option HostEvent)) (hm : c.runMode = ExecState.conn_state)
    (hev : c.events = some h :: rest) (ht : h.event.type = EventType.EVENT_TYPE_CONN) :
    c.processEvents d 50 (some EventType.EVENT_TYPE_CONN) =
      (h.event, ({ c.longPress with events := rest,
                                    readBuffer := storeBytes h.stored c.readBuffer }.call
        Call.runIdleListeners).call (Call.maWait 50)) := by
  have hl : c.longPress.runMode = ExecState.conn_state := by rw [longPress_runMode]; exact hm
  unfold Controller.processEvents
  rw [longPress_events, hev]
  simp [Controller.eventLoop, Controller.isExit, hl, Controller.afterLoop, ht,
    Controller.takeEvent, Controller.isModal, Controller.dispatch, longPress_readBuffer]

theorem connCalls_idle (c : Controller) :
    connCalls ((c.call Call.runIdleListeners).call (Call.maWait 50)).trace =
      connCalls c.trace := by
  simp [Controller.call, connCalls, List.filter_append]

theorem readLoop_step (d : Decls) (conn : Int) (fuel : Nat) (st : ReadState) (c : Controller)
    (hm : c.runMode = ExecState.conn_state) :
    Controller.readLoop d conn (fuel + 1) st c =
      match Controller.onConnEvent d conn
          (c.processEvents d 50 (some EventType.EVENT_TYPE_CONN)).1 st
          (c.processEvents d 50 (some EventType.EVENT_TYPE_CONN)).2 with
      | Outcome.returned r => Controller.readLoop d conn fuel r.1 r.2
      | Outcome.blocked => Outcome.blocked
      | Outcome.fault => Outcome.fault
      | Outcome.outOfFuel => Outcome.outOfFuel := by
  rw [Controller.readLoop]
  simp [hm]

theorem readLoop_done (d : Decls) (conn : Int) (fuel : Nat) (st : ReadState) (c : Controller)
    (hm : c.runMode ≠ ExecState.conn_state) :
    Controller.readLoop d conn (fuel + 1) st c = Outcome.returned (st, c) := by
  rw [Controller.readLoop]
  simp [hm]

/-- The loop of `readConnection` waits through `g` polls that find nothing and then handles the
Connection event that follows them. -/
theorem readLoop_wait (d : Decls) (conn : Int) (g : Nat)
    (hidle : g = 0 ∨ d.uninit.type ≠ EventType.EVENT_TYPE_CONN) (fuel : Nat) (st : ReadState)
    (c : Controller) (h : HostEvent) (rest : List (Option HostEvent))
    (hm : c.runMode = ExecState.conn_state)
    (hev : c.events = List.replicate g none ++ some h :: rest)
    (ht : h.event.type = EventType.EVENT_TYPE_CONN) :
    ∃ c1 : Controller, c1.runMode = ExecState.conn_state ∧ c1.events = rest ∧
      c1.readBuffer = storeBytes h.stored c.readBuffer ∧
      connCalls c1.trace = connCalls c.trace ∧
      Controller.readLoop d conn (fuel + g + 1) st c =
        match Controller.onConnEvent d conn h.event st c1 with
        | Outcome.returned r => Controller.readLoop d conn fuel r.1 r.2
        | Outcome.blocked => Outcome.blocked
        | Outcome.fault => Outcome.fault
        | Outcome.outOfFuel => Outcome.outOfFuel := by
  induction g generalizing c with
  | zero =>
    simp only [List.replicate_zero, List.nil_append] at hev
    refine ⟨(Controller.call { c.longPress with
        events := rest, readBuffer := storeBytes h.stored c.readBuffer }
        Call.runIdleListeners).call (Call.maWait 50), ?_, ?_, ?_, ?_, ?_⟩
    · show c.longPress.runMode = ExecState.conn_state
      rw [longPress_runMode]
      exact hm
    · rfl
    · rfl
    · rw [connCalls_idle]
      show connCalls c.longPress.trace = connCalls c.trace
      rw [longPress_trace]
    · rw [Nat.add_zero, readLoop_step d conn fuel st c hm, processEvents_conn d c h rest hm hev ht]
  | succ g ih =>
    have hu : d.uninit.type ≠ EventType.EVENT_TYPE_CONN := by
      rcases hidle with h0 | h0
      · exact absurd h0 (Nat.succ_ne_zero g)
      · exact h0
    have hev1 : c.events = none :: (List.replicate g none ++ some h :: rest) := by
      rw [hev]
      rfl
    obtain ⟨c1, h1, h2, h3, h4, h5⟩ := ih (Or.inr hu)
      (({ c.longPress with events := List.replicate g none ++ some h :: rest }.call
        Call.runIdleListeners).call (Call.maWait 50))
      (by show c.longPress.runMode = ExecState.conn_state
          rw [longPress_runMode]
          exact hm) rfl
    refine ⟨c1, h1, h2, ?_, ?_, ?_⟩
    · rw [h3]
      show storeBytes h.stored c.longPress.readBuffer = storeBytes h.stored c.readBuffer
      rw [longPress_readBuffer]
    · rw [h4, connCalls_idle]
      show connCalls c.longPress.trace = connCalls c.trace
      rw [longPress_trace]
    · rw [← h5]
      show Controller.readLoop d conn (fuel + g + 1 + 1) st c = _
      rw [readLoop_step d conn (fuel + g + 1) st c hm, processEvents_idle d c _ hm hev1]
      simp [Controller.onConnEvent, hu]

theorem strncpy_length (src : List Nat) (n : Nat) : (strncpy src n).length = n := by
  have h1 : ((src.take n).takeWhile (fun b => decide (b ≠ 0))).length ≤ n := by
    calc ((src.take n).takeWhile (fun b => decide (b ≠ 0))).length
        ≤ (src.take n).length := (List.takeWhile_sublist _).length_le
      _ ≤ n := by simp
  simp only [strncpy, List.length_append, List.length_replicate]
  omega

theorem strncpy_of_nonzero (chunk : List Nat) (h : ∀ b ∈ chunk, b ≠ 0) :
    strncpy chunk chunk.length = chunk := by
  have h1 : chunk.takeWhile (fun b => decide (b ≠ 0)) = chunk :=
    List.takeWhile_eq_self_iff.mpr (fun b hb => by simpa using h b hb)
  rw [strncpy, List.take_length, h1]
  simp

/-- The buffer after the host stored a chunk and `buffer[size] = 0` was executed is copied by
`strncpy` as the chunk is. -/
theorem strncpy_stored (chunk buf : List Nat) :
    strncpy ((storeBytes chunk buf).set chunk.length 0) chunk.length =
      strncpy chunk chunk.length := by
  have h1 : ((storeBytes chunk buf).set chunk.length 0).take chunk.length =
      chunk.take chunk.length := by
    rw [storeBytes, List.set_append_right _ _ (le_refl _), List.take_left, List.take_length]
  simp only [strncpy, h1]

theorem storeBytes_length (chunk buf : List Nat) (h : chunk.length ≤ buf.length) :
    (storeBytes chunk buf).length = buf.length := by
  simp only [storeBytes, List.length_append, List.length_drop]
  omega

theorem onConnEvent_other (d : Decls) (conn : Int) (event : MAEvent) (st : ReadState)
    (c : Controller) (ht : event.type ≠ EventType.EVENT_TYPE_CONN) :
    Controller.onConnEvent d conn event st c = Outcome.returned (st, c) := by
  simp [Controller.onConnEvent, ht]

theorem onConnEvent_readEnd (d : Decls) (conn r : Int) (st : ReadState) (c : Controller)
    (hop : d.CONNOP_CONNECT ≠ d.CONNOP_READ) (hr : r ≤ 0) :
    Controller.onConnEvent d conn (readEnd d conn r).event st c =
      Outcome.returned (st, { c with runMode := ExecState.init_state }) := by
  simp [Controller.onConnEvent, readEnd, hop.symm, not_lt.mpr hr]

theorem onConnEvent_connect (d : Decls) (conn r : Int) (st : ReadState) (c : Controller)
    (hst : st.connected = false) :
    Controller.onConnEvent d conn (connectDone d conn r).event st c =
      if r > 0 then
        Outcome.returned ({ st with connected := true }, c.call (Call.maConnRead conn 1023))
      else
        Outcome.returned ({ st with connected := false },
          { c with runMode := ExecState.init_state }) := by
  simp [Controller.onConnEvent, connectDone, hst]

theorem onConnEvent_read (d : Decls) (conn : Int) (chunk buf acc : List Nat) (st : ReadState)
    (c : Controller) (hop : d.CONNOP_CONNECT ≠ d.CONNOP_READ) (h0 : 0 < chunk.length)
    (h1 : chunk.length ≤ 1023) (hbuf : c.readBuffer = storeBytes chunk buf)
    (hacc : st.Accumulated acc) :
    ∃ st1 : ReadState,
      Controller.onConnEvent d conn (readDone d conn chunk).event st c =
        Outcome.returned (st1, { c with readBuffer := c.readBuffer.set chunk.length 0 }.call
          (Call.maConnRead conn 1023)) ∧
      st1.Accumulated (acc ++ strncpy chunk chunk.length) ∧
      st1.result = some (acc ++ strncpy chunk chunk.length ++ [0]) := by
  have hpos : (chunk.length : Int) > 0 := by exact_mod_cast h0
  have hlt : (chunk.length : Int) < 1024 := by omega
  have hs := strncpy_stored chunk buf
  have hl := strncpy_length chunk chunk.length
  rcases hacc with ⟨hres, hnil⟩ | ⟨hres, hlen2⟩
  · subst hnil
    refine ⟨ReadState.mk st.connected chunk.length chunk.length
      (some (strncpy chunk chunk.length ++ [0])), ?_, ?_, ?_⟩
    · simp [Controller.onConnEvent, readDone, hop.symm, hpos, hlt, hres, hbuf, hs]
    · exact Or.inr ⟨by simp, by simp [hl]⟩
    · simp
  · refine ⟨ReadState.mk st.connected (st.length + chunk.length) chunk.length
      (some (acc ++ strncpy chunk chunk.length ++ [0])), ?_, ?_, ?_⟩
    · simp [Controller.onConnEvent, readDone, hop.symm, hpos, hlt, hres, hbuf, hs, hlen2]
    · exact Or.inr ⟨by simp, by simp [hl, hlen2]⟩
    · rfl

/-- The loop of `readConnection` over a sequence of read completions that ends with a
completion whose result is not positive: every chunk is appended as `strncpy` copies it, one
`maConnRead` is issued per chunk, and the loop ends in `init_state`. -/
theorem readLoop_chunks (d : Decls) (conn : Int) (hop : d.CONNOP_CONNECT ≠ d.CONNOP_READ)
    (r : Int) (hr : r ≤ 0) (gEnd : Nat) (rest : List (Option HostEvent))
    (items : List (Nat × List Nat)) :
    ∀ (st : ReadState) (c : Controller) (acc : List Nat),
      c.runMode = ExecState.conn_state → c.readBuffer.length = 1024 →
      (∀ it ∈ items, 0 < it.2.length ∧ it.2.length ≤ 1023) →
      (((∀ it ∈ items, it.1 = 0) ∧ gEnd = 0) ∨ d.uninit.type ≠ EventType.EVENT_TYPE_CONN) →
      c.events = readScript d conn items ++
        (List.replicate gEnd none ++ some (readEnd d conn r) :: rest) →
      st.Accumulated acc →
      ∃ (st1 : ReadState) (c1 : Controller),
        Controller.readLoop d conn (readScriptLength items + gEnd + 2) st c =
          Outcome.returned (st1, c1) ∧
        c1.runMode = ExecState.init_state ∧ c1.events = rest ∧
        st1.result = (if items = [] then st.result
                      else some (acc ++ copiedBytes items ++ [0])) ∧
        connCalls c1.trace =
          connCalls c.trace ++ List.replicate items.length (Call.maConnRead conn 1023) := by
  induction items with
  | nil =>
    intro st c acc hm _ _ hidle hev _
    have hidle1 : gEnd = 0 ∨ d.uninit.type ≠ EventType.EVENT_TYPE_CONN := by
      rcases hidle with h | h
      · exact Or.inl h.2
      · exact Or.inr h
    simp only [readScript, List.nil_append] at hev
    obtain ⟨c1, hm1, hev1, _, ht1, hloop⟩ :=
      readLoop_wait d conn gEnd hidle1 1 st c (readEnd d conn r) rest hm hev rfl
    have hf : readScriptLength [] + gEnd + 2 = 1 + gEnd + 1 := by
      simp only [readScriptLength]
      omega
    rw [hf, hloop, onConnEvent_readEnd d conn r st c1 hop hr]
    refine ⟨st, { c1 with runMode := ExecState.init_state }, ?_, rfl, hev1, by simp, ?_⟩
    · exact readLoop_done d conn 0 st _ (by simp)
    · simpa using ht1
  | cons item items ih =>
    intro st c acc hm hlen hsize hidle hev hacc
    have hidle1 : item.1 = 0 ∨ d.uninit.type ≠ EventType.EVENT_TYPE_CONN := by
      rcases hidle with h | h
      · exact Or.inl (h.1 item (List.mem_cons_self _ _))
      · exact Or.inr h
    have hidle2 : ((∀ it ∈ items, it.1 = 0) ∧ gEnd = 0) ∨
        d.uninit.type ≠ EventType.EVENT_TYPE_CONN := by
      rcases hidle with h | h
      · exact Or.inl ⟨fun it hit => h.1 it (List.mem_cons_of_mem _ hit), h.2⟩
      · exact Or.inr h
    have hs := hsize item (List.mem_cons_self _ _)
    simp only [readScript, List.append_assoc, List.cons_append] at hev
    obtain ⟨c1, hm1, hev1, hb1, ht1, hloop⟩ :=
      readLoop_wait d conn item.1 hidle1 (readScriptLength items + gEnd + 2) st c
        (readDone d conn item.2) _ hm hev rfl
    have hb2 : c1.readBuffer = storeBytes item.2 c.readBuffer := hb1
    obtain ⟨st1, hon, hacc1, _⟩ :=
      onConnEvent_read d conn item.2 c.readBuffer acc st c1 hop hs.1 hs.2 hb2 hacc
    have hf : readScriptLength (item :: items) + gEnd + 2 =
        readScriptLength items + gEnd + 2 + item.1 + 1 := by
      simp only [readScriptLength]
      omega
    rw [hf, hloop, hon]
    have hlen2 : (c1.readBuffer.set item.2.length 0).length = 1024 := by
      rw [List.length_set, hb2, storeBytes_length _ _ (by omega), hlen]
    obtain ⟨st2, c2, hrun, hm2, hev2, hres2, ht2⟩ :=
      ih st1 (Controller.call { c1 with readBuffer := c1.readBuffer.set item.2.length 0 }
        (Call.maConnRead conn 1023)) (acc ++ strncpy item.2 item.2.length) hm1 hlen2
        (fun it hit => hsize it (List.mem_cons_of_mem _ hit)) hidle2 hev1 hacc1
    refine ⟨st2, c2, hrun, hm2, hev2, ?_, ?_⟩
    · rw [hres2]
      rcases hacc1 with ⟨_, hnil⟩ | ⟨hsome, _⟩
      · exact absurd (congrArg List.length hnil) (by
          simp only [List.length_append, strncpy_length, List.length_nil]
          omega)
      · by_cases hi : items = []
        · subst hi
          simp [copiedBytes, hsome]
        · simp [hi, copiedBytes]
    · rw [ht2]
      have h3 : connCalls (Controller.call
          { c1 with readBuffer := c1.readBuffer.set item.2.length 0 }
          (Call.maConnRead conn 1023)).trace =
          connCalls c.trace ++ [Call.maConnRead conn 1023] := by
        rw [← ht1]
        simp [Controller.call, connCalls, List.filter_append]
      rw [h3]
      simp [List.replicate_succ]

/-- More fuel does not change what the loop of `readConnection` returns. -/
theorem readLoop_mono (d : Decls) (conn : Int) (extra : Nat) :
    ∀ (fuel : Nat) (st : ReadState) (c : Controller) (x : ReadState × Controller),
      Controller.readLoop d conn fuel st c = Outcome.returned x →
      Controller.readLoop d conn (fuel + extra) st c = Outcome.returned x := by
  intro fuel
  induction fuel with
  | zero =>
    intro st c x h
    simp [Controller.readLoop] at h
  | succ fuel ih =>
    intro st c x h
    rw [Nat.add_right_comm]
    by_cases hm : c.runMode = ExecState.conn_state
    · rw [readLoop_step d conn _ st c hm] at h ⊢
      cases ho : Controller.onConnEvent d conn
          (c.processEvents d 50 (some EventType.EVENT_TYPE_CONN)).1 st
          (c.processEvents d 50 (some EventType.EVENT_TYPE_CONN)).2 with
      | returned r =>
        rw [ho] at h
        exact ih _ _ _ h
      | blocked => rw [ho] at h; simp at h
      | fault => rw [ho] at h; simp at h
      | outOfFuel => rw [ho] at h; simp at h
    · rw [readLoop_done d conn _ st c hm] at h ⊢
      exact h

theorem readConnection_mono (d : Decls) (conn : Int) (fuel extra : Nat) (c : Controller)
    (x : Option (List Nat) × Controller)
    (h : c.readConnection d conn fuel = Outcome.returned x) :
    c.readConnection d conn (fuel + extra) = Outcome.returned x := by
  unfold Controller.readConnection at h ⊢
  by_cases hc : conn > 0
  · simp only [hc, if_true] at h ⊢
    cases hl : Controller.readLoop d conn fuel
        { connected := false, length := 0, size := 0, result := none }
        { c.call Call.maConnect with runMode := ExecState.conn_state } with
    | returned r =>
      rw [hl] at h
      rw [readLoop_mono d conn extra fuel _ _ r hl]
      exact h
    | blocked => rw [hl] at h; simp at h
    | fault => rw [hl] at h; simp at h
    | outOfFuel => rw [hl] at h; simp at h
  · simp only [hc, if_false] at h ⊢
    exact h

theorem connCalls_close (c : Controller) (conn : Int) :
    connCalls (c.call (Call.maConnClose conn)).trace =
      connCalls c.trace ++ [Call.maConnClose conn] := by
  simp [Controller.call, connCalls, List.filter_append]

theorem connCalls_read (c : Controller) (conn : Int) :
    connCalls (c.call (Call.maConnRead conn 1023)).trace =
      connCalls c.trace ++ [Call.maConnRead conn 1023] := by
  simp [Controller.call, connCalls, List.filter_append]

theorem connCalls_connect (c : Controller) :
    connCalls (c.call Call.maConnect).trace = connCalls c.trace := by
  simp [Controller.call, connCalls, List.filter_append]

/-- A connect that fails: `readConnection` returns `NULL` in `init_state`, having issued no
read and closed the handle. -/
theorem connect_fail_run (d : Decls) (conn rc : Int) (hconn : conn > 0)
    (hrc : rc ≤ 0) (g0 : Nat) (hidle : g0 = 0 ∨ d.uninit.type ≠ EventType.EVENT_TYPE_CONN)
    (c : Controller) (rest : List (Option HostEvent))
    (hev : c.events = List.replicate g0 none ++ some (connectDone d conn rc) :: rest) :
    ∃ c1 : Controller, c.readConnection d conn (g0 + 2) = Outcome.returned (none, c1) ∧
      c1.runMode = ExecState.init_state ∧ c1.events = rest ∧
      connCalls c1.trace = connCalls c.trace ++ [Call.maConnClose conn] := by
  obtain ⟨c1, _, hev1, _, ht1, hloop⟩ :=
    readLoop_wait d conn g0 hidle 1 { connected := false, length := 0, size := 0, result := none }
      { c.call Call.maConnect with runMode := ExecState.conn_state } (connectDone d conn rc) rest
      rfl hev rfl
  have hf : g0 + 2 = 1 + g0 + 1 := by omega
  unfold Controller.readConnection
  simp only [hconn, if_true]
  rw [hf, hloop, onConnEvent_connect d conn rc _ c1 rfl]
  simp only [not_lt.mpr hrc, if_false]
  rw [readLoop_done d conn 0 _ _ (by simp)]
  refine ⟨_, rfl, rfl, hev1, ?_⟩
  rw [connCalls_close]
  show connCalls c1.trace ++ _ = _
  rw [ht1]
  show connCalls (c.call Call.maConnect).trace ++ _ = _
  rw [connCalls_connect]

/-- A connect that succeeds, followed by read completions and a final completion with a result
that is not positive: `readConnection` returns the chunks as `strncpy` copied them, followed by
the terminating zero, in `init_state`, having issued one read per completion and closed the
handle. -/
theorem connect_success_run (d : Decls) (conn rc r : Int) (hconn : conn > 0)
    (hop : d.CONNOP_CONNECT ≠ d.CONNOP_READ) (hrc : rc > 0) (hr : r ≤ 0) (g0 gEnd : Nat)
    (items : List (Nat × List Nat)) (rest : List (Option HostEvent)) (c : Controller)
    (hlen : c.readBuffer.length = 1024)
    (hsize : ∀ it ∈ items, 0 < it.2.length ∧ it.2.length ≤ 1023)
    (hidle : (g0 = 0 ∧ (∀ it ∈ items, it.1 = 0) ∧ gEnd = 0) ∨
      d.uninit.type ≠ EventType.EVENT_TYPE_CONN)
    (hev : c.events = List.replicate g0 none ++ some (connectDone d conn rc) ::
      (readScript d conn items ++ (List.replicate gEnd none ++ some (readEnd d conn r) :: rest))) :
    ∃ c1 : Controller,
      c.readConnection d conn (g0 + 1 + readScriptLength items + gEnd + 2) =
        Outcome.returned ((if items = [] then none else some (copiedBytes items ++ [0])), c1) ∧
      c1.runMode = ExecState.init_state ∧ c1.events = rest ∧
      connCalls c1.trace = connCalls c.trace ++
        List.replicate (items.length + 1) (Call.maConnRead conn 1023) ++
        [Call.maConnClose conn] := by
  have hidle0 : g0 = 0 ∨ d.uninit.type ≠ EventType.EVENT_TYPE_CONN := by
    rcases hidle with h | h
    · exact Or.inl h.1
    · exact Or.inr h
  have hidle1 : ((∀ it ∈ items, it.1 = 0) ∧ gEnd = 0) ∨
      d.uninit.type ≠ EventType.EVENT_TYPE_CONN := by
    rcases hidle with h | h
    · exact Or.inl h.2
    · exact Or.inr h
  obtain ⟨c1, hm1, hev1, hb1, ht1, hloop⟩ :=
    readLoop_wait d conn g0 hidle0 (readScriptLength items + gEnd + 2)
      { connected := false, length := 0, size := 0, result := none }
      { c.call Call.maConnect with runMode := ExecState.conn_state } (connectDone d conn rc) _
      rfl hev rfl
  have hb2 : (c1.call (Call.maConnRead conn 1023)).readBuffer.length = 1024 := by
    show c1.readBuffer.length = 1024
    rw [hb1]
    show (storeBytes [] c.readBuffer).length = 1024
    rw [storeBytes_length _ _ (by simp), hlen]
  obtain ⟨st2, c2, hrun, hm2, hev2, hres2, ht2⟩ :=
    readLoop_chunks d conn hop r hr gEnd rest items
      { connected := true, length := 0, size := 0, result := none }
      (c1.call (Call.maConnRead conn 1023)) [] hm1 hb2 hsize hidle1 hev1 (Or.inl ⟨rfl, rfl⟩)
  have hf : g0 + 1 + readScriptLength items + gEnd + 2 =
      readScriptLength items + gEnd + 2 + g0 + 1 := by omega
  unfold Controller.readConnection
  simp only [hconn, if_true]
  rw [hf, hloop, onConnEvent_connect d conn rc _ c1 rfl]
  simp only [hrc, if_true]
  rw [hrun]
  refine ⟨c2.call (Call.maConnClose conn), ?_, hm2, hev2, ?_⟩
  · simp only [hres2, List.nil_append]
  · rw [connCalls_close, ht2, connCalls_read, ht1]
    show (connCalls (c.call Call.maConnect).trace ++ _ ++ _) ++ _ = _
    rw [connCalls_connect]
    simp [List.replicate_succ, List.append_assoc]

theorem copiedBytes_length (items : List (Nat × List Nat)) :
    (copiedBytes items).length = (items.map (fun it => it.2.length)).sum := by
  induction items with
  | nil => rfl
  | cons item items ih => simp [copiedBytes, strncpy_length, ih]

theorem copiedBytes_of_nonzero (items : List (Nat × List Nat))
    (h : ∀ it ∈ items, ∀ b ∈ it.2, b ≠ 0) :
    copiedBytes items = (items.map (fun it => it.2)).flatten := by
  induction items with
  | nil => rfl
  | cons item items ih =>
    simp only [copiedBytes, List.map_cons, List.flatten_cons]
    rw [strncpy_of_nonzero item.2 (h item (List.mem_cons_self _ _)),
      ih (fun it hit => h it (List.mem_cons_of_mem _ hit))]

/-- C6 (as amended): after a successful connect, for `k ≥ 1` read completions with chunks of 1
to 1023 bytes followed by a completion whose result is not positive (each completion possibly
preceded by polls that find nothing), `readConnection` returns a block holding, for every chunk
in arrival order, the chunk as `strncpy` copies it (its bytes up to the first zero byte, then
zero bytes up to the length of the chunk), followed by a terminating zero. The block has
`r1 + ... + rk` bytes before the terminator, and when no chunk contains a zero byte they are the
concatenation of the chunks. The hypotheses `hop` and `hidle` say that the two operation codes
differ and that, if some poll finds nothing, the indeterminate event `processEvents` then
returns is not a Connection event. -/
theorem readConnection_accumulates (d : Decls) (conn rc r : Int) (hconn : conn > 0)
    (hop : d.CONNOP_CONNECT ≠ d.CONNOP_READ) (hrc : rc > 0) (hr : r ≤ 0) (g0 gEnd : Nat)
    (items : List (Nat × List Nat)) (rest : List (Option HostEvent)) (c : Controller)
    (hlen : c.readBuffer.length = 1024)
    (hsize : ∀ it ∈ items, 0 < it.2.length ∧ it.2.length ≤ 1023) (hk : items ≠ [])
    (hidle : (g0 = 0 ∧ (∀ it ∈ items, it.1 = 0) ∧ gEnd = 0) ∨
      d.uninit.type ≠ EventType.EVENT_TYPE_CONN)
    (hev : c.events = List.replicate g0 none ++ some (connectDone d conn rc) ::
      (readScript d conn items ++ (List.replicate gEnd none ++ some (readEnd d conn r) :: rest)))
    (fuel : Nat) (hfuel : g0 + 1 + readScriptLength items + gEnd + 2 ≤ fuel) :
    (∃ c1 : Controller,
        c.readConnection d conn fuel = Outcome.returned (some (copiedBytes items ++ [0]), c1) ∧
        c1.events = rest) ∧
      (copiedBytes items).length = (items.map (fun it => it.2.length)).sum ∧
      ((∀ it ∈ items, ∀ b ∈ it.2, b ≠ 0) →
        copiedBytes items = (items.map (fun it => it.2)).flatten) := by
  refine ⟨?_, copiedBytes_length items, copiedBytes_of_nonzero items⟩
  obtain ⟨c1, hrun, _, hev1, _⟩ :=
    connect_success_run d conn rc r hconn hop hrc hr g0 gEnd items rest c hlen hsize hidle hev
  simp only [hk, if_false] at hrun
  obtain ⟨extra, rfl⟩ : ∃ e, fuel = g0 + 1 + readScriptLength items + gEnd + 2 + e :=
    ⟨fuel - (g0 + 1 + readScriptLength items + gEnd + 2), by omega⟩
  exact ⟨c1, readConnection_mono d conn _ extra c _ hrun, hev1⟩

theorem readConnection_accumulates_witness :
    (∃ c1 : Controller,
        (sampleController ExecState.init_state
          (List.replicate 0 none ++ some (connectDone sampleDecls 5 1) ::
            (readScript sampleDecls 5 [(0, List.replicate 500 65), (0, List.replicate 300 66)] ++
              (List.replicate 0 none ++ some (readEnd sampleDecls 5 0) :: []))) []).readConnection
          sampleDecls 5 6 =
        Outcome.returned
          (some (copiedBytes [(0, List.replicate 500 65), (0, List.replicate 300 66)] ++ [0]),
            c1) ∧ c1.events = []) ∧
      (copiedBytes [(0, List.replicate 500 65), (0, List.replicate 300 66)]).length = 800 ∧
      copiedBytes [(0, List.replicate 500 65), (0, List.replicate 300 66)] =
        List.replicate 500 65 ++ List.replicate 300 66 := by
  have hsize : ∀ it ∈ [((0 : Nat), List.replicate 500 (65 : Nat)), (0, List.replicate 300 66)],
      0 < it.2.length ∧ it.2.length ≤ 1023 := by
    intro it hit
    simp only [List.mem_cons, List.mem_singleton, List.not_mem_nil, or_false] at hit
    rcases hit with rfl | rfl <;> simp only [List.length_replicate] <;> omega
  have hnz : ∀ it ∈ [((0 : Nat), List.replicate 500 (65 : Nat)), (0, List.replicate 300 66)],
      ∀ b ∈ it.2, b ≠ 0 := by
    intro it hit b hb
    simp only [List.mem_cons, List.mem_singleton, List.not_mem_nil, or_false] at hit
    rcases hit with rfl | rfl <;> rw [List.eq_of_mem_replicate hb] <;> decide
  have h := readConnection_accumulates sampleDecls 5 1 0 (by decide) (by decide) (by decide)
    (by decide) 0 0 [(0, List.replicate 500 65), (0, List.replicate 300 66)] []
    (sampleController ExecState.init_state
      (List.replicate 0 none ++ some (connectDone sampleDecls 5 1) ::
        (readScript sampleDecls 5 [(0, List.replicate 500 65), (0, List.replicate 300 66)] ++
          (List.replicate 0 none ++ some (readEnd sampleDecls 5 0) :: []))) [])
    (List.length_replicate 1024 0) hsize (List.cons_ne_nil _ _) (Or.inr (by decide)) rfl 6
    (by simp only [readScriptLength]; omega)
  refine ⟨h.1, ?_, ?_⟩
  · rw [h.2.1]
    simp only [List.map_cons, List.map_nil, List.sum_cons, List.sum_nil,
      List.length_replicate]
    rfl
  · rw [h.2.2 hnz]
    simp only [List.map_cons, List.map_nil, List.flatten_cons, List.flatten_nil,
      List.append_nil]

/-- C6, as stated, fails for chunks with arbitrary bytes: a chunk `65, 0, 66` comes back as
`65, 0, 0` (the byte after the zero byte is lost), so the block is not the concatenation of the
chunks. -/
theorem readConnection_zero_byte_counterexample :
    (∃ c1 : Controller,
        (sampleController ExecState.init_state
          (List.replicate 0 none ++ some (connectDone sampleDecls 5 1) ::
            (readScript sampleDecls 5 [(0, [65, 0, 66])] ++
              (List.replicate 0 none ++ some (readEnd sampleDecls 5 0) :: []))) []).readConnection
          sampleDecls 5 4 =
        Outcome.returned (some [65, 0, 0, 0], c1)) ∧
      ([65, 0, 0, 0] : List Nat) ≠ [65, 0, 66] ++ [0] := by
  refine ⟨?_, by decide⟩
  obtain ⟨c1, hrun, _⟩ := connect_success_run sampleDecls 5 1 0 (by decide) (by decide)
    (by decide) (by decide) 0 0 [(0, [65, 0, 66])] []
    (sampleController ExecState.init_state
      (List.replicate 0 none ++ some (connectDone sampleDecls 5 1) ::
        (readScript sampleDecls 5 [(0, [65, 0, 66])] ++
          (List.replicate 0 none ++ some (readEnd sampleDecls 5 0) :: []))) [])
    (List.length_replicate 1024 0) (by decide) (Or.inr (by decide)) rfl
  exact ⟨c1, hrun⟩

/-- The loop of `processEvents`, waiting for a Connection event, over a queue that holds a
Connection event after a prefix without any: it ends in the exit state on an event of the
prefix, or on an empty poll of the prefix, or with the Connection event. -/
theorem eventLoop_prefix (d : Decls) (hc : HostEvent) (rest : List (Option HostEvent))
    (htc : hc.event.type = EventType.EVENT_TYPE_CONN) (pre : List (Option HostEvent)) :
    ∀ (ev : MAEvent) (c : Controller),
      (∀ h : HostEvent, some h ∈ pre → h.event.type ≠ EventType.EVENT_TYPE_CONN) →
      (none ∈ pre → ev.type ≠ EventType.EVENT_TYPE_CONN) →
      c.runMode = ExecState.conn_state →
      ((Controller.eventLoop d (some EventType.EVENT_TYPE_CONN) (pre ++ some hc :: rest) ev
            c).2.1.runMode = ExecState.exit_state ∧
        (Controller.eventLoop d (some EventType.EVENT_TYPE_CONN) (pre ++ some hc :: rest) ev
            c).1.type ≠ EventType.EVENT_TYPE_CONN) ∨
      ((Controller.eventLoop d (some EventType.EVENT_TYPE_CONN) (pre ++ some hc :: rest) ev
            c).2.1.runMode = ExecState.conn_state ∧
        (Controller.eventLoop d (some EventType.EVENT_TYPE_CONN) (pre ++ some hc :: rest) ev
            c).1.type ≠ EventType.EVENT_TYPE_CONN ∧
        ∃ pre1 : List (Option HostEvent), pre1.length < pre.length ∧
          (∀ e ∈ pre1, e ∈ pre) ∧
          (Controller.eventLoop d (some EventType.EVENT_TYPE_CONN) (pre ++ some hc :: rest) ev
            c).2.2 = pre1 ++ some hc :: rest) ∨
      ((Controller.eventLoop d (some EventType.EVENT_TYPE_CONN) (pre ++ some hc :: rest) ev
            c).2.1.runMode = ExecState.conn_state ∧
        (Controller.eventLoop d (some EventType.EVENT_TYPE_CONN) (pre ++ some hc :: rest) ev
            c).1 = hc.event ∧
        (Controller.eventLoop d (some EventType.EVENT_TYPE_CONN) (pre ++ some hc :: rest) ev
            c).2.2 = rest) := by
  induction pre with
  | nil =>
    intro ev c _ _ hm
    have hne : c.runMode ≠ ExecState.exit_state := by rw [hm]; decide
    refine Or.inr (Or.inr ?_)
    rw [List.nil_append, eventLoop_cons_some d _ hc rest ev c hne, if_pos (by rw [htc])]
    exact ⟨by rw [takeEvent_conn_runMode d c hc htc]; exact hm, rfl, rfl⟩
  | cons item pre ih =>
    intro ev c hpre hev hm
    have hne : c.runMode ≠ ExecState.exit_state := by rw [hm]; decide
    cases item with
    | none =>
      refine Or.inr (Or.inl ?_)
      rw [List.cons_append, eventLoop_cons_none d _ _ ev c hne]
      exact ⟨hm, hev (List.mem_cons_self _ _), pre, Nat.lt_succ_self _,
        fun e he => List.mem_cons_of_mem _ he, rfl⟩
    | some h =>
      have hth : h.event.type ≠ EventType.EVENT_TYPE_CONN := hpre h (List.mem_cons_self _ _)
      have hnu : ¬ (some EventType.EVENT_TYPE_CONN = some h.event.type) := by
        intro hx
        exact hth (Option.some.inj hx).symm
      rw [List.cons_append, eventLoop_cons_some d _ h _ ev c hne, if_neg hnu]
      rcases (Frame.takeEvent d h c).1 with h1 | h1
      · rcases ih h.event (c.takeEvent d h)
          (fun h2 hh => hpre h2 (List.mem_cons_of_mem _ hh)) (fun _ => hth)
          (by rw [h1, hm]) with hA | hB | hC
        · exact Or.inl hA
        · obtain ⟨hB1, hB2, pre1, hlen, hsub, hq⟩ := hB
          exact Or.inr (Or.inl ⟨hB1, hB2, pre1, Nat.lt_succ_of_lt hlen,
            fun e he => List.mem_cons_of_mem _ (hsub e he), hq⟩)
        · exact Or.inr (Or.inr hC)
      · rw [eventLoop_of_exit d _ _ h.event _ h1]
        exact Or.inl ⟨h1, hth⟩

/-- A connect that fails, whatever comes before its completion (empty polls, events that are
not Connection events): the loop of `readConnection` ends without a read and without a result,
in `init_state` with the completion consumed, or in the exit state. -/
theorem readLoop_connect_fail (d : Decls) (conn rc : Int) (hrc : rc ≤ 0)
    (rest : List (Option HostEvent)) (n : Nat) :
    ∀ (pre : List (Option HostEvent)) (st : ReadState) (c : Controller), pre.length ≤ n →
      (∀ h : HostEvent, some h ∈ pre → h.event.type ≠ EventType.EVENT_TYPE_CONN) →
      (none ∈ pre → d.uninit.type ≠ EventType.EVENT_TYPE_CONN) →
      c.runMode = ExecState.conn_state → st.connected = false →
      c.events = pre ++ some (connectDone d conn rc) :: rest →
      ∃ (st1 : ReadState) (c1 : Controller),
        Controller.readLoop d conn (n + 2) st c = Outcome.returned (st1, c1) ∧
        st1.result = st.result ∧ connCalls c1.trace = connCalls c.trace ∧
        (c1.runMode = ExecState.exit_state ∨
          (c1.runMode = ExecState.init_state ∧ c1.events = rest)) := by
  induction n with
  | zero =>
    intro pre st c hlen hpre hun hm hst hev
    have hp : pre = [] := List.eq_nil_of_length_eq_zero (Nat.le_zero.mp hlen)
    subst hp
    have hproc := processEvents_conn d c (connectDone d conn rc) rest hm hev rfl
    rw [readLoop_step d conn 1 st c hm, hproc, onConnEvent_connect d conn rc st _ hst]
    simp only [not_lt.mpr hrc, if_false]
    refine ⟨_, _, readLoop_done d conn 0 _ _ (by simp), rfl, ?_, Or.inr ⟨rfl, rfl⟩⟩
    show connCalls ((Controller.call _ Call.runIdleListeners).call (Call.maWait 50)).trace = _
    rw [connCalls_idle]
    show connCalls c.longPress.trace = _
    rw [longPress_trace]
  | succ n ih =>
    intro pre st c hlen hpre hun hm hst hev
    have hl : c.longPress.runMode = ExecState.conn_state := by rw [longPress_runMode]; exact hm
    have hframe := Frame.processEvents d 50 (some EventType.EVENT_TYPE_CONN) c
    have hcases := eventLoop_prefix d (connectDone d conn rc) rest rfl pre d.uninit c.longPress
      hpre hun hl
    rw [readLoop_step d conn (n + 2) st c hm]
    have hfst : (c.processEvents d 50 (some EventType.EVENT_TYPE_CONN)).1 =
        (Controller.eventLoop d (some EventType.EVENT_TYPE_CONN)
          (pre ++ some (connectDone d conn rc) :: rest) d.uninit c.longPress).1 := by
      unfold Controller.processEvents
      rw [longPress_events, hev]
    have hmode : (c.processEvents d 50 (some EventType.EVENT_TYPE_CONN)).2.runMode =
        (Controller.eventLoop d (some EventType.EVENT_TYPE_CONN)
          (pre ++ some (connectDone d conn rc) :: rest) d.uninit c.longPress).2.1.runMode := by
      unfold Controller.processEvents
      rw [afterLoop_runMode, longPress_events, hev]
    have hevs : (c.processEvents d 50 (some EventType.EVENT_TYPE_CONN)).2.events =
        (Controller.eventLoop d (some EventType.EVENT_TYPE_CONN)
          (pre ++ some (connectDone d conn rc) :: rest) d.uninit c.longPress).2.2 := by
      unfold Controller.processEvents
      rw [afterLoop_events, longPress_events, hev]
    rcases hcases with ⟨hA1, hA2⟩ | ⟨hB1, hB2, pre1, hlen1, hsub, hq⟩ | ⟨hC1, hC2, hC3⟩
    · rw [onConnEvent_other d conn _ st _ (by rw [hfst]; exact hA2)]
      refine ⟨st, _, readLoop_done d conn (n + 1) st _ (by rw [hmode, hA1]; decide), rfl,
        hframe.2.1, Or.inl (by rw [hmode, hA1])⟩
    · rw [onConnEvent_other d conn _ st _ (by rw [hfst]; exact hB2)]
      obtain ⟨st1, c1, hrun, hres, htr, hfin⟩ := ih pre1 st
        (c.processEvents d 50 (some EventType.EVENT_TYPE_CONN)).2 (by omega)
        (fun h hh => hpre h (hsub _ hh)) (fun hh => hun (hsub _ hh)) (by rw [hmode, hB1]) hst
        (by rw [hevs, hq])
      exact ⟨st1, c1, hrun, hres, by rw [htr, hframe.2.1], hfin⟩
    · rw [hfst, hC2, onConnEvent_connect d conn rc st _ hst]
      simp only [not_lt.mpr hrc, if_false]
      refine ⟨_, _, readLoop_done d conn (n + 1) _ _ (by simp), rfl, hframe.2.1,
        Or.inr ⟨rfl, ?_⟩⟩
      show (c.processEvents d 50 (some EventType.EVENT_TYPE_CONN)).2.events = rest
      rw [hevs, hC3]

/-- C7: `readConnection` returns `NULL` when the connect attempt fails. When `maConnect`
returns a handle that is not positive it returns at once, whatever the fuel, without entering
the loop: the controller is as before but for the recorded `maConnect`. When the handle is
positive and the completion of the connect carries a result that is not positive, after `g0`
polls that found nothing, the loop ends in the iteration that handles it: the events after it
are left in the queue, no `maConnRead` is issued and the handle is closed. And whatever precedes
that completion in the queue (empty polls, events other than Connection events),
`readConnection` returns `NULL` without having issued a read, the handle closed, in `init_state`
with the completion consumed or, when one of those events asked for it, in the exit state. -/
theorem readConnection_connect_failure (d : Decls) (conn : Int) (c : Controller) :
    (conn ≤ 0 → ∀ fuel : Nat,
        c.readConnection d conn fuel = Outcome.returned (none, c.call Call.maConnect)) ∧
    (conn > 0 → ∀ (rc : Int) (g0 : Nat) (rest : List (Option HostEvent)), rc ≤ 0 →
        (g0 = 0 ∨ d.uninit.type ≠ EventType.EVENT_TYPE_CONN) →
        c.events = List.replicate g0 none ++ some (connectDone d conn rc) :: rest →
        ∀ fuel : Nat, g0 + 2 ≤ fuel →
          ∃ c1 : Controller, c.readConnection d conn fuel = Outcome.returned (none, c1) ∧
            c1.events = rest ∧
            connCalls c1.trace = connCalls c.trace ++ [Call.maConnClose conn]) ∧
    (conn > 0 → ∀ (rc : Int) (pre rest : List (Option HostEvent)), rc ≤ 0 →
        (∀ h : HostEvent, some h ∈ pre → h.event.type ≠ EventType.EVENT_TYPE_CONN) →
        (none ∈ pre → d.uninit.type ≠ EventType.EVENT_TYPE_CONN) →
        c.events = pre ++ some (connectDone d conn rc) :: rest →
        ∀ fuel : Nat, pre.length + 2 ≤ fuel →
          ∃ c1 : Controller, c.readConnection d conn fuel = Outcome.returned (none, c1) ∧
            connCalls c1.trace = connCalls c.trace ++ [Call.maConnClose conn] ∧
            (c1.runMode = ExecState.exit_state ∨
              (c1.runMode = ExecState.init_state ∧ c1.events = rest))) := by
  refine ⟨?_, ?_, ?_⟩
  · intro hc fuel
    simp [Controller.readConnection, not_lt.mpr hc]
  · intro hc rc g0 rest hrc hidle hev fuel hfuel
    obtain ⟨c1, hrun, _, hev1, ht1⟩ := connect_fail_run d conn rc hc hrc g0 hidle c rest hev
    obtain ⟨extra, rfl⟩ : ∃ e, fuel = g0 + 2 + e := ⟨fuel - (g0 + 2), by omega⟩
    exact ⟨c1, readConnection_mono d conn _ extra c _ hrun, hev1, ht1⟩
  · intro hc rc pre rest hrc hpre hun hev fuel hfuel
    obtain ⟨st1, c1, hrun, hres, htr, hfin⟩ := readLoop_connect_fail d conn rc hrc rest
      pre.length pre { connected := false, length := 0, size := 0, result := none }
      { c.call Call.maConnect with runMode := ExecState.conn_state } (le_refl _) hpre hun rfl
      rfl hev
    obtain ⟨extra, rfl⟩ : ∃ e, fuel = pre.length + 2 + e := ⟨fuel - (pre.length + 2), by omega⟩
    refine ⟨c1.call (Call.maConnClose conn), ?_, ?_, hfin⟩
    · apply readConnection_mono
      unfold Controller.readConnection
      simp only [hc, if_true]
      rw [hrun]
      show Outcome.returned (st1.result, _) = _
      rw [hres]
    · rw [connCalls_close, htr]
      show connCalls (c.call Call.maConnect).trace ++ _ = _
      rw [connCalls_connect]

theorem readConnection_connect_failure_witness :
    (sampleController ExecState.init_state [] []).readConnection sampleDecls 0 0 =
        Outcome.returned (none, (sampleController ExecState.init_state [] []).call
          Call.maConnect) ∧
      (∃ c1 : Controller,
        (sampleController ExecState.init_state
          (List.replicate 2 none ++ some (connectDone sampleDecls 5 0) :: [some closeEvent])
          []).readConnection sampleDecls 5 4 = Outcome.returned (none, c1) ∧
        c1.events = [some closeEvent] ∧
        connCalls c1.trace = [Call.maConnClose 5]) ∧
      ∃ c1 : Controller,
        (sampleController ExecState.init_state
          ([none, some (keyPressed 65)] ++ some (connectDone sampleDecls 5 0) :: [])
          []).readConnection sampleDecls 5 4 = Outcome.returned (none, c1) ∧
        connCalls c1.trace = [Call.maConnClose 5] := by
  refine ⟨(readConnection_connect_failure sampleDecls 0
    (sampleController ExecState.init_state [] [])).1 (by decide) 0, ?_, ?_⟩
  · obtain ⟨c1, h1, h2, h3⟩ := (readConnection_connect_failure sampleDecls 5
      (sampleController ExecState.init_state
        (List.replicate 2 none ++ some (connectDone sampleDecls 5 0) :: [some closeEvent])
        [])).2.1 (by decide) 0 2 [some closeEvent] (by decide) (Or.inr (by decide)) rfl 4
      (by decide)
    exact ⟨c1, h1, h2, h3⟩
  · obtain ⟨c1, h1, h2, _⟩ := (readConnection_connect_failure sampleDecls 5
      (sampleController ExecState.init_state
        ([none, some (keyPressed 65)] ++ some (connectDone sampleDecls 5 0) :: [])
        [])).2.2 (by decide) 0 [none, some (keyPressed 65)] [] (by decide)
      (by
        intro h hh
        simp only [List.mem_cons, List.mem_singleton, List.not_mem_nil, or_false,
          Option.some.injEq] at hh
        rcases hh with hh | hh
        · exact absurd hh (by simp)
        · rw [hh]
          decide)
      (fun _ => by decide) rfl 4 (by decide)
    exact ⟨c1, h1, h2⟩

/-! ### `Controller::pause` -/

theorem clock_empty (c : Controller) (h : c.clock = []) :
    c.maGetMilliSecondCount.1 = c.finalTime := by
  simp [Controller.maGetMilliSecondCount, Controller.finalTime, h, lastReading]

theorem clock_length (c : Controller) (h : c.clock ≠ []) :
    c.maGetMilliSecondCount.2.clock.length + 1 = c.clock.length := by
  obtain ⟨rm, le, ept, px, py, pt, lp, ow, oh, ev, clock, now, sw, sh, rb, tr⟩ := c
  cases clock with
  | nil => exact absurd rfl h
  | cons t rest => simp [Controller.maGetMilliSecondCount]

theorem clock_runMode (c : Controller) : c.maGetMilliSecondCount.2.runMode = c.runMode := by
  obtain ⟨rm, le, ept, px, py, pt, lp, ow, oh, ev, clock, now, sw, sh, rb, tr⟩ := c
  cases clock <;> rfl

theorem clock_events (c : Controller) : c.maGetMilliSecondCount.2.events = c.events := by
  obtain ⟨rm, le, ept, px, py, pt, lp, ow, oh, ev, clock, now, sw, sh, rb, tr⟩ := c
  cases clock <;> rfl

/-- Once the clock is bound to reach the deadline, the modal loop of `pause` returns, in
`run_state` or, when an event set it meanwhile, in `exit_state`. -/
theorem pauseModal_returns (d : Decls) (ms msWait msStart : Int) :
    ∀ (fuel : Nat) (c : Controller), c.clock.length < fuel → c.finalTime - msStart ≥ ms →
      (c.runMode = ExecState.modal_state ∨ c.runMode = ExecState.exit_state) →
      ∃ r : Controller, Controller.pauseModal d ms msWait msStart fuel c = Outcome.returned r ∧
        (r.runMode = ExecState.run_state ∨ r.runMode = ExecState.exit_state) := by
  intro fuel
  induction fuel with
  | zero =>
    intro c h
    exact absurd h (Nat.not_lt_zero _)
  | succ fuel ih =>
    intro c hfuel hfinal hmode
    rw [Controller.pauseModal]
    by_cases hm : c.runMode = ExecState.modal_state
    · simp only [hm, if_true]
      by_cases hd : c.maGetMilliSecondCount.1 - msStart ≥ ms
      · simp only [hd, if_true]
        exact ⟨_, rfl, Or.inl rfl⟩
      · simp only [hd, if_false]
        have hne : c.clock ≠ [] := by
          intro he
          rw [clock_empty c he] at hd
          exact hd hfinal
        have hlen := clock_length c hne
        have hf1 := Frame.clock c
        have hf2 := Frame.processEvents d msWait none c.maGetMilliSecondCount.2
        refine ih _ (by have := hf2.2.2.2; omega) (by rw [hf2.2.2.1, hf1.2.2.1]; exact hfinal) ?_
        rcases hf2.1 with h1 | h1
        · exact Or.inl (by rw [h1, clock_runMode, hm])
        · exact Or.inr h1
    · simp only [hm, if_false]
      rcases hmode with h1 | h1
      · exact absurd h1 hm
      · exact ⟨c, rfl, Or.inr h1⟩

theorem handleKey_runMode (d : Decls) (key : Int) (c : Controller) (hk : ¬ exitKey d key) :
    (c.handleKey d key).runMode = c.runMode := by
  have h1 : c.handleKeyExit d key = c := by
    unfold Controller.handleKeyExit
    split_ifs with h2 h3
    · rfl
    · exact absurd h3 hk
    · rfl
  unfold Controller.handleKey
  rw [h1]
  split_ifs <;> rfl

theorem takeEvent_runMode (d : Decls) (hd : d.pseudoKeysApart) (h : HostEvent)
    (c : Controller) (hn : h.noExit d) : (c.takeEvent d h).runMode = c.runMode := by
  have hfire : (if Controller.isModal { c with readBuffer := storeBytes h.stored c.readBuffer }
      then Controller.fireEvent h.event
        { c with readBuffer := storeBytes h.stored c.readBuffer }
      else { c with readBuffer := storeBytes h.stored c.readBuffer }).runMode = c.runMode := by
    split_ifs <;> rfl
  unfold Controller.takeEvent
  simp only
  generalize (if Controller.isModal { c with readBuffer := storeBytes h.stored c.readBuffer }
      then Controller.fireEvent h.event
        { c with readBuffer := storeBytes h.stored c.readBuffer }
      else { c with readBuffer := storeBytes h.stored c.readBuffer }) = c1 at hfire ⊢
  rw [← hfire]
  unfold Controller.dispatch
  split
  · rw [handleKey_runMode d _ _ hd.1]
  · rw [handleKey_runMode d _ _ hd.2.1, clock_runMode]
  · rfl
  · split_ifs
    · rw [handleKey_runMode d _ _ hd.2.2]
    · rfl
  · rename_i hclose
    exact absurd hclose hn.1
  · rename_i hkey
    rw [handleKey_runMode d _ _ (hn.2 hkey)]
  · rfl

/-- The loop of `processEvents` over events none of which asks for the exit state keeps the run
mode, and what it leaves in the queue was in the queue. -/
theorem eventLoop_noExit (d : Decls) (hd : d.pseudoKeysApart) (untilType : Option EventType)
    (events : List (Option HostEvent)) :
    ∀ (ev : MAEvent) (c : Controller),
      (∀ h : HostEvent, some h ∈ events → h.noExit d) →
      c.runMode ≠ ExecState.exit_state →
      (Controller.eventLoop d untilType events ev c).2.1.runMode = c.runMode ∧
        ∀ e ∈ (Controller.eventLoop d untilType events ev c).2.2, e ∈ events := by
  induction events with
  | nil =>
    intro ev c _ _
    exact ⟨rfl, fun e he => he⟩
  | cons item rest ih =>
    intro ev c hq hm
    cases item with
    | none =>
      rw [eventLoop_cons_none d untilType rest ev c hm]
      exact ⟨rfl, fun e he => List.mem_cons_of_mem _ he⟩
    | some h =>
      have hrm := takeEvent_runMode d hd h c (hq h (List.mem_cons_self _ _))
      rw [eventLoop_cons_some d untilType h rest ev c hm]
      split_ifs
      · exact ⟨hrm, fun e he => List.mem_cons_of_mem _ he⟩
      · obtain ⟨h1, h2⟩ := ih h.event (c.takeEvent d h)
          (fun h2 hh => hq h2 (List.mem_cons_of_mem _ hh)) (by rw [hrm]; exact hm)
        exact ⟨by rw [h1, hrm], fun e he => List.mem_cons_of_mem _ (h2 e he)⟩

theorem processEvents_noExit (d : Decls) (hd : d.pseudoKeysApart) (ms : Int)
    (untilType : Option EventType) (c : Controller)
    (hq : ∀ h : HostEvent, some h ∈ c.events → h.noExit d)
    (hm : c.runMode ≠ ExecState.exit_state) :
    (c.processEvents d ms untilType).2.runMode = c.runMode ∧
      ∀ h : HostEvent, some h ∈ (c.processEvents d ms untilType).2.events → h.noExit d := by
  have hl : c.longPress.runMode ≠ ExecState.exit_state := by rw [longPress_runMode]; exact hm
  obtain ⟨h1, h2⟩ := eventLoop_noExit d hd untilType c.longPress.events d.uninit c.longPress
    (by rw [longPress_events]; exact hq) hl
  unfold Controller.processEvents
  refine ⟨?_, ?_⟩
  · rw [afterLoop_runMode]
    show (Controller.eventLoop d untilType c.longPress.events d.uninit c.longPress).2.1.runMode
      = c.runMode
    rw [h1, longPress_runMode]
  · rw [afterLoop_events]
    intro h hh
    exact hq h (by rw [← longPress_events]; exact h2 _ hh)

/-- When no event of the queue asks for the exit state, the modal loop of `pause` ends through
the deadline, in `run_state`. -/
theorem pauseModal_noExit (d : Decls) (hd : d.pseudoKeysApart) (ms msWait msStart : Int) :
    ∀ (fuel : Nat) (c : Controller) (r : Controller),
      (∀ h : HostEvent, some h ∈ c.events → h.noExit d) →
      c.runMode = ExecState.modal_state →
      Controller.pauseModal d ms msWait msStart fuel c = Outcome.returned r →
      r.runMode = ExecState.run_state := by
  intro fuel
  induction fuel with
  | zero =>
    intro c r _ _ h
    simp [Controller.pauseModal] at h
  | succ fuel ih =>
    intro c r hq hm h
    rw [Controller.pauseModal] at h
    simp only [hm, if_true] at h
    by_cases hdl : c.maGetMilliSecondCount.1 - msStart ≥ ms
    · simp only [hdl, if_true, Outcome.returned.injEq] at h
      rw [← h]
    · simp only [hdl, if_false] at h
      have hm1 : c.maGetMilliSecondCount.2.runMode = ExecState.modal_state := by
        rw [clock_runMode]
        exact hm
      have hp := processEvents_noExit d hd msWait none c.maGetMilliSecondCount.2
        (by rw [clock_events]; exact hq) (by rw [hm1]; decide)
      exact ih _ r hp.2 (by rw [hp.1, hm1]) h

/-- C5 (as amended): `Controller::pause(ms)` entered in `run_state` returns, once the clock
reaches the deadline, in `run_state` again (the run mode at the call) or, when an event moved
the controller to the exit state meanwhile, in `exit_state`; when no event of the queue is a
Close event or a press of a Back or SoftRight key it returns in `run_state`.
`Controller::readConnection` ended by a connect failure or by the end of the data returns in
`init_state`, whatever the run mode was at the call. -/
theorem modal_operations_final_mode (d : Decls) :
    (∀ (ms : Int) (c : Controller) (fuel : Nat), c.runMode = ExecState.run_state →
        c.clock.length < fuel → c.finalTime - c.maGetMilliSecondCount.1 ≥ ms →
        ∃ r : Controller, c.pause d ms fuel = Outcome.returned r ∧
          (r.runMode = ExecState.run_state ∨ r.runMode = ExecState.exit_state) ∧
          (d.pseudoKeysApart → (∀ h : HostEvent, some h ∈ c.events → h.noExit d) →
            r.runMode = ExecState.run_state)) ∧
    (∀ (conn rc : Int) (g0 : Nat) (c : Controller) (rest : List (Option HostEvent))
        (fuel : Nat), conn > 0 → rc ≤ 0 →
        (g0 = 0 ∨ d.uninit.type ≠ EventType.EVENT_TYPE_CONN) →
        c.events = List.replicate g0 none ++ some (connectDone d conn rc) :: rest →
        g0 + 2 ≤ fuel →
        ∃ c1 : Controller, c.readConnection d conn fuel = Outcome.returned (none, c1) ∧
          c1.runMode = ExecState.init_state) ∧
    (∀ (conn rc r : Int) (g0 gEnd : Nat) (items : List (Nat × List Nat))
        (rest : List (Option HostEvent)) (c : Controller) (fuel : Nat), conn > 0 →
        d.CONNOP_CONNECT ≠ d.CONNOP_READ → rc > 0 → r ≤ 0 → c.readBuffer.length = 1024 →
        (∀ it ∈ items, 0 < it.2.length ∧ it.2.length ≤ 1023) →
        ((g0 = 0 ∧ (∀ it ∈ items, it.1 = 0) ∧ gEnd = 0) ∨
          d.uninit.type ≠ EventType.EVENT_TYPE_CONN) →
        c.events = List.replicate g0 none ++ some (connectDone d conn rc) ::
          (readScript d conn items ++
            (List.replicate gEnd none ++ some (readEnd d conn r) :: rest)) →
        g0 + 1 + readScriptLength items + gEnd + 2 ≤ fuel →
        ∃ (x : Option (List Nat)) (c1 : Controller),
          c.readConnection d conn fuel = Outcome.returned (x, c1) ∧
          c1.runMode = ExecState.init_state) := by
  refine ⟨?_, ?_, ?_⟩
  · intro ms c fuel hm hfuel hfinal
    have hf := Frame.clock c
    have hp := pauseModal_returns d ms (Int.tdiv ms 2) c.maGetMilliSecondCount.1 fuel
      { c.maGetMilliSecondCount.2 with runMode := ExecState.modal_state }
      (lt_of_le_of_lt hf.2.2.2 hfuel)
      (by show c.maGetMilliSecondCount.2.finalTime - _ ≥ ms
          rw [hf.2.2.1]
          exact hfinal)
      (Or.inl rfl)
    obtain ⟨r, hr, hmode⟩ := hp
    refine ⟨r, ?_, hmode, ?_⟩
    · simp only [Controller.pause, hm, if_true]
      exact hr
    · intro hd hq
      exact pauseModal_noExit d hd ms (Int.tdiv ms 2) c.maGetMilliSecondCount.1 fuel
        { c.maGetMilliSecondCount.2 with runMode := ExecState.modal_state } r
        (by show ∀ h : HostEvent, some h ∈ c.maGetMilliSecondCount.2.events → h.noExit d
            rw [clock_events]
            exact hq) rfl hr
  · intro conn rc g0 c rest fuel hc hrc hidle hev hfuel
    obtain ⟨c1, hrun, hm1, _, _⟩ := connect_fail_run d conn rc hc hrc g0 hidle c rest hev
    obtain ⟨extra, rfl⟩ : ∃ e, fuel = g0 + 2 + e := ⟨fuel - (g0 + 2), by omega⟩
    exact ⟨c1, readConnection_mono d conn _ extra c _ hrun, hm1⟩
  · intro conn rc r g0 gEnd items rest c fuel hc hop hrc hr hlen hsize hidle hev hfuel
    obtain ⟨c1, hrun, hm1, _, _⟩ :=
      connect_success_run d conn rc r hc hop hrc hr g0 gEnd items rest c hlen hsize hidle hev
    obtain ⟨extra, rfl⟩ : ∃ e, fuel = g0 + 1 + readScriptLength items + gEnd + 2 + e :=
      ⟨fuel - (g0 + 1 + readScriptLength items + gEnd + 2), by omega⟩
    exact ⟨_, c1, readConnection_mono d conn _ extra c _ hrun, hm1⟩

theorem modal_operations_final_mode_witness :
    (∃ r : Controller,
        (sampleController ExecState.run_state [some (keyPressed 65)] [0, 40, 150]).pause
          sampleDecls 100 4 = Outcome.returned r ∧ r.runMode = ExecState.run_state) ∧
      (∃ c1 : Controller,
        (sampleController ExecState.init_state
          (List.replicate 1 none ++ some (connectDone sampleDecls 5 0) :: [])
          []).readConnection sampleDecls 5 3 = Outcome.returned (none, c1) ∧
        c1.runMode = ExecState.init_state) ∧
      (∃ (x : Option (List Nat)) (c1 : Controller),
        (sampleController ExecState.init_state
          (List.replicate 0 none ++ some (connectDone sampleDecls 5 1) ::
            (readScript sampleDecls 5 [(0, [72, 105])] ++
              (List.replicate 0 none ++ some (readEnd sampleDecls 5 0) :: [])))
          []).readConnection sampleDecls 5 4 = Outcome.returned (x, c1) ∧
        c1.runMode = ExecState.init_state) := by
  have h := modal_operations_final_mode sampleDecls
  obtain ⟨r, h1, _, h2⟩ := h.1 100
    (sampleController ExecState.run_state [some (keyPressed 65)] [0, 40, 150]) 4 rfl
    (by decide) (by decide)
  have hd : sampleDecls.pseudoKeysApart := by decide
  have hq : ∀ h : HostEvent, some h ∈ [some (keyPressed 65)] → h.noExit sampleDecls := by
    intro h hh
    simp only [List.mem_singleton, Option.some.injEq] at hh
    rw [hh]
    decide
  refine ⟨⟨r, h1, h2 hd hq⟩, ?_, ?_⟩
  · exact h.2.1 5 0 1 _ [] 3 (by decide) (by decide) (Or.inr (by decide)) rfl (by decide)
  · exact h.2.2 5 1 0 0 0 [(0, [72, 105])] [] _ 4 (by decide) (by decide) (by decide)
      (by decide) (List.length_replicate 1024 0) (by decide) (Or.inr (by decide)) rfl
      (by decide)

/-- C5, as stated, fails for `readConnection`: called in `run_state` and ended by a connect
failure it returns in `init_state`, not in the run mode it was called in. -/
theorem modal_operations_counterexample :
    (sampleController ExecState.run_state
        (List.replicate 0 none ++ some (connectDone sampleDecls 5 0) :: []) []).runMode =
      ExecState.run_state ∧
    ∃ c1 : Controller,
      (sampleController ExecState.run_state
        (List.replicate 0 none ++ some (connectDone sampleDecls 5 0) :: [])
        []).readConnection sampleDecls 5 2 = Outcome.returned (none, c1) ∧
      c1.runMode = ExecState.init_state ∧ c1.runMode ≠ ExecState.run_state := by
  refine ⟨rfl, ?_⟩
  obtain ⟨c1, hrun, hm1, _, _⟩ := connect_fail_run sampleDecls 5 0 (by decide)
    (by decide) 0 (Or.inl rfl)
    (sampleController ExecState.run_state
      (List.replicate 0 none ++ some (connectDone sampleDecls 5 0) :: []) []) [] rfl
  exact ⟨c1, hrun, hm1, by rw [hm1]; decide⟩

/-! ### Closing the handle -/

/-- When the loop of `processEvents` ends in the exit state, the event it ends with is not a
Connection event: such an event never sets the exit state, and no event is fetched after the
exit state was set. -/
theorem eventLoop_exit_event (d : Decls) (untilType : Option EventType)
    (events : List (Option HostEvent)) :
    ∀ (event : MAEvent) (c : Controller),
      (c.runMode = ExecState.exit_state → event.type ≠ EventType.EVENT_TYPE_CONN) →
      (Controller.eventLoop d untilType events event c).2.1.runMode = ExecState.exit_state →
      (Controller.eventLoop d untilType events event c).1.type ≠ EventType.EVENT_TYPE_CONN := by
  induction events with
  | nil =>
    intro event c hinv hexit
    exact hinv hexit
  | cons item rest ih =>
    intro event c hinv
    cases item with
    | none =>
      simp only [Controller.eventLoop]
      split_ifs <;> exact hinv
    | some h =>
      have hnext : (c.takeEvent d h).runMode = ExecState.exit_state →
          c.runMode ≠ ExecState.exit_state → h.event.type ≠ EventType.EVENT_TYPE_CONN := by
        intro hx hc ht
        rw [takeEvent_conn_runMode d c h ht] at hx
        exact hc hx
      simp only [Controller.eventLoop, Controller.isExit, decide_eq_true_eq]
      split_ifs with he hu
      · exact hinv
      · exact fun hx => hnext hx he
      · exact ih h.event (c.takeEvent d h) (fun hx => hnext hx he)

theorem processEvents_exit_event (d : Decls) (ms : Int) (untilType : Option EventType)
    (c : Controller) (hm : c.runMode ≠ ExecState.exit_state)
    (hexit : (c.processEvents d ms untilType).2.runMode = ExecState.exit_state) :
    (c.processEvents d ms untilType).1.type ≠ EventType.EVENT_TYPE_CONN := by
  unfold Controller.processEvents at hexit ⊢
  rw [afterLoop_runMode] at hexit
  exact eventLoop_exit_event d untilType _ d.uninit c.longPress
    (fun hx => absurd (by rw [← longPress_runMode]; exact hx) hm) hexit

theorem onConnEvent_connCalls (d : Decls) (conn : Int) (event : MAEvent) (st : ReadState)
    (c : Controller) (x : ReadState × Controller)
    (h : Controller.onConnEvent d conn event st c = Outcome.returned x) :
    connCalls x.2.trace = connCalls c.trace ∨
      connCalls x.2.trace = connCalls c.trace ++ [Call.maConnRead conn 1023] := by
  unfold Controller.onConnEvent at h
  by_cases h1 : event.type = EventType.EVENT_TYPE_CONN
  · by_cases h2 : event.conn.opType = d.CONNOP_CONNECT
    · by_cases h3 : st.connected = true
      · simp only [h1, h2, h3, if_true, Bool.not_true, Bool.false_eq_true, if_false,
          Outcome.returned.injEq] at h
        rw [← h]
        exact Or.inl rfl
      · by_cases h4 : event.conn.result > 0
        · simp [h1, h2, h3, h4] at h
          rw [← h]
          exact Or.inr (connCalls_read _ conn)
        · simp [h1, h2, h3, h4] at h
          rw [← h]
          exact Or.inl rfl
    · by_cases h3 : event.conn.opType = d.CONNOP_READ
      · have h6 : ¬ d.CONNOP_READ = d.CONNOP_CONNECT := by
          rw [← h3]
          exact h2
        by_cases h4 : event.conn.result > 0
        · by_cases h5 : event.conn.result < 1024
          · simp only [h1, h3, h6, h4, h5, if_true, if_false, Outcome.returned.injEq] at h
            rw [← h]
            exact Or.inr (connCalls_read _ conn)
          · simp [h1, h3, h6, h4, h5] at h
        · simp only [h1, h3, h6, h4, if_true, if_false, Outcome.returned.injEq] at h
          rw [← h]
          exact Or.inl rfl
      · simp only [h1, h2, h3, if_true, if_false, Outcome.returned.injEq] at h
        rw [← h]
        exact Or.inl rfl
  · simp only [h1, if_false, Outcome.returned.injEq] at h
    rw [← h]
    exact Or.inl rfl

theorem readLoop_connCalls (d : Decls) (conn : Int) :
    ∀ (fuel : Nat) (st : ReadState) (c : Controller) (x : ReadState × Controller),
      Controller.readLoop d conn fuel st c = Outcome.returned x →
      ∃ n : Nat, connCalls x.2.trace =
        connCalls c.trace ++ List.replicate n (Call.maConnRead conn 1023) := by
  intro fuel
  induction fuel with
  | zero =>
    intro st c x h
    simp [Controller.readLoop] at h
  | succ fuel ih =>
    intro st c x h
    by_cases hm : c.runMode = ExecState.conn_state
    · rw [readLoop_step d conn fuel st c hm] at h
      cases ho : Controller.onConnEvent d conn
          (c.processEvents d 50 (some EventType.EVENT_TYPE_CONN)).1 st
          (c.processEvents d 50 (some EventType.EVENT_TYPE_CONN)).2 with
      | returned r =>
        rw [ho] at h
        obtain ⟨n, hn⟩ := ih _ _ _ h
        have hp := (Frame.processEvents d 50 (some EventType.EVENT_TYPE_CONN) c).2.1
        rcases onConnEvent_connCalls d conn _ st _ r ho with h1 | h1
        · exact ⟨n, by rw [hn, h1, hp]⟩
        · exact ⟨n + 1, by rw [hn, h1, hp, List.append_assoc, List.replicate_succ]; rfl⟩
      | blocked => rw [ho] at h; simp at h
      | fault => rw [ho] at h; simp at h
      | outOfFuel => rw [ho] at h; simp at h
    · rw [readLoop_done d conn fuel st c hm] at h
      simp only [Outcome.returned.injEq] at h
      exact ⟨0, by rw [← h]; simp⟩

/-- C8: on every execution of `readConnection` with a positive handle that gets past its wait
loop, the calls concerning the handle are `maConnRead` calls followed by exactly one
`maConnClose`, the last of them; and when a call of `processEvents` in the loop leaves the
controller in the exit state (a Close event, a Back key), the loop returns right after it, with
the controller as `processEvents` left it and the locals untouched, so that no `maConnRead`
follows. -/
theorem readConnection_closes_handle (d : Decls) (conn : Int) (hconn : conn > 0) :
    (∀ (fuel : Nat) (c : Controller) (x : Option (List Nat) × Controller),
        c.readConnection d conn fuel = Outcome.returned x →
        ∃ n : Nat, connCalls x.2.trace = connCalls c.trace ++
          List.replicate n (Call.maConnRead conn 1023) ++ [Call.maConnClose conn]) ∧
    (∀ (fuel : Nat) (st : ReadState) (c : Controller), c.runMode = ExecState.conn_state →
        (c.processEvents d 50 (some EventType.EVENT_TYPE_CONN)).2.runMode =
          ExecState.exit_state →
        Controller.readLoop d conn (fuel + 2) st c =
          Outcome.returned (st, (c.processEvents d 50 (some EventType.EVENT_TYPE_CONN)).2)) := by
  refine ⟨?_, ?_⟩
  · intro fuel c x h
    unfold Controller.readConnection at h
    simp only [hconn, if_true] at h
    cases hl : Controller.readLoop d conn fuel
        { connected := false, length := 0, size := 0, result := none }
        { c.call Call.maConnect with runMode := ExecState.conn_state } with
    | returned r =>
      rw [hl] at h
      simp only [Outcome.returned.injEq] at h
      obtain ⟨n, hn⟩ := readLoop_connCalls d conn fuel _ _ r hl
      refine ⟨n, ?_⟩
      rw [← h, connCalls_close, hn]
      show connCalls (c.call Call.maConnect).trace ++ _ ++ _ = _
      rw [connCalls_connect]
    | blocked => rw [hl] at h; simp at h
    | fault => rw [hl] at h; simp at h
    | outOfFuel => rw [hl] at h; simp at h
  · intro fuel st c hm hexit
    have hne : c.runMode ≠ ExecState.exit_state := by rw [hm]; decide
    rw [readLoop_step d conn (fuel + 1) st c hm,
      onConnEvent_other d conn _ st _
        (processEvents_exit_event d 50 (some EventType.EVENT_TYPE_CONN) c hne hexit)]
    exact readLoop_done d conn fuel st _ (by rw [hexit]; decide)

theorem readConnection_closes_handle_witness :
    (∃ (c1 : Controller) (n : Nat),
        (sampleController ExecState.init_state
          (List.replicate 0 none ++ some (connectDone sampleDecls 5 0) :: [])
          []).readConnection sampleDecls 5 2 = Outcome.returned (none, c1) ∧
        connCalls c1.trace =
          [] ++ List.replicate n (Call.maConnRead 5 1023) ++ [Call.maConnClose 5]) ∧
      Controller.readLoop sampleDecls 5 2
          { connected := true, length := 0, size := 0, result := none }
          (sampleController ExecState.conn_state [some (keyPressed 293)] []) =
        Outcome.returned ({ connected := true, length := 0, size := 0, result := none },
          ((sampleController ExecState.conn_state [some (keyPressed 293)] []).processEvents
            sampleDecls 50 (some EventType.EVENT_TYPE_CONN)).2) := by
  have h := readConnection_closes_handle sampleDecls 5 (by decide)
  refine ⟨?_, h.2 0 _ _ rfl rfl⟩
  obtain ⟨c1, hrun, _⟩ := connect_fail_run sampleDecls 5 0 (by decide)
    (by decide) 0 (Or.inl rfl)
    (sampleController ExecState.init_state
      (List.replicate 0 none ++ some (connectDone sampleDecls 5 0) :: []) []) [] rfl
  obtain ⟨n, hn⟩ := h.1 2 _ _ hrun
  exact ⟨c1, n, hrun, hn⟩

/-! ### The run mode once the exit state is reached -/

theorem maGetEvent_runMode (c : Controller) : c.maGetEvent.2.runMode = c.runMode := by
  unfold Controller.maGetEvent
  split <;> rfl

theorem pauseDrain_runMode (ms msStart : Int) :
    ∀ (fuel : Nat) (c r : Controller),
      Controller.pauseDrain ms msStart fuel c = Outcome.returned r → r.runMode = c.runMode := by
  intro fuel
  induction fuel with
  | zero =>
    intro c r h
    simp [Controller.pauseDrain] at h
  | succ fuel ih =>
    intro c r h
    rw [Controller.pauseDrain] at h
    by_cases hd : c.maGetMilliSecondCount.1 - msStart < ms
    · simp only [hd, if_true] at h
      rw [ih _ r h]
      split_ifs
      · rw [maGetEvent_runMode, clock_runMode]
      · show c.maGetMilliSecondCount.2.maGetEvent.2.runMode = c.runMode
        rw [maGetEvent_runMode, clock_runMode]
    · simp only [hd, if_false, Outcome.returned.injEq] at h
      rw [← h, clock_runMode]

/-! ### The pen -/

theorem handleKey_pen (d : Decls) (key : Int) (c : Controller) :
    (c.handleKey d key).penDownX = c.penDownX ∧ (c.handleKey d key).penDownY = c.penDownY ∧
      (c.handleKey d key).penDownTime = c.penDownTime := by
  unfold Controller.handleKey Controller.handleKeyExit
  split_ifs <;> exact ⟨rfl, rfl, rfl⟩

theorem afterLoop_pen (ms : Int) (c : Controller) :
    (c.afterLoop ms).penDownX = c.penDownX ∧ (c.afterLoop ms).penDownY = c.penDownY ∧
      (c.afterLoop ms).penDownTime = c.penDownTime := by
  unfold Controller.afterLoop
  split_ifs <;> exact ⟨rfl, rfl, rfl⟩

theorem longPress_pen (c : Controller) :
    c.longPress.penDownX = c.penDownX ∧ c.longPress.penDownY = c.penDownY ∧
      c.longPress.outputHeight = c.outputHeight ∧ c.longPress.scrHeight = c.scrHeight := by
  unfold Controller.longPress Controller.maGetMilliSecondCount
  cases c.clock <;> (split_ifs <;> exact ⟨rfl, rfl, rfl, rfl⟩)

/-- The loop body of `processEvents` for a pointer-pressed event stores its position. -/
theorem takeEvent_pressed (d : Decls) (c : Controller) (x y : Int) :
    (c.takeEvent d (pointerEvent EventType.EVENT_TYPE_POINTER_PRESSED x y)).penDownX = x ∧
      (c.takeEvent d (pointerEvent EventType.EVENT_TYPE_POINTER_PRESSED x y)).penDownY = y := by
  simp only [Controller.takeEvent, Controller.dispatch, pointerEvent]
  exact ⟨(handleKey_pen d _ _).1, (handleKey_pen d _ _).2.1⟩

/-- The loop body of `processEvents` for a pointer-released event. -/
theorem takeEvent_released (d : Decls) (c : Controller) (x y : Int) :
    (y < c.outputHeight →
      (c.takeEvent d (pointerEvent EventType.EVENT_TYPE_POINTER_RELEASED x y)).penDownX = -1 ∧
      (c.takeEvent d (pointerEvent EventType.EVENT_TYPE_POINTER_RELEASED x y)).penDownY = -1 ∧
      (c.takeEvent d (pointerEvent EventType.EVENT_TYPE_POINTER_RELEASED x y)).penDownTime =
        0) ∧
    (¬ y < c.outputHeight →
      (c.takeEvent d (pointerEvent EventType.EVENT_TYPE_POINTER_RELEASED x y)).penDownX =
        c.penDownX ∧
      (c.takeEvent d (pointerEvent EventType.EVENT_TYPE_POINTER_RELEASED x y)).penDownY =
        c.penDownY ∧
      (c.takeEvent d (pointerEvent EventType.EVENT_TYPE_POINTER_RELEASED x y)).penDownTime =
        c.penDownTime) := by
  have hh : (if Controller.isModal { c with readBuffer := storeBytes [] c.readBuffer }
      then Controller.fireEvent (pointerEvent EventType.EVENT_TYPE_POINTER_RELEASED x y).event
        { c with readBuffer := storeBytes [] c.readBuffer }
      else { c with readBuffer := storeBytes [] c.readBuffer }).outputHeight =
        c.outputHeight := by
    split_ifs <;> rfl
  refine ⟨?_, ?_⟩
  · intro hy
    simp only [Controller.takeEvent, Controller.dispatch, pointerEvent] at hh ⊢
    rw [if_pos (by rw [hh]; exact hy)]
    exact ⟨(handleKey_pen d _ _).1, (handleKey_pen d _ _).2.1, (handleKey_pen d _ _).2.2⟩
  · intro hy
    simp only [Controller.takeEvent, Controller.dispatch, pointerEvent] at hh ⊢
    rw [if_neg (by rw [hh]; exact hy)]
    split_ifs <;> exact ⟨rfl, rfl, rfl⟩

/-- The pen members after a `processEvents` that finds one event and then an empty queue are
the ones the loop body left. -/
theorem processEvents_single_pen (d : Decls) (ms : Int) (c : Controller) (h : HostEvent)
    (rest : List (Option HostEvent)) (hev : c.events = some h :: none :: rest)
    (hne : c.runMode ≠ ExecState.exit_state) :
    (c.processEvents d ms none).2.penDownX = (c.longPress.takeEvent d h).penDownX ∧
      (c.processEvents d ms none).2.penDownY = (c.longPress.takeEvent d h).penDownY ∧
      (c.processEvents d ms none).2.penDownTime = (c.longPress.takeEvent d h).penDownTime := by
  have hl : c.longPress.runMode ≠ ExecState.exit_state := by rw [longPress_runMode]; exact hne
  have hloop : (Controller.eventLoop d none c.longPress.events d.uninit c.longPress).2.1 =
      c.longPress.takeEvent d h := by
    rw [longPress_events, hev, eventLoop_cons_some d none h _ _ _ hl, if_neg (by simp)]
    by_cases he : (c.longPress.takeEvent d h).runMode = ExecState.exit_state
    · rw [eventLoop_of_exit d none _ _ _ he]
    · rw [eventLoop_cons_none d none _ _ _ he]
  unfold Controller.processEvents
  simp only
  obtain ⟨h1, h2, h3⟩ := afterLoop_pen ms
    { (Controller.eventLoop d none c.longPress.events d.uninit c.longPress).2.1 with
      events := (Controller.eventLoop d none c.longPress.events d.uninit c.longPress).2.2 }
  rw [h1, h2, h3]
  simp only [hloop]
  exact ⟨trivial, trivial, trivial⟩

/-- A `processEvents` that finds nothing pending leaves the pen position, the (empty) queue and
the run mode as they are. -/
theorem processEvents_nothing (d : Decls) (ms : Int) (c : Controller) (hev : c.events = []) :
    (c.processEvents d ms none).2.penDownX = c.penDownX ∧
      (c.processEvents d ms none).2.penDownY = c.penDownY ∧
      (c.processEvents d ms none).2.events = [] ∧
      (c.processEvents d ms none).2.runMode = c.runMode := by
  unfold Controller.processEvents
  rw [longPress_events, hev]
  simp only [Controller.eventLoop]
  obtain ⟨h1, h2, -⟩ := afterLoop_pen ms { c.longPress with events := [] }
  rw [h1, h2, afterLoop_events, afterLoop_runMode]
  exact ⟨(longPress_pen c).1, (longPress_pen c).2.1, rfl, longPress_runMode c⟩

/-- C25: in `Controller::processEvents`, on a controller that is not in the exit state, a
pointer-pressed event at `(x, y)` that is processed leaves `penDownX = x` and `penDownY = y`, so
that the pen counts as down (both differ from -1 for a position on the screen); a
pointer-released event that is processed at a position on the screen (its `y` is below the
screen height, which is the height the output was given) leaves `penDownX = penDownY = -1` and
`penDownTime = 0`, so that the pen counts as up, whatever the pen members were before. A release
with `y` at or beyond the output height, which is not on the screen, leaves the pen position.
With nothing pending, `getPen(3)` returns 1 exactly when both `penDownX` and `penDownY` differ
from -1, and leaves them alone. -/
theorem pen_tracks_pointer (d : Decls) (c : Controller) (x y ms : Int)
    (rest : List (Option HostEvent)) (hrun : c.runMode ≠ ExecState.exit_state) :
    (c.events = some (pointerEvent EventType.EVENT_TYPE_POINTER_PRESSED x y) :: none :: rest →
      (c.processEvents d ms none).2.penDownX = x ∧
      (c.processEvents d ms none).2.penDownY = y ∧
      (x ≠ -1 → y ≠ -1 → (c.processEvents d ms none).2.penDown = 1)) ∧
    (c.events = some (pointerEvent EventType.EVENT_TYPE_POINTER_RELEASED x y) :: none :: rest →
      c.outputHeight = c.scrHeight → y < c.scrHeight →
      (c.processEvents d ms none).2.penDownX = -1 ∧
      (c.processEvents d ms none).2.penDownY = -1 ∧
      (c.processEvents d ms none).2.penDownTime = 0 ∧
      (c.processEvents d ms none).2.penDown = 0) ∧
    (c.events = some (pointerEvent EventType.EVENT_TYPE_POINTER_RELEASED x y) :: none :: rest →
      ¬ y < c.outputHeight →
      (c.processEvents d ms none).2.penDownX = c.penDownX ∧
      (c.processEvents d ms none).2.penDownY = c.penDownY) ∧
    (c.events = [] → ∀ penOff : Bool,
      (c.getPen d penOff 3).1 = c.penDown ∧
      (c.getPen d penOff 3).2.penDownX = c.penDownX ∧
      (c.getPen d penOff 3).2.penDownY = c.penDownY) := by
  refine ⟨?_, ?_, ?_, ?_⟩
  · intro hev
    obtain ⟨h1, h2, -⟩ := processEvents_single_pen d ms c _ rest hev hrun
    obtain ⟨h3, h4⟩ := takeEvent_pressed d c.longPress x y
    rw [h3] at h1
    rw [h4] at h2
    refine ⟨h1, h2, ?_⟩
    intro hx hy
    simp [Controller.penDown, h1, h2, hx, hy]
  · intro hev hout hy
    obtain ⟨h1, h2, h3⟩ := processEvents_single_pen d ms c _ rest hev hrun
    have hy2 : y < c.longPress.outputHeight := by
      rw [(longPress_pen c).2.2.1, hout]
      exact hy
    obtain ⟨h4, h5, h6⟩ := (takeEvent_released d c.longPress x y).1 hy2
    rw [h4] at h1
    rw [h5] at h2
    rw [h6] at h3
    refine ⟨h1, h2, h3, ?_⟩
    simp [Controller.penDown, h1]
  · intro hev hy
    obtain ⟨h1, h2, -⟩ := processEvents_single_pen d ms c _ rest hev hrun
    have hy2 : ¬ y < c.longPress.outputHeight := by
      rw [(longPress_pen c).2.2.1]
      exact hy
    obtain ⟨h4, h5, -⟩ := (takeEvent_released d c.longPress x y).2 hy2
    rw [h4, (longPress_pen c).1] at h1
    rw [h5, (longPress_pen c).2.1] at h2
    exact ⟨h1, h2⟩
  · intro hev penOff
    have hex : c.isExit = false := by simp [Controller.isExit, hrun]
    obtain ⟨p1, p2, p3, -⟩ := processEvents_nothing d 0 c hev
    cases penOff with
    | false => simp [Controller.getPen, hex, Controller.penDown, p1, p2]
    | true =>
      obtain ⟨q1, q2, -, -⟩ := processEvents_nothing d 0 (c.processEvents d 0 none).2 p3
      simp [Controller.getPen, hex, Controller.penDown, q1, q2, p1, p2]

theorem pen_tracks_pointer_witness :
    ((sampleController ExecState.run_state
        [some (pointerEvent EventType.EVENT_TYPE_POINTER_PRESSED 10 20), none,
          some (pointerEvent EventType.EVENT_TYPE_POINTER_RELEASED 15 300), none]
        [100]).processEvents sampleDecls 0 none).2.penDownX = 10 ∧
      ((sampleController ExecState.run_state
        [some (pointerEvent EventType.EVENT_TYPE_POINTER_PRESSED 10 20), none,
          some (pointerEvent EventType.EVENT_TYPE_POINTER_RELEASED 15 300), none]
        [100]).processEvents sampleDecls 0 none).2.penDown = 1 ∧
      ({ sampleController ExecState.run_state
          [some (pointerEvent EventType.EVENT_TYPE_POINTER_RELEASED 15 300), none] [] with
          penDownX := 10, penDownY := 20, penDownTime := 100 }.processEvents
        sampleDecls 0 none).2.penDown = 0 := by
  have h1 := pen_tracks_pointer sampleDecls (sampleController ExecState.run_state
    [some (pointerEvent EventType.EVENT_TYPE_POINTER_PRESSED 10 20), none,
      some (pointerEvent EventType.EVENT_TYPE_POINTER_RELEASED 15 300), none] [100]) 10 20 0
    [some (pointerEvent EventType.EVENT_TYPE_POINTER_RELEASED 15 300), none] (by decide)
  have h2 := pen_tracks_pointer sampleDecls { sampleController ExecState.run_state
      [some (pointerEvent EventType.EVENT_TYPE_POINTER_RELEASED 15 300), none] [] with
      penDownX := 10, penDownY := 20, penDownTime := 100 } 15 300 0 [] (by decide)
  exact ⟨(h1.1 rfl).1, (h1.1 rfl).2.2 (by decide) (by decide),
    (h2.2.1 rfl rfl (by decide)).2.2.2⟩

end MoSync

namespace SmallBASIC

/-- C2 (as amended): the event handling of the controller (`handleKey`, `processEvents`) assigns
no run mode other than `exit_state`, so it and `Controller::pause` leave `exit_state` in place
once it is reached; `Runtime::runShell` always ends in the Done state; `Runtime::construct` ends
in the Closing or the Active state. But `Controller::setRunning` assigns `run_state` and a
successful `Runtime::construct` assigns the Active state whatever the current state is. -/
theorem closing_state_assignments (d : MoSync.Decls) :
    (∀ (c : MoSync.Controller) (key : Int),
        (c.handleKey d key).runMode = c.runMode ∨
          (c.handleKey d key).runMode = MoSync.ExecState.exit_state) ∧
    (∀ (c : MoSync.Controller) (ms : Int) (untilType : Option EventType),
        (c.processEvents d ms untilType).2.runMode = c.runMode ∨
          (c.processEvents d ms untilType).2.runMode = MoSync.ExecState.exit_state) ∧
    (∀ (c : MoSync.Controller) (key : Int), c.runMode = MoSync.ExecState.exit_state →
        (c.handleKey d key).runMode = MoSync.ExecState.exit_state) ∧
    (∀ (c : MoSync.Controller) (ms : Int) (untilType : Option EventType),
        c.runMode = MoSync.ExecState.exit_state →
        (c.processEvents d ms untilType).2.runMode = MoSync.ExecState.exit_state) ∧
    (∀ (c r : MoSync.Controller) (ms : Int) (fuel : Nat),
        c.runMode = MoSync.ExecState.exit_state → c.pause d ms fuel = Outcome.returned r →
        r.runMode = MoSync.ExecState.exit_state) ∧
    (∀ (run : Android.Runtime → Android.Runtime) (rt : Android.Runtime),
        (rt.runShell run)._state = Android.State.kDoneState) ∧
    (∀ (env : Android.ConstructEnv) (rt : Android.Runtime),
        (rt.construct env)._state = Android.State.kClosingState ∨
          (rt.construct env)._state = Android.State.kActiveState) ∧
    (∀ c : MoSync.Controller, c.setRunning.runMode = MoSync.ExecState.run_state) ∧
    (∀ (env : Android.ConstructEnv) (rt : Android.Runtime), env.graphicsAllocated = true →
        env.graphicsConstructed = true → env.outputAllocated = true →
        env.outputConstructed = true → env.queueAllocated = true →
        (rt.construct env)._state = Android.State.kActiveState) := by
  refine ⟨?_, ?_, ?_, ?_, ?_, ?_, ?_, ?_, ?_⟩
  · intro c key
    exact (MoSync.Frame.handleKey d key c).1
  · intro c ms untilType
    exact (MoSync.Frame.processEvents d ms untilType c).1
  · intro c key he
    exact MoSync.Frame.exit_stays (MoSync.Frame.handleKey d key c) he
  · intro c ms untilType he
    exact MoSync.Frame.exit_stays (MoSync.Frame.processEvents d ms untilType c) he
  · intro c r ms fuel he h
    have hne : c.runMode ≠ MoSync.ExecState.run_state := by rw [he]; decide
    simp only [MoSync.Controller.pause, hne, if_false] at h
    rw [MoSync.pauseDrain_runMode ms _ fuel _ r h, MoSync.clock_runMode, he]
  · intro run rt
    rfl
  · intro env rt
    simp only [Android.Runtime.construct]
    split_ifs <;> first | exact Or.inl rfl | exact Or.inr rfl
  · intro c
    rfl
  · intro env rt h1 h2 h3 h4 h5
    simp [Android.Runtime.construct, h1, h2, h3, h4, h5]

theorem closing_state_assignments_witness :
    ((MoSync.sampleController MoSync.ExecState.exit_state [some (MoSync.keyPressed 65)]
        []).processEvents MoSync.sampleDecls 0 none).2.runMode = MoSync.ExecState.exit_state ∧
      ((MoSync.sampleController MoSync.ExecState.exit_state [] []).handleKey
        MoSync.sampleDecls 65).runMode = MoSync.ExecState.exit_state ∧
      (Android.Runtime.construct Android.sampleEnv (Android.Runtime.new []))._state =
        Android.State.kActiveState := by
  have h := closing_state_assignments MoSync.sampleDecls
  exact ⟨h.2.2.2.1 _ 0 none rfl, h.2.2.1 _ 65 rfl,
    h.2.2.2.2.2.2.2.2 Android.sampleEnv (Android.Runtime.new []) rfl rfl rfl rfl rfl⟩

/-- C2, as stated, fails: `Controller::setRunning` called in `exit_state` leaves it for
`run_state`, and `Runtime::construct`, which starts by assigning the Closing state, goes on to
the Active state when its creation steps succeed, also when entered in the Closing or the Done
state. -/
theorem closing_state_counterexample :
    (MoSync.sampleController MoSync.ExecState.exit_state [] []).setRunning.runMode =
        MoSync.ExecState.run_state ∧
      (Android.Runtime.construct Android.sampleEnv
        { Android.Runtime.new [] with _state := Android.State.kClosingState })._state =
        Android.State.kActiveState ∧
      (Android.Runtime.construct Android.sampleEnv
        { Android.Runtime.new [] with _state := Android.State.kDoneState })._state =
        Android.State.kActiveState := by
  exact ⟨rfl, rfl, rfl⟩

end SmallBASIC
